import Mathlib

/-!
# JuPedSim `Building` (jpscore/geometry/Building.cpp)

A shallow embedding of the `Building` aggregate: the id-keyed connector
collections, the live pedestrian list, geometry initialisation, the
visibility query and the set-up of the linked-cell grid. The last part of
the embedding is `ArgumentParser::ParseIniFile` of jpsreport
(jpsreport/general/ArgumentParser.cpp).

Conventions of the embedding

* `double` values are exact rationals (`ℚ`); `FLT_MAX` and `FLT_MIN` are the
  `<cfloat>` constants.
* `std::map<int, T>` is the list of its entries in iteration order (`StdMap`).
* Objects owned through the room tree (rooms, subrooms, obstacles) are values;
  a `SubRoom*` held by a connector is the path `(room key, subroom key)` of
  the subroom in that tree, `none` for a null pointer.
* `Pedestrian*` is an address into a free store (`PedStore`); `delete` removes
  the object from the store.
* A call ends in an `Outcome`: a normal return, `exit(EXIT_FAILURE)`, or
  undefined behaviour (null or dangling dereference, out-of-range index).
-/

namespace JuPedSim

/-! ## Outcomes -/

/-- How a call of an embedded member function ends. -/
inductive Outcome (α : Type) where
  /-- The call returns normally. -/
  | ret (a : α)
  /-- The call ends the process through `exit(EXIT_FAILURE)`. -/
  | aborted
  /-- The call runs into undefined behaviour. -/
  | fault
deriving DecidableEq

namespace Outcome

/-- Sequencing: the continuation runs only after a normal return. -/
def bind {α β : Type} (o : Outcome α) (f : α → Outcome β) : Outcome β :=
  match o with
  | ret a => f a
  | aborted => aborted
  | fault => fault

/-- Whether the call returned normally. -/
def returns {α : Type} (o : Outcome α) : Bool :=
  match o with
  | ret _ => true
  | _ => false

end Outcome

/-! ## `std::map<int, T>` -/

/-- Entries of a `std::map<int, T>` in iteration order. -/
abbrev StdMap (α : Type) := List (Int × α)

namespace StdMap

/-- Keys of the map in iteration order. -/
def keys {α : Type} (m : StdMap α) : List Int := m.map Prod.fst

/-- Number of entries under key `k`, the result of `std::map::count`. -/
def count {α : Type} (m : StdMap α) (k : Int) : Nat :=
  (m.filter (fun e => e.1 == k)).length

/-- Entry stored under `k`, if any (`std::map::find`). -/
def find? {α : Type} (m : StdMap α) (k : Int) : Option α :=
  match m with
  | [] => none
  | (k', v) :: rest => if k' = k then some v else find? rest k

/-- Assignment `m[k] = v`: replaces the entry under `k`, or inserts a new one
at its place in key order. -/
def set {α : Type} (m : StdMap α) (k : Int) (v : α) : StdMap α :=
  match m with
  | [] => [(k, v)]
  | (k', v') :: rest =>
    if k < k' then (k, v) :: (k', v') :: rest
    else if k = k' then (k, v) :: rest
    else (k', v') :: set rest k v

/-- Result of `std::map::size`. -/
def size {α : Type} (m : StdMap α) : Nat := m.length

/-- Applies `f` to the entry stored under `k` (first match), if any. -/
def modify {α : Type} (m : StdMap α) (k : Int) (f : α → α) : StdMap α :=
  match m with
  | [] => []
  | (k', v) :: rest => if k' = k then (k', f v) :: rest else (k', v) :: modify rest k f

/-- Keys strictly ascending: the representation invariant of `std::map`. -/
def WF {α : Type} (m : StdMap α) : Prop := (keys m).Pairwise (· < ·)

end StdMap

/-! ## Geometry data -/

/-- Value of `FLT_MAX` from `<cfloat>`. -/
def FLT_MAX : ℚ := 340282346638528859811704183484516925440

/-- Value of `FLT_MIN` from `<cfloat>`: the smallest positive normalised float, `2^-126`. -/
def FLT_MIN : ℚ := 1 / 85070591730234615865843651857942052864

/-- A 2D point (`Point::_x`, `Point::_y`). -/
structure Point where
  x : ℚ
  y : ℚ
deriving DecidableEq

/-- A line segment (`Line`), base of walls and connectors. -/
structure Line where
  point1 : Point
  point2 : Point
deriving DecidableEq

/-- A wall: the line segment `Building` reads through `GetPoint1` and
`GetPoint2`. -/
structure Wall where
  point1 : Point
  point2 : Point
deriving DecidableEq

/-- An obstacle inside a subroom: its walls and the polygon derived from them. -/
structure Obstacle where
  walls : List Wall
  poly : List Point
deriving DecidableEq

/-- A `SubRoom*` that is not null: the subroom's place in the room tree. -/
structure SubRoomRef where
  room : Int
  sub : Int
deriving DecidableEq

/-- The part of a `SubRoom` that `Building` reads and writes. `crossings` and
`transitions` are the line segments of the connectors registered with the
subroom (`GetAllCrossings`, `GetAllTransitions`). -/
structure SubRoom where
  roomID : Int
  subRoomID : Int
  walls : List Wall
  obstacles : List Obstacle
  crossings : List Line
  transitions : List Line
  poly : List Point
  area : ℚ
  minElevation : ℚ
  maxElevation : ℚ
  neighbors : List SubRoomRef
deriving DecidableEq

/-- A room: id, caption and its id-keyed subrooms. -/
structure Room where
  id : Int
  caption : String
  subRooms : StdMap SubRoom
deriving DecidableEq

/-- A crossing: connector between two subrooms of one room. -/
structure Crossing where
  id : Int
  uniqueID : Int
  caption : String
  point1 : Point
  point2 : Point
  subRoom1 : Option SubRoomRef
  subRoom2 : Option SubRoomRef
deriving DecidableEq

/-- A transition: connector between subrooms of possibly different rooms, or
leading outside (then `subRoom2` is null). -/
structure Transition where
  id : Int
  uniqueID : Int
  caption : String
  point1 : Point
  point2 : Point
  subRoom1 : Option SubRoomRef
  subRoom2 : Option SubRoomRef
deriving DecidableEq

/-- A helper line for routing decisions. -/
structure Hline where
  id : Int
  uniqueID : Int
  caption : String
  point1 : Point
  point2 : Point
deriving DecidableEq

/-- A final goal area. -/
structure Goal where
  id : Int
  caption : String
  walls : List Wall
deriving DecidableEq

/-! ## Pedestrians and the linked-cell grid -/

/-- Address of a heap object. -/
abbrev Ptr := Nat

/-- The part of a `Pedestrian` that `Building` reads, and the position the
linked-cell grid buckets it by. -/
structure Pedestrian where
  id : Int
  roomID : Int
  subRoomID : Int
  path : List Char
  pos : Point
deriving DecidableEq

/-- The free store of pedestrian objects: `none` at an address that holds no
live object. -/
abbrev PedStore := Ptr → Option Pedestrian

/-- Effect of `delete ped` on the store. -/
def PedStore.free (h : PedStore) (ped : Ptr) : PedStore :=
  fun q => if q = ped then none else h q

/-- The linked-cell grid as `Building` sets it up (`LCGrid` is declared outside
these sources): the arguments of its constructor, `boundaries[0..3]`,
`cellSize` and the number of pedestrians, and the pedestrian pointers
handed to `ShallowCopy`. `cells` holds the buckets: every pedestrian the grid
has bucketed, with the column and row of its cell. -/
structure LCGrid where
  xMin : ℚ
  xMax : ℚ
  yMin : ℚ
  yMax : ℚ
  cellSize : ℚ
  nPeds : Int
  peds : List Ptr
  cells : List (Ptr × (Int × Int))
deriving DecidableEq

/-- The part of `Configuration` that `Building` reads. -/
structure Configuration where
  linkedCellSize : ℚ
deriving DecidableEq

/-! ## The building -/

/-- State of a `Building`. `routingEngine` is the handle of the shared routing
engine; `pathWayStream` holds the lines written to `_pathWayStream`. -/
structure Building where
  configuration : Configuration
  routingEngine : Nat
  caption : String
  rooms : StdMap Room
  crossings : StdMap Crossing
  transitions : StdMap Transition
  hLines : StdMap Hline
  goals : StdMap Goal
  allPedestians : List Ptr
  linkedCellGrid : Option LCGrid
  savePathway : Bool
  pathWayStream : List String
deriving DecidableEq

/-! ## Connector collections -/

/-- The body of `Building::AddCrossing`. -/
def AddCrossing (b : Building) (line : Crossing) : Outcome (Building × Bool) :=
  if StdMap.count b.crossings line.id ≠ 0 then
    Outcome.aborted
  else
    Outcome.ret ({ b with crossings := StdMap.set b.crossings line.id line }, true)

/-- The body of `Building::AddTransition`. -/
def AddTransition (b : Building) (line : Transition) : Outcome (Building × Bool) :=
  if StdMap.count b.transitions line.id ≠ 0 then
    Outcome.aborted
  else
    Outcome.ret ({ b with transitions := StdMap.set b.transitions line.id line }, true)

/-- The body of `Building::AddHline`. `hlineEq` is `Hline::operator==`, which is
defined outside these sources. `_hLines[id]` reads the stored entry; the key
is present on that path. -/
def AddHline (hlineEq : Hline → Hline → Bool) (b : Building) (line : Hline) :
    Outcome (Building × Bool) :=
  if StdMap.count b.hLines line.id ≠ 0 then
    match StdMap.find? b.hLines line.id with
    | some ori =>
      if hlineEq ori line then Outcome.ret (b, false)
      else Outcome.aborted
    | none => Outcome.fault
  else
    Outcome.ret ({ b with hLines := StdMap.set b.hLines line.id line }, true)

/-- The body of `Building::AddGoal`. -/
def AddGoal (b : Building) (goal : Goal) : Outcome (Building × Bool) :=
  if StdMap.count b.goals goal.id ≠ 0 then
    Outcome.aborted
  else
    Outcome.ret ({ b with goals := StdMap.set b.goals goal.id goal }, true)

/-- The body of `Building::GetTransition(int)`. `_transitions.at(ID)` reads the
stored entry; the key is present on that path. -/
def GetTransition (b : Building) (ID : Int) : Outcome (Option Transition) :=
  if StdMap.count b.transitions ID = 1 then
    match StdMap.find? b.transitions ID with
    | some t => Outcome.ret (some t)
    | none => Outcome.fault
  else if ID = -1 then Outcome.ret none
  else Outcome.aborted

/-! ## Strings -/

/-- Result of `std::string::find_first_of`: position of the first character of
`str` that occurs in `separator`, `none` for `npos`. -/
def find_first_of (str separator : List Char) : Option Nat :=
  match str with
  | [] => none
  | c :: cs =>
    if separator.contains c then some 0
    else (find_first_of cs separator).map (· + 1)

/-- The loop of `Building::StringExplode`, one iteration per unit of fuel. -/
def StringExplode.loop (separator : List Char) :
    Nat → List Char → List (List Char) → List (List Char)
  | 0, _, results => results
  | fuel + 1, str, results =>
    match find_first_of str separator with
    | none => if str.length > 0 then results ++ [str] else results
    | some found =>
      StringExplode.loop separator fuel (str.drop (found + 1))
        (if found > 0 then results ++ [str.take found] else results)

/-- The body of `Building::StringExplode`: the tokens are appended to `results`.
Every iteration of the loop shortens `str`, so `str.length + 1` iterations are
enough. -/
def StringExplode (str separator : List Char) (results : List (List Char)) :
    List (List Char) :=
  StringExplode.loop separator (str.length + 1) str results

/-- White space as `isspace` sees it in the C locale. -/
def isSpaceC (c : Char) : Bool :=
  c.toNat = 32 || (9 ≤ c.toNat && c.toNat ≤ 13)

/-- Value of the leading decimal digits of a string, continuing from `acc`. -/
def digitsValue : List Char → Nat → Nat
  | [], acc => acc
  | c :: cs, acc =>
    if c.isDigit then digitsValue cs (10 * acc + (c.toNat - 48)) else acc

/-- The C library function `atoi`: skips white space, reads an optional sign and
the decimal digits that follow; `0` when there are none. Values outside the
range of `int` are not modelled. -/
def atoi (s : List Char) : Int :=
  match s.dropWhile isSpaceC with
  | [] => 0
  | c :: cs =>
    if c = '-' then - (digitsValue cs 0 : Int)
    else if c = '+' then (digitsValue cs 0 : Int)
    else (digitsValue (c :: cs) 0 : Int)

/-! ## Pedestrians -/

/-- One iteration of the path-saving loop of `Building::DeletePedestrian`: the
line written for one path segment, if any. `tags[0]` and `tags[1]` are
unchecked accesses; `_rooms[k]` yields a null pointer for an absent key, which
`->GetCaption()` dereferences, as it does a null result of `GetTransition`. -/
def DeletePedestrian.pathwayLine (b : Building) (segment : List Char) :
    Outcome (Option String) :=
  let tags := StringExplode segment [':'] []
  match tags[0]? with
  | none => Outcome.fault
  | some tag0 =>
    match StdMap.find? b.rooms (atoi tag0) with
    | none => Outcome.fault
    | some room =>
      match tags[1]? with
      | none => Outcome.fault
      | some tag1 =>
        (GetTransition b (atoi tag1)).bind fun t =>
          match t with
          | none => Outcome.fault
          | some transition =>
            if transition.caption ≠ "" then
              Outcome.ret (some (room.caption ++ " " ++ transition.caption))
            else Outcome.ret none

/-- The path-saving loop of `Building::DeletePedestrian` over the segments of
the path: the lines of `_pathWayStream` afterwards. -/
def DeletePedestrian.savePathway (b : Building) :
    List (List Char) → List String → Outcome (List String)
  | [], stream => Outcome.ret stream
  | segment :: rest, stream =>
    (DeletePedestrian.pathwayLine b segment).bind fun line =>
      DeletePedestrian.savePathway b rest
        (match line with
         | some l => stream ++ [l]
         | none => stream)

/-- The path-history block of `Building::DeletePedestrian` for a pedestrian
found in the live list: skipped unless `_savePathway` is set. -/
def DeletePedestrian.pathHistory (h : PedStore) (b : Building) (ped : Ptr) :
    Outcome (List String) :=
  if b.savePathway then
    match h ped with
    | none => Outcome.fault
    | some p =>
      DeletePedestrian.savePathway b (StringExplode p.path ['>'] []) b.pathWayStream
  else Outcome.ret b.pathWayStream

/-- The body of `Building::DeletePedestrian`. `std::find` compares pointers and
`erase(it)` removes the first occurrence; the not-found branch reads
`ped->GetID()` for its log line; `delete ped` frees the object. -/
def DeletePedestrian (h : PedStore) (b : Building) (ped : Ptr) :
    Outcome (PedStore × Building) :=
  if ped ∈ b.allPedestians then
    (DeletePedestrian.pathHistory h b ped).bind fun stream =>
      match h ped with
      | none => Outcome.fault
      | some _ =>
        Outcome.ret (h.free ped,
          { b with allPedestians := b.allPedestians.erase ped, pathWayStream := stream })
  else
    match h ped with
    | none => Outcome.fault
    | some _ => Outcome.ret (h, b)

/-- The loop of `Building::GetPedestrian` over the live list. -/
def GetPedestrian.scan (h : PedStore) (pedID : Int) : List Ptr → Outcome (Option Ptr)
  | [] => Outcome.ret none
  | p :: rest =>
    match h p with
    | none => Outcome.fault
    | some ped => if ped.id = pedID then Outcome.ret (some p) else GetPedestrian.scan h pedID rest

/-- The body of `Building::GetPedestrian`: the first live pedestrian with the id,
`none` for `NULL`. -/
def GetPedestrian (h : PedStore) (b : Building) (pedID : Int) : Outcome (Option Ptr) :=
  GetPedestrian.scan h pedID b.allPedestians

/-- The loop of `Building::AddPedestrian`: whether some live pedestrian has the
id of `ped`. -/
def AddPedestrian.scan (h : PedStore) (ped : Ptr) : List Ptr → Outcome Bool
  | [] => Outcome.ret false
  | p :: rest =>
    match h ped, h p with
    | some new, some ped1 =>
      if new.id = ped1.id then Outcome.ret true else AddPedestrian.scan h ped rest
    | _, _ => Outcome.fault

/-- The body of `Building::AddPedestrian`. -/
def AddPedestrian (h : PedStore) (b : Building) (ped : Ptr) : Outcome Building :=
  (AddPedestrian.scan h ped b.allPedestians).bind fun found =>
    if found then Outcome.ret b
    else Outcome.ret { b with allPedestians := b.allPedestians ++ [ped] }

/-- The body of `Building::GetPedestrians`: the live pedestrians of the given
room and subroom are appended to `peds`. -/
def GetPedestrians (h : PedStore) (room subroom : Int) :
    List Ptr → List Ptr → Outcome (List Ptr)
  | [], peds => Outcome.ret peds
  | p :: rest, peds =>
    match h p with
    | none => Outcome.fault
    | some ped =>
      GetPedestrians h room subroom rest
        (if room = ped.roomID ∧ subroom = ped.subRoomID then peds ++ [p] else peds)

/-! ## Visibility -/

/-- The inner loop of `Building::IsVisible` over the subrooms of one room:
`false` when the loop hits `return false`. -/
def IsVisible.scanSubRooms (vis : SubRoom → Point → Point → Bool → Bool)
    (p1 p2 : Point) (considerHlines : Bool) : List (Int × SubRoom) → Bool
  | [] => true
  | itr_subroom :: rest =>
    if !vis itr_subroom.2 p1 p2 considerHlines then false
    else IsVisible.scanSubRooms vis p1 p2 considerHlines rest

/-- The outer loop of `Building::IsVisible` over all rooms. -/
def IsVisible.scanRooms (vis : SubRoom → Point → Point → Bool → Bool)
    (p1 p2 : Point) (considerHlines : Bool) : List (Int × Room) → Bool
  | [] => true
  | itr_room :: rest =>
    if !IsVisible.scanSubRooms vis p1 p2 considerHlines itr_room.2.subRooms then false
    else IsVisible.scanRooms vis p1 p2 considerHlines rest

/-- The loop of `Building::IsVisible` over a given subroom list; a null entry
is skipped. -/
def IsVisible.scanGiven (vis : SubRoom → Point → Point → Bool → Bool)
    (p1 p2 : Point) (considerHlines : Bool) : List (Option SubRoom) → Bool
  | [] => true
  | sub :: rest =>
    match sub with
    | some s =>
      if !vis s p1 p2 considerHlines then false
      else IsVisible.scanGiven vis p1 p2 considerHlines rest
    | none => IsVisible.scanGiven vis p1 p2 considerHlines rest

/-- The body of `Building::IsVisible`. `vis` is `SubRoom::IsVisible`, defined
outside these sources; the entries of `subrooms` are the subrooms the pointers
refer to, `none` for a null pointer. -/
def IsVisible (vis : SubRoom → Point → Point → Bool → Bool) (b : Building)
    (p1 p2 : Point) (subrooms : List (Option SubRoom)) (considerHlines : Bool) : Bool :=
  if subrooms.isEmpty then IsVisible.scanRooms vis p1 p2 considerHlines b.rooms
  else IsVisible.scanGiven vis p1 p2 considerHlines subrooms

/-- All subrooms of all rooms of the building, in iteration order. -/
def allSubRooms (b : Building) : List SubRoom :=
  b.rooms.flatMap fun r => r.2.subRooms.map Prod.snd


/-! ## The linked-cell grid -/

/-- The running extremes `x_min`, `x_max`, `y_min`, `y_max` of a bounding scan. -/
structure Extremes where
  x_min : ℚ
  x_max : ℚ
  y_min : ℚ
  y_max : ℚ
deriving DecidableEq

/-- The body of the wall loop of `Building::InitGrid`: the extremes after one
more wall. -/
def InitGrid.wallStep (e : Extremes) (wall : Wall) : Extremes :=
  let x1 := wall.point1.x
  let y1 := wall.point1.y
  let x2 := wall.point2.x
  let y2 := wall.point2.y
  let xmax := if x1 > x2 then x1 else x2
  let xmin := if x1 > x2 then x2 else x1
  let ymax := if y1 > y2 then y1 else y2
  let ymin := if y1 > y2 then y2 else y1
  { x_min := if xmin ≤ e.x_min then xmin else e.x_min
    x_max := if xmax ≥ e.x_max then xmax else e.x_max
    y_max := if ymax ≥ e.y_max then ymax else e.y_max
    y_min := if ymin ≤ e.y_min then ymin else e.y_min }

/-- The scan of `Building::InitGrid` over the walls of all subrooms of all
rooms, started from `FLT_MAX`, `FLT_MIN`, `FLT_MAX`, `FLT_MIN`. -/
def InitGrid.extremes (b : Building) : Extremes :=
  b.rooms.foldl
    (fun e itr_room =>
      itr_room.2.subRooms.foldl
        (fun e itr_subroom => itr_subroom.2.walls.foldl InitGrid.wallStep e) e)
    { x_min := FLT_MAX, x_max := FLT_MIN, y_min := FLT_MAX, y_max := FLT_MIN }

/-- The body of `Building::InitGrid`. `agentsCreated` is the value of
`Pedestrian::GetAgentsCreated()`. -/
def InitGrid (agentsCreated : Int) (b : Building) : Building :=
  let e := InitGrid.extremes b
  let cellSize := b.configuration.linkedCellSize
  let x_min := e.x_min - 1 * cellSize
  let x_max := e.x_max + 1 * cellSize
  let y_min := e.y_min - 1 * cellSize
  let y_max := e.y_max + 1 * cellSize
  let cellSize1 :=
    if cellSize = -1 then
      if (x_max - x_min) < (y_max - y_min) then y_max - y_min else x_max - x_min
    else cellSize
  { b with
    linkedCellGrid := some
      { xMin := x_min, xMax := x_max, yMin := y_min, yMax := y_max,
        cellSize := cellSize1, nPeds := agentsCreated, peds := b.allPedestians,
        cells := [] } }

/-- The end points of all walls of all subrooms of all rooms. -/
def wallEndpoints (b : Building) : List Point :=
  b.rooms.flatMap fun r =>
    r.2.subRooms.flatMap fun s => s.2.walls.flatMap fun w => [w.point1, w.point2]

/-! ## Geometry initialisation -/

/-- Member functions of `SubRoom` and `Obstacle` that `Building::InitGeometry`
calls and that are defined outside these sources. `convertLineToPoly` and
`obstacleConvertLineToPoly` yield the polygon, `none` when the call returns
false. -/
structure SubRoomOps where
  convertLineToPoly : SubRoom → List Line → Option (List Point)
  calculateArea : SubRoom → ℚ
  obstacleConvertLineToPoly : Obstacle → Option (List Point)
  getElevation : SubRoom → Point → ℚ

/-- Modelled from the spec: `SubRoom::AddNeighbor`, which is defined outside
these sources. The spec gives a subroom a "cached neighbor-subroom set": the
given subroom is recorded once, and a null pointer names no subroom and is not
recorded. -/
def SubRoom.AddNeighbor (s : SubRoom) (sub : Option SubRoomRef) : SubRoom :=
  match sub with
  | none => s
  | some r => if r ∈ s.neighbors then s else { s with neighbors := s.neighbors ++ [r] }

/-- The subroom a `SubRoom*` refers to, `none` when it refers to no subroom of
the room tree. -/
def getSubRoom (rooms : StdMap Room) (r : SubRoomRef) : Option SubRoom :=
  match StdMap.find? rooms r.room with
  | none => none
  | some room => StdMap.find? room.subRooms r.sub

/-- The room tree after the subroom at `r` has been replaced by its image
under `f`. -/
def modifySubRoom (rooms : StdMap Room) (r : SubRoomRef) (f : SubRoom → SubRoom) :
    StdMap Room :=
  StdMap.modify rooms r.room fun room =>
    { room with subRooms := StdMap.modify room.subRooms r.sub f }

/-- The obstacle loop of `Building::InitGeometry`: the obstacles afterwards, and
`false` when the loop hits `return false`. -/
def InitGeometry.convertObstacles (ops : SubRoomOps) : List Obstacle → List Obstacle × Bool
  | [] => ([], true)
  | obst :: rest =>
    match ops.obstacleConvertLineToPoly obst with
    | none => (obst :: rest, false)
    | some poly =>
      let r := InitGeometry.convertObstacles ops rest
      ({ obst with poly := poly } :: r.1, r.2)

/-- The body of the elevation loop of `Building::InitGeometry`: `(minElevation,
maxElevation)` after one more wall. -/
def InitGeometry.elevationStep (ops : SubRoomOps) (s : SubRoom) (acc : ℚ × ℚ)
    (wall : Wall) : ℚ × ℚ :=
  let P1 := wall.point1
  let P2 := wall.point2
  let min1 := if acc.1 > ops.getElevation s P1 then ops.getElevation s P1 else acc.1
  let max1 := if acc.2 < ops.getElevation s P1 then ops.getElevation s P1 else acc.2
  let min2 := if min1 > ops.getElevation s P2 then ops.getElevation s P2 else min1
  let max2 := if max1 < ops.getElevation s P2 then ops.getElevation s P2 else max1
  (min2, max2)

/-- The body of the subroom loop of `Building::InitGeometry`: the subroom
afterwards, and `false` when the body hits `return false`. -/
def InitGeometry.initSubRoom (ops : SubRoomOps) (s : SubRoom) : SubRoom × Bool :=
  let goals := s.crossings ++ s.transitions
  match ops.convertLineToPoly s goals with
  | none => (s, false)
  | some poly =>
    let s1 := { s with poly := poly }
    let s2 := { s1 with area := ops.calculateArea s1 }
    let obst := InitGeometry.convertObstacles ops s2.obstacles
    let s3 := { s2 with obstacles := obst.1 }
    if !obst.2 then (s3, false)
    else
      let elev := s3.walls.foldl (InitGeometry.elevationStep ops s3) (FLT_MAX, -FLT_MAX)
      ({ s3 with maxElevation := elev.2, minElevation := elev.1 }, true)

/-- The loop of `Building::InitGeometry` over the subrooms of one room. -/
def InitGeometry.initSubRooms (ops : SubRoomOps) :
    List (Int × SubRoom) → List (Int × SubRoom) × Bool
  | [] => ([], true)
  | itr_subroom :: rest =>
    let r := InitGeometry.initSubRoom ops itr_subroom.2
    if !r.2 then ((itr_subroom.1, r.1) :: rest, false)
    else
      let rs := InitGeometry.initSubRooms ops rest
      ((itr_subroom.1, r.1) :: rs.1, rs.2)

/-- The loop of `Building::InitGeometry` over all rooms. -/
def InitGeometry.initRooms (ops : SubRoomOps) :
    List (Int × Room) → List (Int × Room) × Bool
  | [] => ([], true)
  | itr_room :: rest =>
    let r := InitGeometry.initSubRooms ops itr_room.2.subRooms
    if !r.2 then ((itr_room.1, { itr_room.2 with subRooms := r.1 }) :: rest, false)
    else
      let rs := InitGeometry.initRooms ops rest
      ((itr_room.1, { itr_room.2 with subRooms := r.1 }) :: rs.1, rs.2)

/-- The call `s1->AddNeighbor(s2)` for a non-null `s1`. -/
def InitGeometry.addNeighbor (rooms : StdMap Room) (s1 : SubRoomRef)
    (s2 : Option SubRoomRef) : Outcome (StdMap Room) :=
  match getSubRoom rooms s1 with
  | none => Outcome.fault
  | some _ => Outcome.ret (modifySubRoom rooms s1 fun s => s.AddNeighbor s2)

/-- The body of the connector loops of `Building::InitGeometry`:
`if (s1) s1->AddNeighbor(s2); if (s2) s2->AddNeighbor(s1);`. -/
def InitGeometry.link (rooms : StdMap Room) (s1 s2 : Option SubRoomRef) :
    Outcome (StdMap Room) :=
  (match s1 with
   | some a => InitGeometry.addNeighbor rooms a s2
   | none => Outcome.ret rooms).bind fun rooms1 =>
    match s2 with
    | some c => InitGeometry.addNeighbor rooms1 c s1
    | none => Outcome.ret rooms1

/-- A connector loop of `Building::InitGeometry` over the subroom pairs of the
connectors. -/
def InitGeometry.linkAll :
    List (Option SubRoomRef × Option SubRoomRef) → StdMap Room → Outcome (StdMap Room)
  | [], rooms => Outcome.ret rooms
  | c :: rest, rooms =>
    (InitGeometry.link rooms c.1 c.2).bind fun rooms1 => InitGeometry.linkAll rest rooms1

/-- The subroom pairs of the crossings followed by those of the transitions, in
the order the two connector loops of `Building::InitGeometry` visit them. -/
def connectorPairs (b : Building) : List (Option SubRoomRef × Option SubRoomRef) :=
  b.crossings.map (fun cross => (cross.2.subRoom1, cross.2.subRoom2)) ++
    b.transitions.map (fun tr => (tr.2.subRoom1, tr.2.subRoom2))

/-- The body of `Building::InitGeometry`: the building afterwards and the
result. -/
def InitGeometry (ops : SubRoomOps) (b : Building) : Outcome (Building × Bool) :=
  let r := InitGeometry.initRooms ops b.rooms
  if !r.2 then Outcome.ret ({ b with rooms := r.1 }, false)
  else
    (InitGeometry.linkAll
      (b.crossings.map fun cross => (cross.2.subRoom1, cross.2.subRoom2)) r.1).bind
      fun rooms1 =>
        (InitGeometry.linkAll
          (b.transitions.map fun tr => (tr.2.subRoom1, tr.2.subRoom2)) rooms1).bind
          fun rooms2 => Outcome.ret ({ b with rooms := rooms2 }, true)

/-- Whether `ConvertLineToPoly` succeeds for the subroom, given its crossings
and transitions, and for each of its obstacles. -/
def SubRoom.converts (ops : SubRoomOps) (s : SubRoom) : Bool :=
  (ops.convertLineToPoly s (s.crossings ++ s.transitions)).isSome &&
    s.obstacles.all fun o => (ops.obstacleConvertLineToPoly o).isSome

/-- Whether a subroom pointer is null or refers to a subroom of the room
tree. -/
def refResolves (rooms : StdMap Room) (o : Option SubRoomRef) : Bool :=
  match o with
  | none => true
  | some r => (getSubRoom rooms r).isSome

/-- Every non-null subroom pointer of a crossing or transition refers to a
subroom of the building. -/
def connectorsResolve (b : Building) : Prop :=
  ∀ c ∈ connectorPairs b, refResolves b.rooms c.1 = true ∧ refResolves b.rooms c.2 = true

/-! ## Rooms -/

/-- The body of `Building::AddRoom`: `_rooms[room->GetID()] = room`. -/
def AddRoom (b : Building) (room : Room) : Building :=
  { b with rooms := StdMap.set b.rooms room.id room }

/-- The body of `Building::GetRoom(int)`: `none` for `nullptr`. -/
def GetRoom (b : Building) (index : Int) : Option Room :=
  if StdMap.count b.rooms index = 0 then none
  else StdMap.find? b.rooms index

/-! ## Checks on the geometry -/

/-- The loop of `Building::SanityCheck` over the subrooms of all rooms, which
follows its `return status;`. `subSanityCheck` is `SubRoom::SanityCheck`,
defined outside these sources. -/
def SanityCheck.checkRooms (subSanityCheck : SubRoom → Bool) (b : Building)
    (status : Bool) : Bool :=
  b.rooms.foldl
    (fun st itr_room =>
      itr_room.2.subRooms.foldl
        (fun st itr_subroom => if !subSanityCheck itr_subroom.2 then false else st) st)
    status

/-- The body of `Building::SanityCheck`: `status` is set to true and returned
(line 706) before the loop over the subrooms is reached. -/
def SanityCheck (subSanityCheck : SubRoom → Bool) (b : Building) : Bool :=
  let status := true
  let returned : Option Bool := some status
  match returned with
  | some result => result
  | none => SanityCheck.checkRooms subSanityCheck b status

/-- The inner loop of `Building::Triangulate` over the subrooms of one room:
the subrooms afterwards, and `false` when the loop hits `return false`.
`triangulate` is `SubRoom::Triangulate`, defined outside these sources: the
subroom after the call and the result of the call. -/
def Triangulate.scanSubRooms (triangulate : SubRoom → SubRoom × Bool) :
    List (Int × SubRoom) → List (Int × SubRoom) × Bool
  | [] => ([], true)
  | itr_subroom :: rest =>
    let r := triangulate itr_subroom.2
    if !r.2 then ((itr_subroom.1, r.1) :: rest, false)
    else
      let rs := Triangulate.scanSubRooms triangulate rest
      ((itr_subroom.1, r.1) :: rs.1, rs.2)

/-- The outer loop of `Building::Triangulate` over all rooms. -/
def Triangulate.scanRooms (triangulate : SubRoom → SubRoom × Bool) :
    List (Int × Room) → List (Int × Room) × Bool
  | [] => ([], true)
  | itr_room :: rest =>
    let r := Triangulate.scanSubRooms triangulate itr_room.2.subRooms
    if !r.2 then ((itr_room.1, { itr_room.2 with subRooms := r.1 }) :: rest, false)
    else
      let rs := Triangulate.scanRooms triangulate rest
      ((itr_room.1, { itr_room.2 with subRooms := r.1 }) :: rs.1, rs.2)

/-- The body of `Building::Triangulate`: the building afterwards and the
result. -/
def Triangulate (triangulate : SubRoom → SubRoom × Bool) (b : Building) : Building × Bool :=
  let r := Triangulate.scanRooms triangulate b.rooms
  ({ b with rooms := r.1 }, r.2)

/-- The body of the vertex loop of `Building::GetBoundaryVertices`: the
extremes after one more vertex. -/
def GetBoundaryVertices.pointStep (e : Extremes) (point : Point) : Extremes :=
  let e1 :=
    if point.x > e.x_max then { e with x_max := point.x }
    else if point.x < e.x_min then { e with x_min := point.x }
    else e
  if point.y > e1.y_max then { e1 with y_max := point.y }
  else if point.y < e1.y_min then { e1 with y_min := point.y }
  else e1

/-- The scan of `Building::GetBoundaryVertices` over the polygon vertices of
all subrooms of all rooms, started from `FLT_MAX` for the minima and
`-FLT_MAX` for the maxima. -/
def GetBoundaryVertices.extremes (b : Building) : Extremes :=
  b.rooms.foldl
    (fun e itr_room =>
      itr_room.2.subRooms.foldl
        (fun e itr_subroom => itr_subroom.2.poly.foldl GetBoundaryVertices.pointStep e) e)
    { x_min := FLT_MAX, x_max := -FLT_MAX, y_min := FLT_MAX, y_max := -FLT_MAX }

/-- The body of `Building::GetBoundaryVertices`. -/
def GetBoundaryVertices (b : Building) : List Point :=
  let e := GetBoundaryVertices.extremes b
  [⟨e.x_min, e.y_min⟩, ⟨e.x_min, e.y_max⟩, ⟨e.x_max, e.y_max⟩, ⟨e.x_max, e.y_min⟩]

/-- The polygon vertices of all subrooms of all rooms. -/
def polygonVertices (b : Building) : List Point :=
  b.rooms.flatMap fun r => r.2.subRooms.flatMap fun s => s.2.poly

/-! ## Sequences of calls on the live list -/

/-- A call that changes the live list. -/
inductive PedOp where
  /-- The call `AddPedestrian(ped)`. -/
  | add (ped : Ptr)
  /-- The call `DeletePedestrian(ped)`. -/
  | delete (ped : Ptr)
deriving DecidableEq

/-- One call on the live list. -/
def applyPedOp (h : PedStore) (b : Building) : PedOp → Outcome (PedStore × Building)
  | PedOp.add ped => (AddPedestrian h b ped).bind fun b1 => Outcome.ret (h, b1)
  | PedOp.delete ped => DeletePedestrian h b ped

/-- A sequence of calls on the live list, one after the other. -/
def runPedOps (h : PedStore) (b : Building) : List PedOp → Outcome (PedStore × Building)
  | [] => Outcome.ret (h, b)
  | op :: rest => (applyPedOp h b op).bind fun r => runPedOps r.1 r.2 rest

/-- Whether the object at `q` is a pedestrian of room `room`, subroom
`subroom`: the test of the loop of `Building::GetPedestrians`. -/
def pedIsIn (h : PedStore) (room subroom : Int) (q : Ptr) : Bool :=
  match h q with
  | some ped => decide (room = ped.roomID ∧ subroom = ped.subRoomID)
  | none => false

/-! ## Construction -/

/-- The steps of the constructor `Building::Building(configuration,
pedDistributor)`, in the order of the source. -/
inductive ConstructionStep where
  | loadBuilding
  | initGeometry
  | distribute
  | initGrid
  | routingInit
  | sanityCheck
deriving DecidableEq

/-- What the constructor calls and these sources do not define: the geometry
loader (`LoadBuilding`, which may end the process itself),
`PedDistributor::Distribute`, the value of `Pedestrian::GetAgentsCreated()`
when the grid is set up, `RoutingEngine::Init` and `SubRoom::SanityCheck`. -/
structure Collaborators where
  loadBuilding : Building → Outcome Building
  distribute : PedStore → Building → PedStore × Building × Bool
  agentsCreated : Int
  routingInit : Building → Building × Bool
  subSanityCheck : SubRoom → Bool

/-- The building as the member initialisers of the constructor leave it. -/
def newBuilding (configuration : Configuration) (routingEngine : Nat) : Building :=
  { configuration := configuration
    routingEngine := routingEngine
    caption := "no_caption"
    rooms := []
    crossings := []
    transitions := []
    hLines := []
    goals := []
    allPedestians := []
    linkedCellGrid := none
    savePathway := false
    pathWayStream := [] }

/-- The body of the constructor `Building::Building(configuration,
pedDistributor)`: the steps that were started, in order, and how the
construction ends. -/
def construct (ops : SubRoomOps) (env : Collaborators) (h : PedStore)
    (configuration : Configuration) (routingEngine : Nat) :
    List ConstructionStep × Outcome (PedStore × Building) :=
  match env.loadBuilding (newBuilding configuration routingEngine) with
  | Outcome.aborted => ([ConstructionStep.loadBuilding], Outcome.aborted)
  | Outcome.fault => ([ConstructionStep.loadBuilding], Outcome.fault)
  | Outcome.ret b1 =>
    match InitGeometry ops b1 with
    | Outcome.aborted =>
      ([ConstructionStep.loadBuilding, ConstructionStep.initGeometry], Outcome.aborted)
    | Outcome.fault =>
      ([ConstructionStep.loadBuilding, ConstructionStep.initGeometry], Outcome.fault)
    | Outcome.ret g =>
      if !g.2 then
        ([ConstructionStep.loadBuilding, ConstructionStep.initGeometry], Outcome.aborted)
      else
        let d := env.distribute h g.1
        if !d.2.2 then
          ([ConstructionStep.loadBuilding, ConstructionStep.initGeometry,
            ConstructionStep.distribute], Outcome.aborted)
        else
          let b3 := InitGrid env.agentsCreated d.2.1
          let r := env.routingInit b3
          if !r.2 then
            ([ConstructionStep.loadBuilding, ConstructionStep.initGeometry,
              ConstructionStep.distribute, ConstructionStep.initGrid,
              ConstructionStep.routingInit], Outcome.aborted)
          else if !SanityCheck env.subSanityCheck r.1 then
            ([ConstructionStep.loadBuilding, ConstructionStep.initGeometry,
              ConstructionStep.distribute, ConstructionStep.initGrid,
              ConstructionStep.routingInit, ConstructionStep.sanityCheck], Outcome.aborted)
          else
            ([ConstructionStep.loadBuilding, ConstructionStep.initGeometry,
              ConstructionStep.distribute, ConstructionStep.initGrid,
              ConstructionStep.routingInit, ConstructionStep.sanityCheck],
              Outcome.ret (d.1, r.1))

/-- The end points of the walls of a subroom. -/
def SubRoom.wallEndpoints (s : SubRoom) : List Point :=
  s.walls.flatMap fun w => [w.point1, w.point2]

/-- A subroom without its neighbour set: what the connector loops of
`Building::InitGeometry` leave as it is. -/
def SubRoom.withoutNeighbors (s : SubRoom) : SubRoom := { s with neighbors := [] }

/-- The subroom `s1` as the elevation loop of `Building::InitGeometry` reads
it: polygon, area and obstacles are set already, the elevation extremes and
the neighbours are still those of the subroom `s0` before the call. -/
def InitGeometry.elevationState (s0 s1 : SubRoom) : SubRoom :=
  { s1 with
    minElevation := s0.minElevation
    maxElevation := s0.maxElevation
    neighbors := s0.neighbors }

/-! ## The linked-cell grid: buckets -/

/-- Modelled from the spec: the cell of the linked-cell grid a position falls
into (`LCGrid` is defined outside these sources). The grid is a uniform mesh
of square cells of side `cellSize` laid out from the lower left corner
`(xMin, yMin)` of its bounding box; a cell is named by its column and row. -/
def LCGrid.cellOf (g : LCGrid) (p : Point) : Int × Int :=
  (⌊(p.x - g.xMin) / g.cellSize⌋, ⌊(p.y - g.yMin) / g.cellSize⌋)

/-- The bounds of the cell in column `c.1` and row `c.2` include the
position. -/
def LCGrid.cellContains (g : LCGrid) (c : Int × Int) (p : Point) : Prop :=
  (g.xMin + c.1 * g.cellSize ≤ p.x ∧ p.x < g.xMin + (c.1 + 1) * g.cellSize) ∧
  (g.yMin + c.2 * g.cellSize ≤ p.y ∧ p.y < g.yMin + (c.2 + 1) * g.cellSize)

/-- Modelled from the spec: the buckets `LCGrid::Update` builds, every agent
handed over with the cell of its position. -/
def LCGrid.bucket (h : PedStore) (g : LCGrid) : List Ptr → Outcome (List (Ptr × (Int × Int)))
  | [] => Outcome.ret []
  | q :: rest =>
    match h q with
    | none => Outcome.fault
    | some ped =>
      (LCGrid.bucket h g rest).bind fun cells => Outcome.ret ((q, g.cellOf ped.pos) :: cells)

/-- Modelled from the spec: `LCGrid::Update(allAgents)`, which "re-buckets every
agent each integration step (eager full rebuild, no lazy invalidation)": the
old buckets are dropped and every agent handed over is put into the cell of
its position. -/
def LCGrid.Update (h : PedStore) (g : LCGrid) (peds : List Ptr) : Outcome LCGrid :=
  (LCGrid.bucket h g peds).bind fun cells => Outcome.ret { g with cells := cells }

/-- Modelled from the spec: the agents bucketed in one cell. -/
def LCGrid.cellAgents (g : LCGrid) (c : Int × Int) : List Ptr :=
  (g.cells.filter fun e => decide (e.2 = c)).map Prod.fst

/-- Modelled from the spec: the neighbour query, which "returns agents in a
cell and its adjacent cells": the agents of the cell of the position and of
the eight cells around it. -/
def LCGrid.neighbourQuery (g : LCGrid) (p : Point) : List Ptr :=
  (g.cells.filter fun e =>
    decide (|e.2.1 - (g.cellOf p).1| ≤ 1 ∧ |e.2.2 - (g.cellOf p).2| ≤ 1)).map Prod.fst

/-- The body of `Building::UpdateGrid`: `_linkedCellGrid->Update(_allPedestians)`. -/
def UpdateGrid (h : PedStore) (b : Building) : Outcome Building :=
  match b.linkedCellGrid with
  | none => Outcome.fault
  | some g =>
    (g.Update h b.allPedestians).bind fun g1 =>
      Outcome.ret { b with linkedCellGrid := some g1 }

/-! ## Agent sources -/

/-- The members of `AgentsSource` that bound its output (AgentsSource.h):
the maximum, the counter of agents generated and the pool. -/
structure AgentsSource where
  id : Int
  frequency : Int
  maxAgents : Int
  greedy : Bool
  agentsGenerated : Int
  agents : List Ptr
deriving DecidableEq

/-- Modelled from the spec: the number of agents a request for `count` agents
yields. The header says "No agents are generated if the maximum (_maxAgents)
is reached", the spec that a source "generates up to remaining capacity
(bounded by a per-source maximum)". -/
def AgentsSource.granted (src : AgentsSource) (count : Int) : Nat :=
  (min count (src.maxAgents - src.agentsGenerated)).toNat

/-- Modelled from the spec: `AgentsSource::GenerateAgents`, which is defined
outside these sources: the agents generated are appended to `peds` and
counted. `newAgent n` is the agent the source creates as its `n`-th. -/
def AgentsSource.GenerateAgents (newAgent : Nat → Ptr) (src : AgentsSource)
    (peds : List Ptr) (count : Int) : AgentsSource × List Ptr :=
  ({ src with agentsGenerated := src.agentsGenerated + (src.granted count : Int) },
    peds ++ (List.range (src.granted count)).map fun i =>
      newAgent (src.agentsGenerated.toNat + i))

/-- Modelled from the spec: `AgentsSource::GenerateAgentsAndAddToPool`, which is
defined outside these sources: the agents generated join the pool. -/
def AgentsSource.GenerateAgentsAndAddToPool (newAgent : Nat → Ptr) (src : AgentsSource)
    (count : Int) : AgentsSource :=
  let r := src.GenerateAgents newAgent [] count
  { r.1 with agents := r.1.agents ++ r.2 }

/-- A generation request to a source. -/
inductive SourceRequest where
  /-- The call `GenerateAgentsAndAddToPool(count, building)`. -/
  | toPool (count : Int)
  /-- The call `GenerateAgents(peds, count, building)`. -/
  | toVector (count : Int)
deriving DecidableEq

/-- A sequence of generation requests: the source afterwards and all agents
generated, in order. -/
def AgentsSource.serve (newAgent : Nat → Ptr) :
    AgentsSource → List SourceRequest → AgentsSource × List Ptr
  | src, [] => (src, [])
  | src, SourceRequest.toPool count :: rest =>
    let r := src.GenerateAgents newAgent [] count
    let s := AgentsSource.serve newAgent (src.GenerateAgentsAndAddToPool newAgent count) rest
    (s.1, r.2 ++ s.2)
  | src, SourceRequest.toVector count :: rest =>
    let r := src.GenerateAgents newAgent [] count
    let s := AgentsSource.serve newAgent r.1 rest
    (s.1, r.2 ++ s.2)

/-! ## Counting and looking up connectors -/

/-- The body of `Building::GetNumberOfGoals`; the cast of the sum to `int` is
the value itself for every count an `int` holds. -/
def GetNumberOfGoals (b : Building) : Int :=
  ((StdMap.size b.transitions + StdMap.size b.hLines + StdMap.size b.crossings : Nat) : Int)

/-- The body of `Building::GetCrossing(int)`, which is not `const`:
`_crossings[ID]` reads the stored entry on a path where the key is present,
so no entry is inserted; the building after the call is returned with the
result. -/
def GetCrossing (b : Building) (ID : Int) : Outcome (Building × Option Crossing) :=
  if StdMap.count b.crossings ID = 1 then
    match StdMap.find? b.crossings ID with
    | some c => Outcome.ret (b, some c)
    | none => Outcome.fault
  else if ID = -1 then Outcome.ret (b, none)
  else Outcome.aborted

/-- The body of `Building::GetFinalGoal(int)`. `_goals.at(ID)` reads the stored
entry; the key is present on that path. -/
def GetFinalGoal (b : Building) (ID : Int) : Outcome (Option Goal) :=
  if StdMap.count b.goals ID = 1 then
    match StdMap.find? b.goals ID with
    | some g => Outcome.ret (some g)
    | none => Outcome.fault
  else if ID = -1 then Outcome.ret none
  else Outcome.aborted

/-! ## The surrounding room -/

/-- The two scans of `Building::AddSurroundingRoom`: over the walls of all
subrooms of all rooms, then over the walls of all goals, started from
`FLT_MAX`, `-FLT_MAX`, `FLT_MAX`, `-FLT_MAX`. Both loop bodies are the
statements of the wall loop of `InitGrid`. -/
def AddSurroundingRoom.extremes (b : Building) : Extremes :=
  b.goals.foldl
    (fun e itr_goal => itr_goal.2.walls.foldl InitGrid.wallStep e)
    (b.rooms.foldl
      (fun e itr_room =>
        itr_room.2.subRooms.foldl
          (fun e itr_subroom => itr_subroom.2.walls.foldl InitGrid.wallStep e) e)
      { x_min := FLT_MAX, x_max := -FLT_MAX, y_min := FLT_MAX, y_max := -FLT_MAX })

/-- The subroom `Building::AddSurroundingRoom` builds: `newNormalSubRoom` is the
object `new NormalSubRoom()` yields (the constructor is defined outside these
sources); `AddWall` appends to the walls of the subroom. -/
def AddSurroundingRoom.bigSubroom (newNormalSubRoom : SubRoom) (b : Building) : SubRoom :=
  let e := AddSurroundingRoom.extremes b
  let x_min := e.x_min - 10
  let x_max := e.x_max + 10
  let y_min := e.y_min - 10
  let y_max := e.y_max + 10
  { newNormalSubRoom with
    roomID := (StdMap.size b.rooms : Int)
    subRoomID := 0
    walls := newNormalSubRoom.walls ++
      [{ point1 := ⟨x_min, y_min⟩, point2 := ⟨x_min, y_max⟩ },
       { point1 := ⟨x_min, y_max⟩, point2 := ⟨x_max, y_max⟩ },
       { point1 := ⟨x_max, y_max⟩, point2 := ⟨x_max, y_min⟩ },
       { point1 := ⟨x_max, y_min⟩, point2 := ⟨x_min, y_min⟩ }] }

/-- The room `Building::AddSurroundingRoom` builds: `newRoom` is the object
`new Room()` yields (the constructor is defined outside these sources);
`AddSubRoom` stores the subroom under its id. -/
def AddSurroundingRoom.bigRoom (newNormalSubRoom : SubRoom) (newRoom : Room)
    (b : Building) : Room :=
  let bigSubroom := AddSurroundingRoom.bigSubroom newNormalSubRoom b
  { newRoom with
    subRooms := StdMap.set newRoom.subRooms bigSubroom.subRoomID bigSubroom
    caption := "outside"
    id := (StdMap.size b.rooms : Int) }

/-- The body of `Building::AddSurroundingRoom`. -/
def AddSurroundingRoom (newNormalSubRoom : SubRoom) (newRoom : Room) (b : Building) :
    Building :=
  AddRoom b (AddSurroundingRoom.bigRoom newNormalSubRoom newRoom b)

/-! ## Tokens of a string -/

/-- The maximal runs of characters of `s` that do not occur in `sep`, from left
to right: `s` is cut at every character that occurs in `sep`, and the empty
pieces are dropped. This is the description to compare `StringExplode`
with, not a translation of it. -/
def maximalRuns (sep s : List Char) : List (List Char) :=
  (s.splitOnP (fun c => sep.contains c)).filter (fun t => !t.isEmpty)

/-- The pathway line a path segment stands for: the captions of the room and of
the transition its first two non-empty `:`-separated fields name, unless the
caption of the transition is empty. This is the description to compare the
path-saving loop of `DeletePedestrian` with, not a translation of it. -/
def pathwayLineOf (b : Building) (segment : List Char) : Option String :=
  match maximalRuns [':'] segment with
  | field0 :: field1 :: _ =>
    match StdMap.find? b.rooms (atoi field0), StdMap.find? b.transitions (atoi field1) with
    | some room, some transition =>
      if transition.caption ≠ "" then some (room.caption ++ " " ++ transition.caption)
      else none
    | _, _ => none
  | _ => none

/-! ## The ini file of jpsreport (`jpsreport/general/ArgumentParser.cpp`)

The document is the tree TinyXML has loaded. `std::string` is `String`; a
`const char*` is an `Option String`, `none` for a null pointer. Building a
`std::string` from a null pointer, and a call through a null node pointer, are
undefined behaviour. -/

/-- A node of a TinyXML document: an element with its attributes and child
nodes in document order, or a node of another kind (text, comment,
declaration), which has a value and no children. -/
inductive TiXmlNode where
  | element (value : String) (attributes : List (String × String))
      (children : List TiXmlNode)
  | other (value : String)

namespace TiXmlNode

/-- Result of `TiXmlNode::Value`: the tag of an element, the text of a text node. -/
def Value : TiXmlNode → String
  | element value _ _ => value
  | other value => value

/-- Whether `ToElement()` is not null. -/
def isElement : TiXmlNode → Bool
  | element _ _ _ => true
  | other _ => false

/-- The child nodes in document order. -/
def childNodes : TiXmlNode → List TiXmlNode
  | element _ _ children => children
  | other _ => []

/-- Result of `FirstChild(value)`: the first child node of any kind with that
value. -/
def FirstChild (n : TiXmlNode) (value : String) : Option TiXmlNode :=
  n.childNodes.find? fun c => decide (c.Value = value)

/-- Result of `FirstChildElement(value)`: the first child element with that tag. -/
def FirstChildElement (n : TiXmlNode) (value : String) : Option TiXmlNode :=
  n.childNodes.find? fun c => c.isElement && decide (c.Value = value)

/-- The nodes a loop from `FirstChild(value)` along `NextSibling(value)` visits. -/
def siblings (n : TiXmlNode) (value : String) : List TiXmlNode :=
  n.childNodes.filter fun c => decide (c.Value = value)

/-- The elements a loop from `FirstChildElement(value)` along
`NextSiblingElement(value)` visits. -/
def siblingElements (n : TiXmlNode) (value : String) : List TiXmlNode :=
  n.childNodes.filter fun c => c.isElement && decide (c.Value = value)

/-- Result of `TiXmlElement::Attribute(name)`: the value of the first attribute
of that name, `none` for null. -/
def Attribute : TiXmlNode → String → Option String
  | element _ attributes _, name =>
    (attributes.find? fun a => decide (a.1 = name)).map Prod.snd
  | other _, _ => none

end TiXmlNode

/-- Result of `std::string::find_last_of`: position of the last character of
`str` that occurs in `chars`, `none` for `npos`. -/
def find_last_of (str chars : List Char) : Option Nat :=
  (find_first_of str.reverse chars).map fun i => str.length - 1 - i

/-- Result of `boost::algorithm::ends_with`. -/
def ends_with (input test : String) : Bool := test.data.isSuffixOf input.data

/-- Result of `boost::algorithm::starts_with`. -/
def starts_with (input test : String) : Bool := test.data.isPrefixOf input.data

/-- Result of `boost::algorithm::contains`: whether `test` occurs in `input`. -/
def contains (input test : String) : Bool :=
  input.data.tails.any fun t => test.data.isPrefixOf t

/-- Conversion of a `double` to `int`: the fraction is dropped. Values outside
the range of `int` are not modelled. -/
def truncate (q : ℚ) : Int := if 0 ≤ q then ⌊q⌋ else ⌈q⌉

/-- What the parser calls and these sources do not define: `atof` of the C
library; `xmltoi`, `xmltof`, `xmltoa` and the factor `M2CM` of `Macros.h`
(the second argument of `xmltoa` is `none` where the call gives one argument
only); `boost::geometry::correct` on the list of vertices of a polygon. -/
structure Externals where
  atof : String → ℚ
  xmltoi : Option String → Int
  xmltof : Option String → ℚ
  xmltoa : Option String → Option String → String
  M2CM : ℚ
  correct : List (ℚ × ℚ) → List (ℚ × ℚ)

/-- The file system as the parser sees it: `LoadFile` yields the top-level nodes
of the document, `none` when it fails; `opendir` yields the names `readdir`
returns, `none` for a null `DIR*`. -/
structure FileSystem where
  LoadFile : String → Option (List TiXmlNode)
  opendir : String → Option (List String)

/-- The values of `FileFormat` the parser assigns. -/
inductive FileFormat where
  | FORMAT_XML_PLAIN
  | FORMAT_PLAIN
deriving DecidableEq

/-- A measurement area as the parser fills it in: `MeasurementArea_B` with its
polygon and, where given, its length in movement direction; `MeasurementArea_L`
with the end points of its line. -/
inductive MeasurementArea where
  | B (id : Int) (type : String) (zPos : ℚ) (poly : List (ℚ × ℚ)) (length : Option ℚ)
  | L (id : Int) (type : String) (zPos : ℚ) (lineStartX lineStartY lineEndX lineEndY : ℚ)
deriving DecidableEq

/-- State of an `ArgumentParser`. -/
structure ArgumentParser where
  geometryFileName : String
  scriptsLocation : String
  errorLogFile : String
  trajectoriesLocation : String
  trajectoriesFilename : String
  projectRootDir : String
  fileFormat : FileFormat
  trajectoriesFiles : List String
  vComponent : String
  IgnoreBackwardMovement : Bool
  isMethodA : Bool
  isMethodB : Bool
  isMethodC : Bool
  isMethodD : Bool
  isCutByCircle : Bool
  cutRadius : ℚ
  circleEdges : Int
  isOutputGraph : Bool
  isPlotGraph : Bool
  isOneDimensional : Bool
  isGetProfile : Bool
  steadyStart : ℚ
  steadyEnd : ℚ
  delatTVInst : Int
  areaIDforMethodA : List Int
  areaIDforMethodB : List Int
  areaIDforMethodC : List Int
  areaIDforMethodD : List Int
  grid_size_X : ℚ
  grid_size_Y : ℚ
  log : Int
  start_frames_MethodD : List Int
  stop_frames_MethodD : List Int
  individual_FD_flags : List Bool
  isPlotTimeSeriesA : List Bool
  isPlotTimeSeriesC : List Bool
  isPlotTimeSeriesD : List Bool
  timeIntervalA : List Int
  measurementAreas : StdMap MeasurementArea
deriving DecidableEq

/-- The constructor `ArgumentParser::ArgumentParser`: the vectors and the map
start empty. -/
def newArgumentParser : ArgumentParser :=
  { geometryFileName := "geo.xml"
    scriptsLocation := "./"
    errorLogFile := "./Logfile.dat"
    trajectoriesLocation := "./"
    trajectoriesFilename := ""
    projectRootDir := "./"
    fileFormat := FileFormat.FORMAT_XML_PLAIN
    trajectoriesFiles := []
    vComponent := "B"
    IgnoreBackwardMovement := false
    isMethodA := false
    isMethodB := false
    isMethodC := false
    isMethodD := false
    isCutByCircle := false
    cutRadius := 50
    circleEdges := 6
    isOutputGraph := false
    isPlotGraph := false
    isOneDimensional := false
    isGetProfile := false
    steadyStart := 100
    steadyEnd := 1000
    delatTVInst := 5
    areaIDforMethodA := []
    areaIDforMethodB := []
    areaIDforMethodC := []
    areaIDforMethodD := []
    grid_size_X := 10
    grid_size_Y := 10
    log := 1
    start_frames_MethodD := []
    stop_frames_MethodD := []
    individual_FD_flags := []
    isPlotTimeSeriesA := []
    isPlotTimeSeriesC := []
    isPlotTimeSeriesD := []
    timeIntervalA := []
    measurementAreas := [] }

/-- Sequencing inside `ParseIniFile`: a step yields the state of the parser and
whether the function is still running (`false`: it has returned `false`). -/
def ParseIniFile.andThen (o : Outcome (ArgumentParser × Bool))
    (next : ArgumentParser → Outcome (ArgumentParser × Bool)) :
    Outcome (ArgumentParser × Bool) :=
  o.bind fun r => if r.2 then next r.1 else Outcome.ret r

/-- The project root directory: the part of the path of the ini file up to its
last `/` or `\`. -/
def ParseIniFile.projectRootDir (inifile : String) (p : ArgumentParser) : ArgumentParser :=
  match find_last_of inifile.data ['/', Char.ofNat 92] with
  | some found => { p with projectRootDir := String.mk (inifile.data.take found) ++ "/" }
  | none => p

/-- The block `geometry` of `ParseIniFile`. -/
def ParseIniFile.geometry (xMainNode : TiXmlNode) (p : ArgumentParser) :
    Outcome (ArgumentParser × Bool) :=
  match xMainNode.FirstChild "geometry" with
  | none => Outcome.ret (p, true)
  | some _ =>
    match xMainNode.FirstChildElement "geometry" with
    | none => Outcome.fault
    | some geometry =>
      match geometry.Attribute "file" with
      | none => Outcome.fault
      | some file => Outcome.ret ({ p with geometryFileName := p.projectRootDir ++ file }, true)

/-- The loop over the `file` elements of `trajectories`. -/
def ParseIniFile.files (fmt : String) :
    List TiXmlNode → ArgumentParser → Outcome (ArgumentParser × Bool)
  | [], p => Outcome.ret (p, true)
  | xFile :: rest, p =>
    match xFile.Attribute "name" with
    | none => Outcome.fault
    | some name =>
      if ends_with name fmt then
        ParseIniFile.files fmt rest
          { p with trajectoriesFilename := name
                   trajectoriesFiles := p.trajectoriesFiles ++ [name] }
      else
        Outcome.ret ({ p with trajectoriesFilename := name
                              trajectoriesFiles := p.trajectoriesFiles ++ [name] }, false)

/-- The test both location blocks make for a relative path ("hack to find if it
is an absolute path"): a path without `:` that does not start with `/` is put
below the project root. -/
def ParseIniFile.belowRoot (projectRootDir location : String) : String :=
  if contains location ":" = false ∧ starts_with location "/" = false then
    projectRootDir ++ location
  else location

/-- The location of the trajectories: the attribute `location` of the element
`path`, below the project root unless it is absolute. -/
def ParseIniFile.location (xTrajectories : TiXmlNode) (p : ArgumentParser) :
    ArgumentParser :=
  match xTrajectories.FirstChildElement "path" with
  | some path =>
    match path.Attribute "location" with
    | some location =>
      { p with trajectoriesLocation := ParseIniFile.belowRoot p.projectRootDir location }
    | none =>
      { p with
        trajectoriesLocation :=
          ParseIniFile.belowRoot p.projectRootDir p.trajectoriesLocation }
  | none => { p with trajectoriesLocation := p.projectRootDir }

/-- The end of the block `trajectories`: when no file was given, all files of
the directory that end in the format are collected. -/
def ParseIniFile.collect (fs : FileSystem) (fmt : String) (p : ArgumentParser) :
    Outcome (ArgumentParser × Bool) :=
  if p.trajectoriesFiles.isEmpty then
    match fs.opendir p.trajectoriesLocation with
    | some entries =>
      Outcome.ret ({ p with
        trajectoriesFiles := p.trajectoriesFiles ++
          entries.filter fun filename => ends_with filename fmt }, true)
    | none => Outcome.ret (p, false)
  else Outcome.ret (p, true)

/-- The block `trajectories` of `ParseIniFile`. -/
def ParseIniFile.trajectories (x : Externals) (fs : FileSystem) (xMainNode : TiXmlNode)
    (p : ArgumentParser) : Outcome (ArgumentParser × Bool) :=
  match xMainNode.FirstChild "trajectories" with
  | none => Outcome.ret (p, true)
  | some xTrajectories =>
    match xMainNode.FirstChildElement "trajectories" with
    | none => Outcome.fault
    | some trajectories =>
      if "." ++ x.xmltoa (trajectories.Attribute "format") none = ".xml" then
        if x.xmltoa (trajectories.Attribute "unit") (some "m") ≠ "m" then
          Outcome.ret ({ p with fileFormat := FileFormat.FORMAT_XML_PLAIN }, false)
        else
          ParseIniFile.andThen
            (ParseIniFile.files ("." ++ x.xmltoa (trajectories.Attribute "format") none)
              (xTrajectories.siblingElements "file")
              { p with fileFormat := FileFormat.FORMAT_XML_PLAIN })
            fun p1 =>
              ParseIniFile.collect fs ("." ++ x.xmltoa (trajectories.Attribute "format") none)
                (ParseIniFile.location xTrajectories p1)
      else if "." ++ x.xmltoa (trajectories.Attribute "format") none = ".txt" then
        if x.xmltoa (trajectories.Attribute "unit") (some "m") ≠ "m" then
          Outcome.ret ({ p with fileFormat := FileFormat.FORMAT_PLAIN }, false)
        else
          ParseIniFile.andThen
            (ParseIniFile.files ("." ++ x.xmltoa (trajectories.Attribute "format") none)
              (xTrajectories.siblingElements "file")
              { p with fileFormat := FileFormat.FORMAT_PLAIN })
            fun p1 =>
              ParseIniFile.collect fs ("." ++ x.xmltoa (trajectories.Attribute "format") none)
                (ParseIniFile.location xTrajectories p1)
      else Outcome.ret (p, false)

/-- The block `scripts` of `ParseIniFile`: an empty location stands for `./`, and
the directory has to open. -/
def ParseIniFile.scripts (fs : FileSystem) (xMainNode : TiXmlNode) (p : ArgumentParser) :
    Outcome (ArgumentParser × Bool) :=
  match xMainNode.FirstChild "scripts" with
  | none => Outcome.ret (p, true)
  | some _ =>
    match xMainNode.FirstChildElement "scripts" with
    | none => Outcome.fault
    | some scripts =>
      match scripts.Attribute "location" with
      | none => Outcome.fault
      | some location =>
        Outcome.ret
          ({ p with
            scriptsLocation :=
              ParseIniFile.belowRoot p.projectRootDir
                (if location = "" then "./" else location) },
            (fs.opendir
              (ParseIniFile.belowRoot p.projectRootDir
                (if location = "" then "./" else location))).isSome)

/-- The value `zPos` of a measurement area: the attribute, `10000001.0` where
it is missing or `None`. -/
def ParseIniFile.zPos (x : Externals) (area : TiXmlNode) : ℚ :=
  match area.Attribute "zPos" with
  | some zPos => if zPos ≠ "None" then x.xmltof (some zPos) else 10000001
  | none => 10000001

/-- The loop over the nodes `area_B` of `measurement_areas`. -/
def ParseIniFile.areasB (x : Externals) :
    List TiXmlNode → ArgumentParser → Outcome ArgumentParser
  | [], p => Outcome.ret p
  | xMeasurementArea_B :: rest, p =>
    if xMeasurementArea_B.isElement then
      match xMeasurementArea_B.Attribute "type" with
      | none => Outcome.fault
      | some type =>
        ParseIniFile.areasB x rest
          { p with
            measurementAreas :=
              StdMap.set p.measurementAreas (x.xmltoi (xMeasurementArea_B.Attribute "id"))
                (MeasurementArea.B (x.xmltoi (xMeasurementArea_B.Attribute "id")) type
                  (ParseIniFile.zPos x xMeasurementArea_B)
                  (x.correct ((xMeasurementArea_B.siblingElements "vertex").map fun xVertex =>
                    (x.xmltof (xVertex.Attribute "x") * x.M2CM,
                      x.xmltof (xVertex.Attribute "y") * x.M2CM)))
                  ((xMeasurementArea_B.FirstChildElement "length_in_movement_direction").map
                    fun xLength => x.xmltof (xLength.Attribute "distance"))) }
    else Outcome.fault

/-- The loop over the nodes `area_L` of `measurement_areas`. -/
def ParseIniFile.areasL (x : Externals) :
    List TiXmlNode → ArgumentParser → Outcome ArgumentParser
  | [], p => Outcome.ret p
  | xMeasurementArea_L :: rest, p =>
    if xMeasurementArea_L.isElement then
      match xMeasurementArea_L.Attribute "type",
        xMeasurementArea_L.FirstChildElement "start",
        xMeasurementArea_L.FirstChildElement "end" with
      | some type, some start, some stop =>
        ParseIniFile.areasL x rest
          { p with
            measurementAreas :=
              StdMap.set p.measurementAreas (x.xmltoi (xMeasurementArea_L.Attribute "id"))
                (MeasurementArea.L (x.xmltoi (xMeasurementArea_L.Attribute "id")) type
                  (ParseIniFile.zPos x xMeasurementArea_L)
                  (x.xmltof (start.Attribute "x") * x.M2CM)
                  (x.xmltof (start.Attribute "y") * x.M2CM)
                  (x.xmltof (stop.Attribute "x") * x.M2CM)
                  (x.xmltof (stop.Attribute "y") * x.M2CM)) }
      | _, _, _ => Outcome.fault
    else Outcome.fault

/-- The block `measurement_areas` of `ParseIniFile`. -/
def ParseIniFile.measurement_areas (x : Externals) (xMainNode : TiXmlNode)
    (p : ArgumentParser) : Outcome (ArgumentParser × Bool) :=
  match xMainNode.FirstChild "measurement_areas" with
  | none => Outcome.ret (p, true)
  | some areas =>
    match xMainNode.FirstChildElement "measurement_areas" with
    | none => Outcome.fault
    | some element =>
      match element.Attribute "unit" with
      | none => Outcome.fault
      | some unit =>
        if unit ≠ "m" then Outcome.ret (p, false)
        else
          (ParseIniFile.areasB x (areas.siblings "area_B") p).bind fun p1 =>
            (ParseIniFile.areasL x (areas.siblings "area_L") p1).bind fun p2 =>
              Outcome.ret (p2, true)

/-- The start of the block `velocity`: the attribute `frame_step`, halved, is the
time interval of the instantaneous velocity. -/
def ParseIniFile.frame_step (x : Externals) (velocity : TiXmlNode) (p : ArgumentParser) :
    ArgumentParser :=
  match velocity.Attribute "frame_step" with
  | some FrameSteps => { p with delatTVInst := truncate (x.atof FrameSteps / 2) }
  | none => p

/-- The attribute `ignore_backward_movement` of `velocity`. -/
def ParseIniFile.ignore_backward_movement (velocity : TiXmlNode) (p : ArgumentParser) :
    ArgumentParser :=
  match velocity.Attribute "ignore_backward_movement" with
  | some ignore => { p with IgnoreBackwardMovement := decide (ignore = "true") }
  | none => p

/-- The end of the block `velocity`: the velocity component that goes with the
movement direction. -/
def ParseIniFile.component (MovementDirection : String) (p : ArgumentParser) :
    ArgumentParser :=
  if MovementDirection = "None" then
    { p with vComponent := "B", IgnoreBackwardMovement := false }
  else if MovementDirection = "SeeTraj" then { p with vComponent := "F" }
  else { p with vComponent := MovementDirection }

/-- The block `velocity` of `ParseIniFile`. The test on the movement direction
is the conjunction the source has. -/
def ParseIniFile.velocity (x : Externals) (xMainNode : TiXmlNode) (p : ArgumentParser) :
    Outcome (ArgumentParser × Bool) :=
  match xMainNode.FirstChild "velocity" with
  | none => Outcome.ret (p, true)
  | some _ =>
    match xMainNode.FirstChildElement "velocity" with
    | none => Outcome.fault
    | some velocity =>
      match velocity.Attribute "set_movement_direction" with
      | some MovementDirection =>
        if x.atof MovementDirection < 0 ∧ x.atof MovementDirection > 360 ∧
            MovementDirection ≠ "None" ∧ MovementDirection ≠ "SeeTraj" then
          Outcome.ret (ParseIniFile.frame_step x velocity p, false)
        else
          Outcome.ret
            (ParseIniFile.component MovementDirection
              (ParseIniFile.ignore_backward_movement velocity
                (ParseIniFile.frame_step x velocity p)), true)
      | none =>
        Outcome.ret
          (ParseIniFile.component "None"
            (ParseIniFile.ignore_backward_movement velocity
              (ParseIniFile.frame_step x velocity p)), true)

/-- The frame interval pushed for a measurement area of method A: the attribute
`frame_interval`, 100 where it is missing or `None`. -/
def ParseIniFile.frame_interval (x : Externals) (xMeasurementArea : TiXmlNode) : Int :=
  match xMeasurementArea.Attribute "frame_interval" with
  | some interval => if interval ≠ "None" then x.xmltoi (some interval) else 100
  | none => 100

/-- The frame pushed for the attribute `start_frame` or `stop_frame` of a
measurement area of method D: -1 where the attribute is missing or `None`. -/
def ParseIniFile.frame (x : Externals) (xMeasurementArea : TiXmlNode) (name : String) : Int :=
  match xMeasurementArea.Attribute name with
  | some frame => if frame ≠ "None" then x.xmltoi (some frame) else -1
  | none => -1

/-- The flag pushed for the attribute `plot_time_series` or `get_individual_FD`
of a measurement area: whether the attribute is there and is `true`. -/
def ParseIniFile.flag (xMeasurementArea : TiXmlNode) (name : String) : Bool :=
  match xMeasurementArea.Attribute name with
  | some value => decide (value = "true")
  | none => false

/-- The loop over the measurement areas of method A. -/
def ParseIniFile.areasA (x : Externals) : List TiXmlNode → ArgumentParser → ArgumentParser
  | [], p => p
  | xMeasurementArea :: rest, p =>
    ParseIniFile.areasA x rest
      { p with
        areaIDforMethodA := p.areaIDforMethodA ++ [x.xmltoi (xMeasurementArea.Attribute "id")]
        timeIntervalA := p.timeIntervalA ++ [ParseIniFile.frame_interval x xMeasurementArea]
        isPlotTimeSeriesA := p.isPlotTimeSeriesA ++
          [ParseIniFile.flag xMeasurementArea "plot_time_series"] }

/-- The loop over the measurement areas of method B. -/
def ParseIniFile.areasOfB (x : Externals) : List TiXmlNode → ArgumentParser → ArgumentParser
  | [], p => p
  | xMeasurementArea :: rest, p =>
    ParseIniFile.areasOfB x rest
      { p with
        areaIDforMethodB := p.areaIDforMethodB ++
          [x.xmltoi (xMeasurementArea.Attribute "id")] }

/-- The loop over the measurement areas of method C. -/
def ParseIniFile.areasC (x : Externals) : List TiXmlNode → ArgumentParser → ArgumentParser
  | [], p => p
  | xMeasurementArea :: rest, p =>
    ParseIniFile.areasC x rest
      { p with
        areaIDforMethodC := p.areaIDforMethodC ++ [x.xmltoi (xMeasurementArea.Attribute "id")]
        isPlotTimeSeriesC := p.isPlotTimeSeriesC ++
          [ParseIniFile.flag xMeasurementArea "plot_time_series"] }

/-- The loop over the measurement areas of method D. -/
def ParseIniFile.areasD (x : Externals) : List TiXmlNode → ArgumentParser → ArgumentParser
  | [], p => p
  | xMeasurementArea :: rest, p =>
    ParseIniFile.areasD x rest
      { p with
        areaIDforMethodD := p.areaIDforMethodD ++ [x.xmltoi (xMeasurementArea.Attribute "id")]
        start_frames_MethodD := p.start_frames_MethodD ++
          [ParseIniFile.frame x xMeasurementArea "start_frame"]
        stop_frames_MethodD := p.stop_frames_MethodD ++
          [ParseIniFile.frame x xMeasurementArea "stop_frame"]
        individual_FD_flags := p.individual_FD_flags ++
          [ParseIniFile.flag xMeasurementArea "get_individual_FD"]
        isPlotTimeSeriesD := p.isPlotTimeSeriesD ++
          [ParseIniFile.flag xMeasurementArea "plot_time_series"] }

/-- The block `method_A` of `ParseIniFile`. -/
def ParseIniFile.method_A (x : Externals) (xMainNode : TiXmlNode) (p : ArgumentParser) :
    Outcome ArgumentParser :=
  match xMainNode.FirstChildElement "method_A" with
  | none => Outcome.ret p
  | some xMethod_A =>
    match xMethod_A.Attribute "enabled" with
    | none => Outcome.fault
    | some enabled =>
      if enabled = "true" then
        Outcome.ret
          (ParseIniFile.areasA x (xMethod_A.siblingElements "measurement_area")
            { p with isMethodA := true })
      else Outcome.ret p

/-- The block `method_B` of `ParseIniFile`. -/
def ParseIniFile.method_B (x : Externals) (xMainNode : TiXmlNode) (p : ArgumentParser) :
    Outcome ArgumentParser :=
  match xMainNode.FirstChildElement "method_B" with
  | none => Outcome.ret p
  | some xMethod_B =>
    match xMethod_B.Attribute "enabled" with
    | none => Outcome.fault
    | some enabled =>
      if enabled = "true" then
        Outcome.ret
          (ParseIniFile.areasOfB x (xMethod_B.siblingElements "measurement_area")
            { p with isMethodB := true })
      else Outcome.ret p

/-- The block `method_C` of `ParseIniFile`. -/
def ParseIniFile.method_C (x : Externals) (xMainNode : TiXmlNode) (p : ArgumentParser) :
    Outcome ArgumentParser :=
  match xMainNode.FirstChildElement "method_C" with
  | none => Outcome.ret p
  | some xMethod_C =>
    match xMethod_C.Attribute "enabled" with
    | none => Outcome.fault
    | some enabled =>
      if enabled = "true" then
        Outcome.ret
          (ParseIniFile.areasC x (xMethod_C.siblingElements "measurement_area")
            { p with isMethodC := true })
      else Outcome.ret p

/-- The element `one_dimensional` of `method_D`. -/
def ParseIniFile.one_dimensional (xMethod_D : TiXmlNode) (p : ArgumentParser) :
    Outcome ArgumentParser :=
  match xMethod_D.FirstChildElement "one_dimensional" with
  | none => Outcome.ret p
  | some element =>
    match element.Attribute "enabled" with
    | none => Outcome.fault
    | some enabled =>
      if enabled = "true" then Outcome.ret { p with isOneDimensional := true }
      else Outcome.ret p

/-- The element `cut_by_circle` of `method_D`. -/
def ParseIniFile.cut_by_circle (x : Externals) (xMethod_D : TiXmlNode) (p : ArgumentParser) :
    Outcome ArgumentParser :=
  match xMethod_D.FirstChildElement "cut_by_circle" with
  | none => Outcome.ret p
  | some element =>
    match element.Attribute "enabled" with
    | none => Outcome.fault
    | some enabled =>
      if enabled = "true" then
        Outcome.ret
          { p with
            isCutByCircle := true
            cutRadius := x.xmltof (element.Attribute "radius") * x.M2CM
            circleEdges := x.xmltoi (element.Attribute "edges") }
      else Outcome.ret p

/-- The element `output_voronoi_cells` of `method_D`. -/
def ParseIniFile.output_voronoi_cells (xMethod_D : TiXmlNode) (p : ArgumentParser) :
    Outcome ArgumentParser :=
  match xMethod_D.FirstChildElement "output_voronoi_cells" with
  | none => Outcome.ret p
  | some element =>
    match element.Attribute "enabled" with
    | none => Outcome.fault
    | some enabled =>
      if enabled = "true" then
        match element.Attribute "plot_graphs" with
        | none => Outcome.fault
        | some plot_graphs =>
          if plot_graphs = "true" then
            Outcome.ret { p with isOutputGraph := true, isPlotGraph := true }
          else Outcome.ret { p with isOutputGraph := true }
      else Outcome.ret p

/-- The element `steadyState` of `method_D`. -/
def ParseIniFile.steadyState (x : Externals) (xMethod_D : TiXmlNode) (p : ArgumentParser) :
    ArgumentParser :=
  match xMethod_D.FirstChildElement "steadyState" with
  | none => p
  | some element =>
    { p with
      steadyStart := x.xmltof (element.Attribute "start")
      steadyEnd := x.xmltof (element.Attribute "end") }

/-- The element `profiles` of `method_D`. -/
def ParseIniFile.profiles (x : Externals) (xMethod_D : TiXmlNode) (p : ArgumentParser) :
    Outcome ArgumentParser :=
  match xMethod_D.FirstChildElement "profiles" with
  | none => Outcome.ret p
  | some element =>
    match element.Attribute "enabled" with
    | none => Outcome.fault
    | some enabled =>
      if enabled = "true" then
        Outcome.ret
          { p with
            isGetProfile := true
            grid_size_X := x.xmltof (element.Attribute "grid_size_x") * x.M2CM
            grid_size_Y := x.xmltof (element.Attribute "grid_size_y") * x.M2CM }
      else Outcome.ret p

/-- The block `method_D` of `ParseIniFile`. -/
def ParseIniFile.method_D (x : Externals) (xMainNode : TiXmlNode) (p : ArgumentParser) :
    Outcome ArgumentParser :=
  match xMainNode.FirstChildElement "method_D" with
  | none => Outcome.ret p
  | some xMethod_D =>
    match xMethod_D.Attribute "enabled" with
    | none => Outcome.fault
    | some enabled =>
      if enabled = "true" then
        (ParseIniFile.one_dimensional xMethod_D
          (ParseIniFile.areasD x (xMethod_D.siblingElements "measurement_area")
            { p with isMethodD := true })).bind fun p1 =>
          (ParseIniFile.cut_by_circle x xMethod_D p1).bind fun p2 =>
            (ParseIniFile.output_voronoi_cells xMethod_D p2).bind fun p3 =>
              ParseIniFile.profiles x xMethod_D (ParseIniFile.steadyState x xMethod_D p3)
      else Outcome.ret p

/-- The blocks of `ParseIniFile` that read the four analysis methods. -/
def ParseIniFile.methods (x : Externals) (xMainNode : TiXmlNode) (p : ArgumentParser) :
    Outcome (ArgumentParser × Bool) :=
  (ParseIniFile.method_A x xMainNode p).bind fun p1 =>
    (ParseIniFile.method_B x xMainNode p1).bind fun p2 =>
      (ParseIniFile.method_C x xMainNode p2).bind fun p3 =>
        (ParseIniFile.method_D x xMainNode p3).bind fun p4 => Outcome.ret (p4, true)

/-- The body of `ArgumentParser::ParseIniFile`: the state of the parser at the
return, and the value returned. The block `num_threads` touches no
member of the parser and is left out, as are the log lines. -/
def ParseIniFile (x : Externals) (fs : FileSystem) (inifile : String) (p : ArgumentParser) :
    Outcome (ArgumentParser × Bool) :=
  match fs.LoadFile inifile with
  | none => Outcome.ret (ParseIniFile.projectRootDir inifile p, false)
  | some doc =>
    match doc.find? TiXmlNode.isElement with
    | none => Outcome.ret (ParseIniFile.projectRootDir inifile p, false)
    | some xMainNode =>
      if xMainNode.Value ≠ "JPSreport" then
        Outcome.ret (ParseIniFile.projectRootDir inifile p, false)
      else
        ParseIniFile.andThen
          (ParseIniFile.geometry xMainNode (ParseIniFile.projectRootDir inifile p))
          fun p1 =>
            ParseIniFile.andThen (ParseIniFile.trajectories x fs xMainNode p1) fun p2 =>
              ParseIniFile.andThen (ParseIniFile.scripts fs xMainNode p2) fun p3 =>
                ParseIniFile.andThen (ParseIniFile.measurement_areas x xMainNode p3) fun p4 =>
                  ParseIniFile.andThen (ParseIniFile.velocity x xMainNode p4) fun p5 =>
                    ParseIniFile.methods x xMainNode p5

/-- The area-id lists of the methods A, C and D with their per-area option
lists, in the order: ids, frame intervals and plot flags of A; ids and plot
flags of C; ids, start frames, stop frames, individual-FD flags and plot
flags of D. -/
def ArgumentParser.optionLists (p : ArgumentParser) :
    (List Int × List Int × List Bool) × (List Int × List Bool) ×
      (List Int × List Int × List Int × List Bool × List Bool) :=
  ((p.areaIDforMethodA, p.timeIntervalA, p.isPlotTimeSeriesA),
    (p.areaIDforMethodC, p.isPlotTimeSeriesC),
    (p.areaIDforMethodD, p.start_frames_MethodD, p.stop_frames_MethodD,
      p.individual_FD_flags, p.isPlotTimeSeriesD))

/-- The option lists that go with given measurement areas of the methods A, C
and D, one entry per area in every list, in the order of `optionLists`. This is
the description to compare the lists of the parser with. -/
def ParseIniFile.listsOf (x : Externals) (areasA areasC areasD : List TiXmlNode) :
    (List Int × List Int × List Bool) × (List Int × List Bool) ×
      (List Int × List Int × List Int × List Bool × List Bool) :=
  ((areasA.map (fun area => x.xmltoi (area.Attribute "id")),
      areasA.map (ParseIniFile.frame_interval x),
      areasA.map (fun area => ParseIniFile.flag area "plot_time_series")),
    (areasC.map (fun area => x.xmltoi (area.Attribute "id")),
      areasC.map (fun area => ParseIniFile.flag area "plot_time_series")),
    (areasD.map (fun area => x.xmltoi (area.Attribute "id")),
      areasD.map (fun area => ParseIniFile.frame x area "start_frame"),
      areasD.map (fun area => ParseIniFile.frame x area "stop_frame"),
      areasD.map (fun area => ParseIniFile.flag area "get_individual_FD"),
      areasD.map (fun area => ParseIniFile.flag area "plot_time_series")))

/-! ## Sample inputs -/

/-- Structural identity of two hlines, a stand-in for `Hline::operator==` on
identical lines. -/
def hlineIdentical (a c : Hline) : Bool := decide (a = c)

/-- A building without rooms, connectors or pedestrians. -/
def emptyBuilding : Building :=
  { configuration := { linkedCellSize := 1 }
    routingEngine := 0
    caption := "no_caption"
    rooms := []
    crossings := []
    transitions := []
    hLines := []
    goals := []
    allPedestians := []
    linkedCellGrid := none
    savePathway := false
    pathWayStream := [] }

/-- A helper line with id 1. -/
def sampleHline : Hline :=
  { id := 1, uniqueID := 10, caption := "h", point1 := ⟨0, 0⟩, point2 := ⟨1, 0⟩ }

/-- A helper line with id 1 at another place. -/
def movedHline : Hline :=
  { id := 1, uniqueID := 11, caption := "h", point1 := ⟨0, 5⟩, point2 := ⟨1, 5⟩ }

/-- A building whose hline collection holds `sampleHline`. -/
def hlineBuilding : Building := { emptyBuilding with hLines := [(1, sampleHline)] }

/-- A wall of the sample room. -/
def sampleWall (x1 y1 x2 y2 : ℚ) : Wall :=
  { point1 := ⟨x1, y1⟩, point2 := ⟨x2, y2⟩ }

/-- The single subroom of the sample room: a square of 10 by 10. -/
def squareSubRoom : SubRoom :=
  { roomID := 0, subRoomID := 0
    walls := [sampleWall 0 0 10 0, sampleWall 10 0 10 10, sampleWall 10 10 0 10,
      sampleWall 0 10 0 0]
    obstacles := [], crossings := [], transitions := []
    poly := [], area := 0, minElevation := 0, maxElevation := 0, neighbors := [] }

/-- A building with one room of 10 by 10 and the brute-force cell size `-1`. -/
def squareBuilding : Building :=
  { emptyBuilding with
    configuration := { linkedCellSize := -1 }
    rooms := [(0, { id := 0, caption := "hall", subRooms := [(0, squareSubRoom)] })] }

/-- A pedestrian of room 0, subroom 0. -/
def samplePed (id : Int) (path : List Char) : Pedestrian :=
  { id := id, roomID := 0, subRoomID := 0, path := path, pos := ⟨5, 5⟩ }

/-- A store with three pedestrians: ids 1, 2 and 3 at the addresses 1, 2 and 3;
the first has passed transition 7 of room 0. -/
def sampleStore : PedStore := fun q =>
  if q = 1 then some (samplePed 1 ['0', ':', '7', '>'])
  else if q = 2 then some (samplePed 2 [])
  else if q = 3 then some (samplePed 3 [])
  else none

/-- The exit of the sample room. -/
def sampleExit : Transition :=
  { id := 7, uniqueID := 70, caption := "exit", point1 := ⟨4, 0⟩, point2 := ⟨6, 0⟩,
    subRoom1 := some { room := 0, sub := 0 }, subRoom2 := none }

/-- The sample room with its exit, the pedestrians at the addresses 1 and 2 in
the live list, and path saving switched on. -/
def liveBuilding : Building :=
  { squareBuilding with
    transitions := [(7, sampleExit)]
    allPedestians := [1, 2]
    savePathway := true }

/-- The subroom at `A` exists and has `B` recorded as a neighbour. -/
def isNeighbor (rooms : StdMap Room) (A B : SubRoomRef) : Prop :=
  ∃ s, getSubRoom rooms A = some s ∧ B ∈ s.neighbors

/-- Stand-ins for the member functions of `SubRoom` and `Obstacle`: a polygon
is the list of the first end points of the walls and there is none without
walls; area and elevation are zero. -/
def sampleOps : SubRoomOps :=
  { convertLineToPoly := fun s _ =>
      if s.walls = [] then none else some (s.walls.map fun w => w.point1)
    calculateArea := fun _ => 0
    obstacleConvertLineToPoly := fun o =>
      if o.walls = [] then none else some (o.walls.map fun w => w.point1)
    getElevation := fun _ _ => 0 }

/-- A second subroom of the sample room, to the right of the first. -/
def rightSubRoom : SubRoom :=
  { squareSubRoom with
    subRoomID := 1
    walls := [sampleWall 10 0 20 0, sampleWall 20 0 20 10, sampleWall 20 10 10 10,
      sampleWall 10 10 10 0] }

/-- The crossing between the two subrooms of the sample room. -/
def sampleCrossing : Crossing :=
  { id := 1, uniqueID := 1, caption := "", point1 := ⟨10, 4⟩, point2 := ⟨10, 6⟩,
    subRoom1 := some { room := 0, sub := 0 }, subRoom2 := some { room := 0, sub := 1 } }

/-- A room of two subrooms joined by a crossing, with an exit that leads
outside from the first. -/
def twoSubRoomBuilding : Building :=
  { emptyBuilding with
    rooms := [(0, { id := 0, caption := "hall",
                    subRooms := [(0, squareSubRoom), (1, rightSubRoom)] })]
    crossings := [(1, sampleCrossing)]
    transitions := [(7, sampleExit)] }

/-- The building `twoSubRoomBuilding` after `InitGeometry` under `sampleOps`. -/
def twoSubRoomInitialised : Building :=
  { twoSubRoomBuilding with
    rooms := [(0, { id := 0, caption := "hall",
                    subRooms :=
                      [(0, { squareSubRoom with
                             poly := [⟨0, 0⟩, ⟨10, 0⟩, ⟨10, 10⟩, ⟨0, 10⟩]
                             neighbors := [{ room := 0, sub := 1 }] }),
                       (1, { rightSubRoom with
                             poly := [⟨10, 0⟩, ⟨20, 0⟩, ⟨20, 10⟩, ⟨10, 10⟩]
                             neighbors := [{ room := 0, sub := 0 }] })] })] }

/-- A second room with the id 0 of the sample room. -/
def otherRoom : Room := { id := 0, caption := "annex", subRooms := [] }

/-- A room whose single subroom has the triangle `(0, 0)`, `(5, 0)`, `(10, 5)`
as its polygon. -/
def triangleBuilding : Building :=
  { emptyBuilding with
    rooms := [(0, { id := 0, caption := "wedge",
                    subRooms := [(0, { squareSubRoom with
                      walls := [sampleWall 0 0 5 0, sampleWall 5 0 10 5, sampleWall 10 5 0 0]
                      poly := [⟨0, 0⟩, ⟨5, 0⟩, ⟨10, 5⟩] })] })] }

/-- A stand-in for `SubRoom::SanityCheck` that fails for every subroom. -/
def failingSanityCheck (_ : SubRoom) : Bool := false

/-- Calls on the live list: pedestrians 1 and 2 are added, 1 is offered
again, 1 is deleted, 3 is added. -/
def samplePedOps : List PedOp :=
  [PedOp.add 1, PedOp.add 2, PedOp.add 1, PedOp.delete 1, PedOp.add 3]

/-- Stand-ins for the collaborators of the constructor: the loader yields the
room of two subrooms, the distributor places the pedestrians 1 and 2, the
routing engine accepts every building. -/
def sampleCollaborators : Collaborators :=
  { loadBuilding := fun _ => Outcome.ret twoSubRoomBuilding
    distribute := fun h b => (h, { b with allPedestians := [1, 2] }, true)
    agentsCreated := 2
    routingInit := fun b => (b, true)
    subSanityCheck := fun _ => true }

/-- Stand-ins as `sampleOps`, with the elevation `10^39` everywhere, which is
above `FLT_MAX`. -/
def highOps : SubRoomOps :=
  { sampleOps with getElevation := fun _ _ => 1000000000000000000000000000000000000000 }

/-- The first subroom of `twoSubRoomBuilding` after `InitGeometry` under
`highOps`. -/
def highSubRoom : SubRoom :=
  { squareSubRoom with
    poly := [⟨0, 0⟩, ⟨10, 0⟩, ⟨10, 10⟩, ⟨0, 10⟩]
    minElevation := FLT_MAX
    maxElevation := 1000000000000000000000000000000000000000
    neighbors := [{ room := 0, sub := 1 }] }

/-- The building `twoSubRoomBuilding` after `InitGeometry` under `highOps`. -/
def twoSubRoomHigh : Building :=
  { twoSubRoomBuilding with
    rooms := [(0, { id := 0, caption := "hall",
                    subRooms :=
                      [(0, highSubRoom),
                       (1, { rightSubRoom with
                             poly := [⟨10, 0⟩, ⟨20, 0⟩, ⟨20, 10⟩, ⟨10, 10⟩]
                             minElevation := FLT_MAX
                             maxElevation := 1000000000000000000000000000000000000000
                             neighbors := [{ room := 0, sub := 0 }] })] })] }

/-- The live building with a grid of cell size 2 set up around the sample
room. -/
def gridBuilding : Building :=
  { liveBuilding with
    linkedCellGrid := some
      { xMin := -1, xMax := 11, yMin := -1, yMax := 11, cellSize := 2, nPeds := 2,
        peds := [1, 2], cells := [] } }

/-- A source of at most 5 agents, one request per frame. -/
def sampleSource : AgentsSource :=
  { id := 1, frequency := 1, maxAgents := 5, greedy := false, agentsGenerated := 0,
    agents := [] }

/-- A goal with id 4. -/
def sampleGoal : Goal :=
  { id := 4, caption := "goal", walls := [sampleWall 20 0 21 0] }

/-- A crossing with id 5. -/
def sampleDoor : Crossing :=
  { id := 5, uniqueID := 50, caption := "door", point1 := ⟨5, 0⟩, point2 := ⟨5, 10⟩,
    subRoom1 := some { room := 0, sub := 0 }, subRoom2 := none }

/-- The sample building with one crossing, one transition, one hline and one
goal stored. -/
def connectorBuilding : Building :=
  { squareBuilding with
    crossings := [(5, sampleDoor)]
    transitions := [(7, sampleExit)]
    hLines := [(1, sampleHline)]
    goals := [(4, sampleGoal)] }

/-- A second crossing, with id 6. -/
def secondDoor : Crossing := { sampleDoor with id := 6, uniqueID := 60 }

/-- A second transition, with id 8. -/
def secondExit : Transition := { sampleExit with id := 8, uniqueID := 80 }

/-- A second helper line, with id 2. -/
def secondHline : Hline := { sampleHline with id := 2, uniqueID := 20 }

/-- A second goal, with id 3. -/
def secondGoal : Goal := { sampleGoal with id := 3 }

/-- A subroom as it could come out of `new NormalSubRoom()`: no walls, no
connectors. -/
def freshSubRoom : SubRoom :=
  { roomID := -1, subRoomID := -1, walls := [], obstacles := [], crossings := [],
    transitions := [], poly := [], area := 0, minElevation := 0, maxElevation := 0,
    neighbors := [] }

/-- A room as it could come out of `new Room()`: no subrooms. -/
def freshRoom : Room := { id := -1, caption := "no room caption", subRooms := [] }

/-- A building whose single room has the id 1. -/
def shiftedBuilding : Building :=
  { emptyBuilding with
    rooms := [(1, { id := 1, caption := "hall", subRooms := [(0, squareSubRoom)] })] }

/-- A building whose single wall runs from `(-3, -2)` to `(-1, -1)`. -/
def negativeBuilding : Building :=
  { emptyBuilding with
    rooms := [(0, { id := 0, caption := "cellar", subRooms :=
      [(0, { squareSubRoom with walls := [sampleWall (-3) (-2) (-1) (-1)] })] })] }

/-- Stand-ins for the conversions of `Macros.h` and for `atof` on strings that
hold a whole number: a null or empty string gives the default. -/
def sampleExternals : Externals :=
  { atof := fun s => (atoi s.data : ℚ)
    xmltoi := fun t =>
      match t with
      | some s => if s = "" then 0 else atoi s.data
      | none => 0
    xmltof := fun t =>
      match t with
      | some s => if s = "" then 0 else (atoi s.data : ℚ)
      | none => 0
    xmltoa := fun t v => t.getD (v.getD "")
    M2CM := 100
    correct := fun poly => poly }

/-- A `velocity` element that sets the movement direction to 400 degrees. -/
def directionVelocity : TiXmlNode :=
  TiXmlNode.element "velocity" [("set_movement_direction", "400")] []

/-- The root element of an ini document with that `velocity` element only. -/
def directionRoot : TiXmlNode := TiXmlNode.element "JPSreport" [] [directionVelocity]

/-- An ini document with that root element after the XML declaration. -/
def directionDocument : List TiXmlNode := [TiXmlNode.other "xml version", directionRoot]

/-- A file system whose file `ini.xml` holds `directionDocument`. -/
def directionFiles : FileSystem :=
  { LoadFile := fun name => if name = "ini.xml" then some directionDocument else none
    opendir := fun _ => none }

/-- An ini document with two measurement areas for method A, none for method C
and one for method D. -/
def methodsDocument : List TiXmlNode :=
  [TiXmlNode.element "JPSreport" []
    [TiXmlNode.element "method_A" [("enabled", "true")]
      [TiXmlNode.element "measurement_area" [("id", "1"), ("frame_interval", "None")] [],
       TiXmlNode.element "measurement_area"
         [("id", "2"), ("frame_interval", "50"), ("plot_time_series", "true")] []],
     TiXmlNode.element "method_C" [("enabled", "false")]
      [TiXmlNode.element "measurement_area" [("id", "1")] []],
     TiXmlNode.element "method_D" [("enabled", "true")]
      [TiXmlNode.element "measurement_area"
         [("id", "3"), ("start_frame", "None"), ("get_individual_FD", "true")] []]]]

/-- A file system whose file `ini.xml` holds `methodsDocument`. -/
def methodsFiles : FileSystem :=
  { LoadFile := fun name => if name = "ini.xml" then some methodsDocument else none
    opendir := fun _ => none }

/-! # Theorems -/

/-! ## `std::map` -/

theorem StdMap.count_ne_zero_iff {α : Type} (m : StdMap α) (k : Int) :
    StdMap.count m k ≠ 0 ↔ k ∈ StdMap.keys m := by
  induction m with
  | nil => simp [StdMap.count, StdMap.keys]
  | cons e rest ih =>
    simp only [StdMap.count, StdMap.keys] at ih ⊢
    by_cases h : e.1 = k
    · simp [List.filter_cons, h]
    · have h2 : ¬ k = e.1 := fun h3 => h h3.symm
      simp [List.filter_cons, h, h2, ih]

theorem StdMap.find?_isSome_iff {α : Type} (m : StdMap α) (k : Int) :
    (StdMap.find? m k).isSome ↔ k ∈ StdMap.keys m := by
  induction m with
  | nil => simp [StdMap.find?, StdMap.keys]
  | cons e rest ih =>
    obtain ⟨k', v⟩ := e
    simp only [StdMap.keys] at ih
    by_cases h : k' = k
    · simp [StdMap.find?, StdMap.keys, h]
    · have h2 : ¬ k = k' := fun h3 => h h3.symm
      simp [StdMap.find?, StdMap.keys, h, h2, ih]

/-! ## Connector collections -/

/-- Claim C1: each of `AddCrossing`, `AddTransition` and `AddGoal` ends the
process exactly when the id of the new element is already a key of its
collection; otherwise it returns `true`, with the element stored under its
id. -/
theorem add_connector_aborts_iff_duplicate (b : Building) (c : Crossing)
    (t : Transition) (g : Goal) :
    ((AddCrossing b c = Outcome.aborted ↔ c.id ∈ StdMap.keys b.crossings) ∧
      (c.id ∉ StdMap.keys b.crossings →
        AddCrossing b c =
          Outcome.ret ({ b with crossings := StdMap.set b.crossings c.id c }, true))) ∧
    ((AddTransition b t = Outcome.aborted ↔ t.id ∈ StdMap.keys b.transitions) ∧
      (t.id ∉ StdMap.keys b.transitions →
        AddTransition b t =
          Outcome.ret ({ b with transitions := StdMap.set b.transitions t.id t }, true))) ∧
    ((AddGoal b g = Outcome.aborted ↔ g.id ∈ StdMap.keys b.goals) ∧
      (g.id ∉ StdMap.keys b.goals →
        AddGoal b g = Outcome.ret ({ b with goals := StdMap.set b.goals g.id g }, true))) := by
  refine ⟨⟨?_, ?_⟩, ⟨?_, ?_⟩, ⟨?_, ?_⟩⟩
  · rw [← StdMap.count_ne_zero_iff]
    unfold AddCrossing
    split <;> simp_all
  · intro h
    rw [← StdMap.count_ne_zero_iff] at h
    simp [AddCrossing, h]
  · rw [← StdMap.count_ne_zero_iff]
    unfold AddTransition
    split <;> simp_all
  · intro h
    rw [← StdMap.count_ne_zero_iff] at h
    simp [AddTransition, h]
  · rw [← StdMap.count_ne_zero_iff]
    unfold AddGoal
    split <;> simp_all
  · intro h
    rw [← StdMap.count_ne_zero_iff] at h
    simp [AddGoal, h]

/-- Claim C10, as the code has it: for an hline whose id is already a key,
`AddHline` ends the process exactly when the new line differs from the stored
one under `operator==`; for an identical line it returns `false` and leaves the
building as it was. -/
theorem AddHline_duplicate_id (hlineEq : Hline → Hline → Bool) (b : Building)
    (line ori : Hline) (hdup : StdMap.find? b.hLines line.id = some ori) :
    (AddHline hlineEq b line = Outcome.aborted ↔ hlineEq ori line = false) ∧
    (hlineEq ori line = true → AddHline hlineEq b line = Outcome.ret (b, false)) := by
  have hkey : line.id ∈ StdMap.keys b.hLines := by
    rw [← StdMap.find?_isSome_iff, hdup]; rfl
  have hcount : StdMap.count b.hLines line.id ≠ 0 := (StdMap.count_ne_zero_iff _ _).2 hkey
  constructor
  · unfold AddHline
    rw [if_pos hcount, hdup]
    cases h : hlineEq ori line <;> simp [h]
  · intro heq
    unfold AddHline
    rw [if_pos hcount, hdup]
    simp [heq]

/-- Claim C10, witness: a second hline with id 1 at another place ends the
process, the stored one offered again does not. -/
theorem AddHline_duplicate_id_witness :
    StdMap.find? hlineBuilding.hLines movedHline.id = some sampleHline ∧
    (AddHline hlineIdentical hlineBuilding movedHline = Outcome.aborted ↔
      hlineIdentical sampleHline movedHline = false) ∧
    (hlineIdentical sampleHline movedHline = true →
      AddHline hlineIdentical hlineBuilding movedHline = Outcome.ret (hlineBuilding, false)) :=
  ⟨by decide, AddHline_duplicate_id hlineIdentical hlineBuilding movedHline sampleHline (by decide)⟩

/-- Claim C10, counterexample: the id 1 is already a key and the line offered is
identical to the stored one; `AddHline` returns `false` instead of ending the
process. -/
theorem AddHline_identical_not_fatal :
    sampleHline.id ∈ StdMap.keys hlineBuilding.hLines ∧
    AddHline hlineIdentical hlineBuilding sampleHline = Outcome.ret (hlineBuilding, false) ∧
    AddHline hlineIdentical hlineBuilding sampleHline ≠ Outcome.aborted := by
  refine ⟨by decide, ?_, ?_⟩
  · rfl
  · simp [AddHline, hlineIdentical, hlineBuilding, sampleHline, StdMap.count, StdMap.find?]


/-! ## Visibility -/

theorem IsVisible.scanSubRooms_iff (vis : SubRoom → Point → Point → Bool → Bool)
    (p1 p2 : Point) (c : Bool) (l : List (Int × SubRoom)) :
    IsVisible.scanSubRooms vis p1 p2 c l = true ↔ ∀ e ∈ l, vis e.2 p1 p2 c = true := by
  induction l with
  | nil => simp [IsVisible.scanSubRooms]
  | cons e rest ih =>
    cases hv : vis e.2 p1 p2 c <;> simp [IsVisible.scanSubRooms, hv, ih]

theorem IsVisible.scanRooms_iff (vis : SubRoom → Point → Point → Bool → Bool)
    (p1 p2 : Point) (c : Bool) (l : List (Int × Room)) :
    IsVisible.scanRooms vis p1 p2 c l = true ↔
      ∀ r ∈ l, ∀ e ∈ r.2.subRooms, vis e.2 p1 p2 c = true := by
  induction l with
  | nil => simp [IsVisible.scanRooms]
  | cons r rest ih =>
    cases hv : IsVisible.scanSubRooms vis p1 p2 c r.2.subRooms
    · have hn : ¬ ∀ e ∈ r.2.subRooms, vis e.2 p1 p2 c = true := by
        rw [← IsVisible.scanSubRooms_iff, hv]; simp
      simp only [IsVisible.scanRooms, hv, List.mem_cons]
      constructor
      · intro h; simp at h
      · intro h; exact absurd (h r (Or.inl rfl)) hn
    · have hy := (IsVisible.scanSubRooms_iff vis p1 p2 c r.2.subRooms).1 hv
      have hstep : IsVisible.scanRooms vis p1 p2 c (r :: rest) =
          IsVisible.scanRooms vis p1 p2 c rest := by
        simp [IsVisible.scanRooms, hv]
      rw [hstep, ih]
      constructor
      · intro h r' hr'
        rcases List.mem_cons.1 hr' with rfl | hr'
        · exact hy
        · exact h r' hr'
      · intro h r' hr'
        exact h r' (List.mem_cons_of_mem _ hr')

theorem IsVisible.scanGiven_iff (vis : SubRoom → Point → Point → Bool → Bool)
    (p1 p2 : Point) (c : Bool) (l : List (Option SubRoom)) :
    IsVisible.scanGiven vis p1 p2 c l = true ↔
      ∀ s ∈ l.filterMap id, vis s p1 p2 c = true := by
  induction l with
  | nil => simp [IsVisible.scanGiven]
  | cons o rest ih =>
    cases o with
    | none => simpa [IsVisible.scanGiven] using ih
    | some s =>
      cases hv : vis s p1 p2 c <;> simp [IsVisible.scanGiven, hv, ih]

/-- Claim C5: `Building::IsVisible` returns true exactly when every relevant
subroom reports the two points visible under the same `considerHlines` flag;
the relevant subrooms are all subrooms of all rooms for an empty list and the
non-null entries of the list otherwise. -/
theorem IsVisible_iff_all_relevant (vis : SubRoom → Point → Point → Bool → Bool)
    (b : Building) (p1 p2 : Point) (subrooms : List (Option SubRoom))
    (considerHlines : Bool) :
    IsVisible vis b p1 p2 subrooms considerHlines = true ↔
      ∀ s ∈ (if subrooms = [] then allSubRooms b else subrooms.filterMap id),
        vis s p1 p2 considerHlines = true := by
  unfold IsVisible
  by_cases he : subrooms = []
  · subst he
    simp only [List.isEmpty_nil, if_true, IsVisible.scanRooms_iff, allSubRooms]
    constructor
    · intro h s hs
      simp only [List.mem_flatMap, List.mem_map] at hs
      obtain ⟨r, hr, e, he, rfl⟩ := hs
      exact h r hr e he
    · intro h r hr e he
      apply h
      simp only [List.mem_flatMap, List.mem_map]
      exact ⟨r, hr, e, he, rfl⟩
  · have hne : subrooms.isEmpty = false := by
      cases subrooms with
      | nil => exact absurd rfl he
      | cons _ _ => rfl
    rw [hne, if_neg he]
    exact IsVisible.scanGiven_iff vis p1 p2 considerHlines subrooms

/-! ## The linked-cell grid -/

/-- Claim C9: with the configured cell size `-1`, the cell size handed to the
grid is the larger of the width and the height of the boundaries handed to it,
hence at least both; any other configured cell size is handed on unchanged. -/
theorem InitGrid_cellSize (agentsCreated : Int) (b : Building) :
    ∃ g, (InitGrid agentsCreated b).linkedCellGrid = some g ∧
      (b.configuration.linkedCellSize = -1 →
        g.cellSize = max (g.xMax - g.xMin) (g.yMax - g.yMin) ∧
        g.xMax - g.xMin ≤ g.cellSize ∧ g.yMax - g.yMin ≤ g.cellSize) ∧
      (b.configuration.linkedCellSize ≠ -1 →
        g.cellSize = b.configuration.linkedCellSize) := by
  refine ⟨_, rfl, ?_, ?_⟩
  · intro h
    simp only [h, if_true]
    split
    · next hlt => exact ⟨(max_eq_right hlt.le).symm, hlt.le, le_refl _⟩
    · next hge =>
      have hle := not_lt.1 hge
      exact ⟨(max_eq_left hle).symm, le_refl _, hle⟩
  · intro h
    simp only [if_neg h]

/-- Claim C8, the code at the failing input: for the room of 10 by 10 with the
brute-force cell size `-1` the boundaries handed to the grid are `[1, 9]` in both
directions, so the wall end point `(0, 0)` lies outside them. -/
theorem InitGrid_bruteforce_box_excludes_corner :
    squareBuilding.configuration.linkedCellSize = -1 ∧
    (⟨0, 0⟩ : Point) ∈ wallEndpoints squareBuilding ∧
    (InitGrid 0 squareBuilding).linkedCellGrid =
      some { xMin := 1, xMax := 9, yMin := 1, yMax := 9, cellSize := 8, nPeds := 0,
             peds := [], cells := [] } := by
  refine ⟨rfl, ?_, ?_⟩
  · simp [wallEndpoints, squareBuilding, squareSubRoom, sampleWall]
  · simp only [InitGrid, InitGrid.extremes, InitGrid.wallStep, squareBuilding, squareSubRoom,
      sampleWall, emptyBuilding, FLT_MAX, FLT_MIN, List.foldl]
    norm_num


/-! ## Pedestrians -/

theorem GetPedestrian.scan_none (h : PedStore) (pedID : Int) (l : List Ptr)
    (hl : ∀ q ∈ l, ∃ pq, h q = some pq ∧ pq.id ≠ pedID) :
    GetPedestrian.scan h pedID l = Outcome.ret none := by
  induction l with
  | nil => rfl
  | cons q rest ih =>
    obtain ⟨pq, hq, hne⟩ := hl q (List.mem_cons_self _ _)
    have hrest := ih fun r hr => hl r (List.mem_cons_of_mem _ hr)
    simp [GetPedestrian.scan, hq, hne, hrest]

theorem Outcome.exists_of_returns {α : Type} (o : Outcome α) (h : o.returns = true) :
    ∃ a, o = Outcome.ret a := by
  cases o with
  | ret a => exact ⟨a, rfl⟩
  | aborted => simp [Outcome.returns] at h
  | fault => simp [Outcome.returns] at h

theorem DeletePedestrian_found (h : PedStore) (b : Building) (ped : Ptr) (p : Pedestrian)
    (stream : List String) (hin : ped ∈ b.allPedestians) (hped : h ped = some p)
    (hpath : DeletePedestrian.pathHistory h b ped = Outcome.ret stream) :
    DeletePedestrian h b ped =
      Outcome.ret (h.free ped,
        { b with allPedestians := b.allPedestians.erase ped, pathWayStream := stream }) := by
  unfold DeletePedestrian
  rw [if_pos hin, hpath]
  simp [Outcome.bind, hped]

theorem pathHistory_returns_of_off (h : PedStore) (b : Building) (ped : Ptr)
    (hoff : b.savePathway = false) :
    DeletePedestrian.pathHistory h b ped = Outcome.ret b.pathWayStream := by
  simp [DeletePedestrian.pathHistory, hoff]

theorem pathHistory_returns (h : PedStore) (b : Building) (ped : Ptr)
    (hpath : b.savePathway = true → (DeletePedestrian.pathHistory h b ped).returns = true) :
    (DeletePedestrian.pathHistory h b ped).returns = true := by
  cases hs : b.savePathway with
  | false => rw [pathHistory_returns_of_off h b ped hs]; rfl
  | true => exact hpath hs

/-- Claim C2: in a live list of pedestrians with pairwise distinct ids,
`DeletePedestrian` of a pedestrian of the list returns with the live list
being the old one with that pedestrian erased, the others in their order, and
`GetPedestrian` of its id then returns null. Where path saving is switched
on, the path-history block has to get through first. -/
theorem DeletePedestrian_erases_and_forgets (h : PedStore) (b : Building) (ped : Ptr)
    (p : Pedestrian)
    (hvalid : ∀ q ∈ b.allPedestians, (h q).isSome)
    (hdistinct : (b.allPedestians.map fun q => (h q).map Pedestrian.id).Nodup)
    (hin : ped ∈ b.allPedestians) (hped : h ped = some p)
    (hpath : b.savePathway = true → (DeletePedestrian.pathHistory h b ped).returns = true) :
    ∃ h' b', DeletePedestrian h b ped = Outcome.ret (h', b') ∧
      b'.allPedestians = b.allPedestians.erase ped ∧
      b'.allPedestians = b.allPedestians.filter (fun q => q != ped) ∧
      GetPedestrian h' b' p.id = Outcome.ret none := by
  obtain ⟨stream, hstream⟩ := Outcome.exists_of_returns _ (pathHistory_returns h b ped hpath)
  have hnodup : b.allPedestians.Nodup := List.Nodup.of_map _ hdistinct
  refine ⟨_, _, DeletePedestrian_found h b ped p stream hin hped hstream, rfl,
    List.Nodup.erase_eq_filter hnodup ped, ?_⟩
  apply GetPedestrian.scan_none
  intro q hq
  have hq' : q ≠ ped ∧ q ∈ b.allPedestians := (List.Nodup.mem_erase_iff hnodup).1 hq
  have hsome := hvalid q hq'.2
  obtain ⟨pq, hpq⟩ := Option.isSome_iff_exists.1 hsome
  refine ⟨pq, ?_, ?_⟩
  · simp [PedStore.free, hq'.1, hpq]
  · intro hid
    have hinj := List.inj_on_of_nodup_map hdistinct hq'.2 hin
    apply hq'.1
    apply hinj
    simp [hpq, hped, hid]

/-- Claim C2, witness: the pedestrian at address 1, whose path names room 0 and
transition 7, is deleted from the live list `[1, 2]` with path saving on. -/
theorem DeletePedestrian_erases_and_forgets_witness :
    (∀ q ∈ liveBuilding.allPedestians, (sampleStore q).isSome) ∧
    (liveBuilding.allPedestians.map fun q => (sampleStore q).map Pedestrian.id).Nodup ∧
    1 ∈ liveBuilding.allPedestians ∧
    liveBuilding.savePathway = true ∧
    (DeletePedestrian.pathHistory sampleStore liveBuilding 1).returns = true ∧
    ∃ h' b', DeletePedestrian sampleStore liveBuilding 1 = Outcome.ret (h', b') ∧
      b'.allPedestians = liveBuilding.allPedestians.erase 1 ∧
      b'.allPedestians = liveBuilding.allPedestians.filter (fun q => q != 1) ∧
      GetPedestrian h' b' (samplePed 1 ['0', ':', '7', '>']).id = Outcome.ret none :=
  ⟨by decide, by decide, by decide, rfl, by decide,
    DeletePedestrian_erases_and_forgets sampleStore liveBuilding 1
      (samplePed 1 ['0', ':', '7', '>']) (by decide) (by decide) (by decide) rfl
      (fun _ => by decide)⟩

/-- Claim C4: `DeletePedestrian` of a pedestrian that is not in the live list
returns normally and changes nothing: the building, its live list included, and
the store of pedestrian objects are as before, so the pedestrian is not
freed. -/
theorem DeletePedestrian_absent_noop (h : PedStore) (b : Building) (ped : Ptr)
    (hlive : (h ped).isSome = true) (habsent : ped ∉ b.allPedestians) :
    DeletePedestrian h b ped = Outcome.ret (h, b) := by
  obtain ⟨p, hp⟩ := Option.isSome_iff_exists.1 hlive
  unfold DeletePedestrian
  rw [if_neg habsent, hp]

/-- Claim C4, witness: the pedestrian at address 3 is not in the live list
`[1, 2]`. -/
theorem DeletePedestrian_absent_noop_witness :
    (sampleStore 3).isSome = true ∧ 3 ∉ liveBuilding.allPedestians ∧
    DeletePedestrian sampleStore liveBuilding 3 = Outcome.ret (sampleStore, liveBuilding) :=
  ⟨by decide, by decide,
    DeletePedestrian_absent_noop sampleStore liveBuilding 3 (by decide) (by decide)⟩

theorem StdMap.find?_modify {α : Type} (m : StdMap α) (k k' : Int) (f : α → α) :
    StdMap.find? (StdMap.modify m k f) k' =
      if k' = k then (StdMap.find? m k).map f else StdMap.find? m k' := by
  induction m with
  | nil => simp [StdMap.modify, StdMap.find?]
  | cons e rest ih =>
    obtain ⟨k0, v⟩ := e
    by_cases h0 : k0 = k
    · subst h0
      by_cases h1 : k' = k0
      · subst h1
        simp [StdMap.modify, StdMap.find?]
      · have h2 : ¬ k0 = k' := fun h => h1 h.symm
        simp [StdMap.modify, StdMap.find?, h1, h2]
    · by_cases h1 : k' = k
      · subst h1
        simp [StdMap.modify, StdMap.find?, h0, ih]
      · by_cases h2 : k0 = k'
        · simp [StdMap.modify, StdMap.find?, h0, h1, h2]
        · simp [StdMap.modify, StdMap.find?, h0, h1, h2, ih]

theorem getSubRoom_cons (k : Int) (room : Room) (rest : StdMap Room) (A : SubRoomRef) :
    getSubRoom ((k, room) :: rest) A =
      if k = A.room then StdMap.find? room.subRooms A.sub else getSubRoom rest A := by
  unfold getSubRoom
  by_cases h : k = A.room <;> simp [StdMap.find?, h]

theorem getSubRoom_modifySubRoom (rooms : StdMap Room) (r A : SubRoomRef)
    (f : SubRoom → SubRoom) :
    getSubRoom (modifySubRoom rooms r f) A =
      if A = r then (getSubRoom rooms r).map f else getSubRoom rooms A := by
  obtain ⟨rr, rs⟩ := r
  obtain ⟨ar, as⟩ := A
  unfold getSubRoom modifySubRoom
  simp only [StdMap.find?_modify, SubRoomRef.mk.injEq]
  by_cases h1 : ar = rr
  · subst h1
    cases hroom : StdMap.find? rooms ar with
    | none => simp
    | some room =>
      by_cases h2 : as = rs
      · subst h2
        simp [StdMap.find?_modify]
      · simp [StdMap.find?_modify, h2]
  · simp [h1]

theorem mem_AddNeighbor (s : SubRoom) (sub : Option SubRoomRef) (B : SubRoomRef) :
    B ∈ (s.AddNeighbor sub).neighbors ↔ B ∈ s.neighbors ∨ sub = some B := by
  cases sub with
  | none => simp [SubRoom.AddNeighbor]
  | some r =>
    unfold SubRoom.AddNeighbor
    by_cases hr : r ∈ s.neighbors
    · simp only [hr, if_true, Option.some.injEq]
      constructor
      · exact Or.inl
      · rintro (h | h)
        · exact h
        · exact h ▸ hr
    · simp only [hr, if_false, List.mem_append, List.mem_singleton, Option.some.injEq]
      constructor
      · rintro (h | h)
        · exact Or.inl h
        · exact Or.inr h.symm
      · rintro (h | h)
        · exact Or.inl h
        · exact Or.inr h.symm

theorem addNeighbor_returns (rooms : StdMap Room) (a : SubRoomRef) (s2 : Option SubRoomRef)
    (ha : (getSubRoom rooms a).isSome = true) :
    InitGeometry.addNeighbor rooms a s2 =
      Outcome.ret (modifySubRoom rooms a fun s => s.AddNeighbor s2) := by
  obtain ⟨sa, hsa⟩ := Option.isSome_iff_exists.1 ha
  simp [InitGeometry.addNeighbor, hsa]

theorem addNeighbor_spec (rooms rooms1 : StdMap Room) (a : SubRoomRef)
    (s2 : Option SubRoomRef) (h : InitGeometry.addNeighbor rooms a s2 = Outcome.ret rooms1) :
    (getSubRoom rooms a).isSome = true ∧
    (∀ A, (getSubRoom rooms1 A).isSome = (getSubRoom rooms A).isSome) ∧
    (∀ A B, isNeighbor rooms1 A B ↔ isNeighbor rooms A B ∨ (A = a ∧ s2 = some B)) := by
  unfold InitGeometry.addNeighbor at h
  cases hsa : getSubRoom rooms a with
  | none => simp [hsa] at h
  | some sa =>
    simp only [hsa, Outcome.ret.injEq] at h
    subst h
    refine ⟨rfl, ?_, ?_⟩
    · intro A
      rw [getSubRoom_modifySubRoom]
      by_cases hA : A = a
      · subst hA; simp [hsa]
      · simp [hA]
    · intro A B
      unfold isNeighbor
      rw [getSubRoom_modifySubRoom]
      by_cases hA : A = a
      · subst hA
        simp only [if_true, hsa, Option.map_some', Option.some.injEq, true_and]
        constructor
        · rintro ⟨s, rfl, hB⟩
          rcases (mem_AddNeighbor sa s2 B).1 hB with h | h
          · exact Or.inl ⟨sa, rfl, h⟩
          · exact Or.inr h
        · rintro (⟨s, hs, hB⟩ | h)
          · exact ⟨_, rfl, (mem_AddNeighbor sa s2 B).2 (Or.inl (hs ▸ hB))⟩
          · exact ⟨_, rfl, (mem_AddNeighbor sa s2 B).2 (Or.inr h)⟩
      · simp [hA]


theorem Outcome.bind_eq_ret {α β : Type} (o : Outcome α) (f : α → Outcome β) (y : β) :
    o.bind f = Outcome.ret y ↔ ∃ a, o = Outcome.ret a ∧ f a = Outcome.ret y := by
  cases o with
  | ret a => simp [Outcome.bind]
  | aborted => simp [Outcome.bind]
  | fault => simp [Outcome.bind]

theorem link_spec (rooms rooms2 : StdMap Room) (s1 s2 : Option SubRoomRef)
    (h : InitGeometry.link rooms s1 s2 = Outcome.ret rooms2) :
    (∀ A, (getSubRoom rooms2 A).isSome = (getSubRoom rooms A).isSome) ∧
    (∀ A B, isNeighbor rooms2 A B ↔
      isNeighbor rooms A B ∨ (s1 = some A ∧ s2 = some B) ∨ (s2 = some A ∧ s1 = some B)) := by
  unfold InitGeometry.link at h
  obtain ⟨rooms1, h1, h2⟩ := (Outcome.bind_eq_ret _ _ _).1 h
  cases s1 with
  | none =>
    simp only [Outcome.ret.injEq] at h1
    subst h1
    cases s2 with
    | none =>
      simp only [Outcome.ret.injEq] at h2
      subst h2
      simp
    | some c =>
      obtain ⟨_, hE, hN⟩ := addNeighbor_spec _ _ _ _ h2
      refine ⟨hE, fun A B => ?_⟩
      rw [hN]
      simp
  | some a =>
    obtain ⟨_, hE1, hN1⟩ := addNeighbor_spec _ _ _ _ h1
    cases s2 with
    | none =>
      simp only [Outcome.ret.injEq] at h2
      subst h2
      refine ⟨hE1, fun A B => ?_⟩
      rw [hN1]
      simp
    | some c =>
      obtain ⟨_, hE2, hN2⟩ := addNeighbor_spec _ _ _ _ h2
      refine ⟨fun A => (hE2 A).trans (hE1 A), fun A B => ?_⟩
      rw [hN2, hN1]
      simp only [Option.some.injEq]
      constructor
      · rintro ((h | ⟨rfl, rfl⟩) | ⟨rfl, rfl⟩)
        · exact Or.inl h
        · exact Or.inr (Or.inl ⟨rfl, rfl⟩)
        · exact Or.inr (Or.inr ⟨rfl, rfl⟩)
      · rintro (h | ⟨rfl, rfl⟩ | ⟨rfl, rfl⟩)
        · exact Or.inl (Or.inl h)
        · exact Or.inl (Or.inr ⟨rfl, rfl⟩)
        · exact Or.inr ⟨rfl, rfl⟩

theorem link_returns (rooms : StdMap Room) (s1 s2 : Option SubRoomRef)
    (h1 : ∀ r, s1 = some r → (getSubRoom rooms r).isSome = true)
    (h2 : ∀ r, s2 = some r → (getSubRoom rooms r).isSome = true) :
    ∃ rooms2, InitGeometry.link rooms s1 s2 = Outcome.ret rooms2 := by
  unfold InitGeometry.link
  cases s1 with
  | none =>
    cases s2 with
    | none => exact ⟨_, rfl⟩
    | some c => exact ⟨_, addNeighbor_returns rooms c none (h2 c rfl)⟩
  | some a =>
    have ha := addNeighbor_returns rooms a s2 (h1 a rfl)
    cases s2 with
    | none =>
      simp only [ha]
      exact ⟨_, rfl⟩
    | some c =>
      have hE := (addNeighbor_spec _ _ _ _ ha).2.1 c
      have hc := addNeighbor_returns (modifySubRoom rooms a fun s => s.AddNeighbor (some c)) c
        (some a) (by rw [hE]; exact h2 c rfl)
      simp only [ha]
      exact ⟨_, hc⟩

theorem linkAll_spec (l : List (Option SubRoomRef × Option SubRoomRef))
    (rooms rooms2 : StdMap Room) (h : InitGeometry.linkAll l rooms = Outcome.ret rooms2) :
    (∀ A, (getSubRoom rooms2 A).isSome = (getSubRoom rooms A).isSome) ∧
    (∀ A B, isNeighbor rooms2 A B ↔
      isNeighbor rooms A B ∨
        ∃ c ∈ l, (c.1 = some A ∧ c.2 = some B) ∨ (c.2 = some A ∧ c.1 = some B)) := by
  induction l generalizing rooms with
  | nil =>
    simp only [InitGeometry.linkAll, Outcome.ret.injEq] at h
    subst h
    simp
  | cons c rest ih =>
    simp only [InitGeometry.linkAll] at h
    obtain ⟨rooms1, h1, h2⟩ := (Outcome.bind_eq_ret _ _ _).1 h
    obtain ⟨hE1, hN1⟩ := link_spec _ _ _ _ h1
    obtain ⟨hE2, hN2⟩ := ih rooms1 h2
    refine ⟨fun A => (hE2 A).trans (hE1 A), fun A B => ?_⟩
    rw [hN2, hN1]
    constructor
    · rintro ((h | h) | ⟨c', hc', h⟩)
      · exact Or.inl h
      · exact Or.inr ⟨c, List.mem_cons_self _ _, h⟩
      · exact Or.inr ⟨c', List.mem_cons_of_mem _ hc', h⟩
    · rintro (hN | ⟨c', hc', hPQ⟩)
      · exact Or.inl (Or.inl hN)
      · rcases List.mem_cons.1 hc' with heq | hc'
        · exact Or.inl (Or.inr (heq ▸ hPQ))
        · exact Or.inr ⟨c', hc', hPQ⟩

theorem linkAll_returns (l : List (Option SubRoomRef × Option SubRoomRef))
    (rooms : StdMap Room)
    (hres : ∀ c ∈ l, (∀ r, c.1 = some r → (getSubRoom rooms r).isSome = true) ∧
      (∀ r, c.2 = some r → (getSubRoom rooms r).isSome = true)) :
    ∃ rooms2, InitGeometry.linkAll l rooms = Outcome.ret rooms2 := by
  induction l generalizing rooms with
  | nil => exact ⟨_, rfl⟩
  | cons c rest ih =>
    obtain ⟨rooms1, h1⟩ := link_returns rooms c.1 c.2 (hres c (List.mem_cons_self _ _)).1
      (hres c (List.mem_cons_self _ _)).2
    have hE := (link_spec _ _ _ _ h1).1
    obtain ⟨rooms2, h2⟩ := ih rooms1 fun c' hc' =>
      ⟨fun r hr => by rw [hE]; exact (hres c' (List.mem_cons_of_mem _ hc')).1 r hr,
       fun r hr => by rw [hE]; exact (hres c' (List.mem_cons_of_mem _ hc')).2 r hr⟩
    exact ⟨rooms2, by simp [InitGeometry.linkAll, h1, Outcome.bind, h2]⟩

/-! ## Geometry initialisation -/

theorem convertObstacles_ok (ops : SubRoomOps) (l : List Obstacle) :
    (InitGeometry.convertObstacles ops l).2 =
      l.all fun o => (ops.obstacleConvertLineToPoly o).isSome := by
  induction l with
  | nil => rfl
  | cons o rest ih =>
    cases ho : ops.obstacleConvertLineToPoly o <;>
      simp [InitGeometry.convertObstacles, ho, ih]

theorem initSubRoom_neighbors (ops : SubRoomOps) (s : SubRoom) :
    (InitGeometry.initSubRoom ops s).1.neighbors = s.neighbors := by
  simp only [InitGeometry.initSubRoom]
  split
  · rfl
  · split <;> rfl

theorem initSubRoom_ok (ops : SubRoomOps) (s : SubRoom) :
    (InitGeometry.initSubRoom ops s).2 = s.converts ops := by
  simp only [InitGeometry.initSubRoom, SubRoom.converts]
  split
  · next h => simp [h]
  · next poly h =>
    rw [h, ← convertObstacles_ok]
    cases h2 : (InitGeometry.convertObstacles ops s.obstacles).2 <;> simp

theorem initSubRooms_cons_false (ops : SubRoomOps) (e : Int × SubRoom)
    (rest : List (Int × SubRoom)) (h : (InitGeometry.initSubRoom ops e.2).2 = false) :
    InitGeometry.initSubRooms ops (e :: rest) =
      ((e.1, (InitGeometry.initSubRoom ops e.2).1) :: rest, false) := by
  simp [InitGeometry.initSubRooms, h]

theorem initSubRooms_cons_true (ops : SubRoomOps) (e : Int × SubRoom)
    (rest : List (Int × SubRoom)) (h : (InitGeometry.initSubRoom ops e.2).2 = true) :
    InitGeometry.initSubRooms ops (e :: rest) =
      ((e.1, (InitGeometry.initSubRoom ops e.2).1) :: (InitGeometry.initSubRooms ops rest).1,
        (InitGeometry.initSubRooms ops rest).2) := by
  simp [InitGeometry.initSubRooms, h]

theorem initRooms_cons_false (ops : SubRoomOps) (e : Int × Room)
    (rest : List (Int × Room)) (h : (InitGeometry.initSubRooms ops e.2.subRooms).2 = false) :
    InitGeometry.initRooms ops (e :: rest) =
      ((e.1, { e.2 with subRooms := (InitGeometry.initSubRooms ops e.2.subRooms).1 }) :: rest,
        false) := by
  simp [InitGeometry.initRooms, h]

theorem initRooms_cons_true (ops : SubRoomOps) (e : Int × Room)
    (rest : List (Int × Room)) (h : (InitGeometry.initSubRooms ops e.2.subRooms).2 = true) :
    InitGeometry.initRooms ops (e :: rest) =
      ((e.1, { e.2 with subRooms := (InitGeometry.initSubRooms ops e.2.subRooms).1 }) ::
          (InitGeometry.initRooms ops rest).1,
        (InitGeometry.initRooms ops rest).2) := by
  simp [InitGeometry.initRooms, h]

theorem find?_initSubRooms (ops : SubRoomOps) (l : List (Int × SubRoom)) (k : Int) :
    (StdMap.find? (InitGeometry.initSubRooms ops l).1 k).map SubRoom.neighbors =
      (StdMap.find? l k).map SubRoom.neighbors := by
  induction l with
  | nil => rfl
  | cons e rest ih =>
    obtain ⟨k0, s⟩ := e
    cases h : (InitGeometry.initSubRoom ops s).2
    · rw [initSubRooms_cons_false ops (k0, s) rest h]
      by_cases hk : k0 = k <;> simp [StdMap.find?, hk, initSubRoom_neighbors]
    · rw [initSubRooms_cons_true ops (k0, s) rest h]
      by_cases hk : k0 = k
      · simp [StdMap.find?, hk, initSubRoom_neighbors]
      · simpa [StdMap.find?, hk] using ih

theorem initSubRooms_ok (ops : SubRoomOps) (l : List (Int × SubRoom)) :
    (InitGeometry.initSubRooms ops l).2 = l.all fun e => e.2.converts ops := by
  induction l with
  | nil => rfl
  | cons e rest ih =>
    cases h : (InitGeometry.initSubRoom ops e.2).2
    · rw [initSubRooms_cons_false ops e rest h]
      rw [initSubRoom_ok] at h
      simp [h]
    · rw [initSubRooms_cons_true ops e rest h]
      rw [initSubRoom_ok] at h
      simp [h, ih]

theorem getSubRoom_initRooms (ops : SubRoomOps) (l : List (Int × Room)) (A : SubRoomRef) :
    (getSubRoom (InitGeometry.initRooms ops l).1 A).map SubRoom.neighbors =
      (getSubRoom l A).map SubRoom.neighbors := by
  induction l with
  | nil => rfl
  | cons e rest ih =>
    obtain ⟨k0, room⟩ := e
    cases h : (InitGeometry.initSubRooms ops room.subRooms).2
    · rw [initRooms_cons_false ops (k0, room) rest h]
      by_cases hk : k0 = A.room <;> simp [getSubRoom_cons, hk, find?_initSubRooms]
    · rw [initRooms_cons_true ops (k0, room) rest h]
      by_cases hk : k0 = A.room
      · simp [getSubRoom_cons, hk, find?_initSubRooms]
      · simpa [getSubRoom_cons, hk] using ih

theorem initRooms_ok (ops : SubRoomOps) (l : List (Int × Room)) :
    (InitGeometry.initRooms ops l).2 =
      l.all fun r => r.2.subRooms.all fun e => e.2.converts ops := by
  induction l with
  | nil => rfl
  | cons e rest ih =>
    cases h : (InitGeometry.initSubRooms ops e.2.subRooms).2
    · rw [initRooms_cons_false ops e rest h]
      rw [initSubRooms_ok] at h
      simp [h]
    · rw [initRooms_cons_true ops e rest h]
      rw [initSubRooms_ok] at h
      simp [h, ih]

theorem getSubRoom_initRooms_isSome (ops : SubRoomOps) (l : List (Int × Room))
    (A : SubRoomRef) :
    (getSubRoom (InitGeometry.initRooms ops l).1 A).isSome = (getSubRoom l A).isSome := by
  have h := getSubRoom_initRooms ops l A
  cases h1 : getSubRoom (InitGeometry.initRooms ops l).1 A <;>
    cases h2 : getSubRoom l A <;> simp [h1, h2] at h ⊢


theorem StdMap.mem_of_find? {α : Type} (m : StdMap α) (k : Int) (v : α)
    (h : StdMap.find? m k = some v) : (k, v) ∈ m := by
  induction m with
  | nil => simp [StdMap.find?] at h
  | cons e rest ih =>
    obtain ⟨k0, v0⟩ := e
    by_cases hk : k0 = k
    · simp only [StdMap.find?, hk, if_true, Option.some.injEq] at h
      subst h
      subst hk
      exact List.mem_cons_self _ _
    · simp only [StdMap.find?, hk, if_false] at h
      exact List.mem_cons_of_mem _ (ih h)

theorem mem_allSubRooms_of_getSubRoom (b : Building) (A : SubRoomRef) (s : SubRoom)
    (h : getSubRoom b.rooms A = some s) : s ∈ allSubRooms b := by
  unfold getSubRoom at h
  cases hroom : StdMap.find? b.rooms A.room with
  | none => simp [hroom] at h
  | some room =>
    simp only [hroom] at h
    simp only [allSubRooms, List.mem_flatMap, List.mem_map]
    exact ⟨(A.room, room), StdMap.mem_of_find? _ _ _ hroom, (A.sub, s),
      StdMap.mem_of_find? _ _ _ h, rfl⟩

theorem isNeighbor_initRooms (ops : SubRoomOps) (rooms : StdMap Room) (A B : SubRoomRef) :
    isNeighbor (InitGeometry.initRooms ops rooms).1 A B ↔ isNeighbor rooms A B := by
  have h := getSubRoom_initRooms ops rooms A
  unfold isNeighbor
  cases h1 : getSubRoom (InitGeometry.initRooms ops rooms).1 A <;>
    cases h2 : getSubRoom rooms A <;> simp [h1, h2] at h ⊢
  rw [h]

theorem allConvert_iff (ops : SubRoomOps) (b : Building) :
    (b.rooms.all fun r => r.2.subRooms.all fun e => e.2.converts ops) = true ↔
      ∀ s ∈ allSubRooms b, s.converts ops = true := by
  simp only [List.all_eq_true, allSubRooms, List.mem_flatMap, List.mem_map]
  constructor
  · rintro h s ⟨r, hr, e, he, rfl⟩
    exact h r hr e he
  · intro h r hr e he
    exact h e.2 ⟨r, hr, e, he, rfl⟩

theorem refResolves_iff (rooms : StdMap Room) (o : Option SubRoomRef) :
    refResolves rooms o = true ↔ ∀ r, o = some r → (getSubRoom rooms r).isSome = true := by
  cases o <;> simp [refResolves]

theorem InitGeometry_of_failure (ops : SubRoomOps) (b : Building)
    (h : (InitGeometry.initRooms ops b.rooms).2 = false) :
    InitGeometry ops b =
      Outcome.ret ({ b with rooms := (InitGeometry.initRooms ops b.rooms).1 }, false) := by
  simp [InitGeometry, h]

theorem InitGeometry_of_success (ops : SubRoomOps) (b : Building)
    (h : (InitGeometry.initRooms ops b.rooms).2 = true) :
    InitGeometry ops b =
      (InitGeometry.linkAll (connectorPairs b) (InitGeometry.initRooms ops b.rooms).1).bind
        fun rooms2 => Outcome.ret ({ b with rooms := rooms2 }, true) := by
  have happ : ∀ (l1 l2 : List (Option SubRoomRef × Option SubRoomRef)) (rooms : StdMap Room),
      InitGeometry.linkAll (l1 ++ l2) rooms =
        (InitGeometry.linkAll l1 rooms).bind fun rooms1 => InitGeometry.linkAll l2 rooms1 := by
    intro l1 l2
    induction l1 with
    | nil => intro rooms; rfl
    | cons c rest ih =>
      intro rooms
      simp only [List.cons_append, InitGeometry.linkAll]
      cases InitGeometry.link rooms c.1 c.2 with
      | ret rooms1 => simpa [Outcome.bind] using ih rooms1
      | aborted => rfl
      | fault => rfl
  simp only [InitGeometry, h, connectorPairs, happ]
  cases InitGeometry.linkAll
      (List.map (fun cross => (cross.2.subRoom1, cross.2.subRoom2)) b.crossings)
      (InitGeometry.initRooms ops b.rooms).1 with
  | ret rooms1 => simp [Outcome.bind]
  | aborted => rfl
  | fault => rfl

theorem InitGeometry_true_spec (ops : SubRoomOps) (b b' : Building)
    (h : InitGeometry ops b = Outcome.ret (b', true)) :
    (InitGeometry.initRooms ops b.rooms).2 = true ∧
    (∀ A, (getSubRoom b'.rooms A).isSome = (getSubRoom b.rooms A).isSome) ∧
    (∀ A B, isNeighbor b'.rooms A B ↔
      isNeighbor b.rooms A B ∨
        ∃ c ∈ connectorPairs b, (c.1 = some A ∧ c.2 = some B) ∨ (c.2 = some A ∧ c.1 = some B)) := by
  cases hok : (InitGeometry.initRooms ops b.rooms).2 with
  | false =>
    rw [InitGeometry_of_failure ops b hok] at h
    simp at h
  | true =>
    rw [InitGeometry_of_success ops b hok] at h
    obtain ⟨rooms2, h1, h2⟩ := (Outcome.bind_eq_ret _ _ _).1 h
    simp only [Outcome.ret.injEq, Prod.mk.injEq, and_true] at h2
    subst h2
    obtain ⟨hE, hN⟩ := linkAll_spec _ _ _ h1
    refine ⟨rfl, fun A => ?_, fun A B => ?_⟩
    · exact (hE A).trans (getSubRoom_initRooms_isSome ops b.rooms A)
    · show isNeighbor rooms2 A B ↔ _
      rw [hN, isNeighbor_initRooms]

/-- Claim C6: after an `InitGeometry` that returned true on a building whose
subrooms all had empty neighbour sets, the neighbour relation is symmetric:
whenever a subroom `A` has `B` recorded as a neighbour, `B` is a subroom of the
building and has `A` recorded. The two subrooms of every crossing and
transition that has both are recorded for each other; a connector with an
absent subroom records nothing. -/
theorem InitGeometry_neighbours_symmetric (ops : SubRoomOps) (b b' : Building)
    (hempty : ∀ s ∈ allSubRooms b, s.neighbors = [])
    (hinit : InitGeometry ops b = Outcome.ret (b', true)) :
    (∀ A B, isNeighbor b'.rooms A B → isNeighbor b'.rooms B A) ∧
    (∀ c ∈ connectorPairs b, ∀ x y, c.1 = some x → c.2 = some y →
      isNeighbor b'.rooms x y ∧ isNeighbor b'.rooms y x) ∧
    (∀ A B, isNeighbor b'.rooms A B →
      ∃ c ∈ connectorPairs b, (c.1 = some A ∧ c.2 = some B) ∨ (c.2 = some A ∧ c.1 = some B)) := by
  obtain ⟨_, _, hN⟩ := InitGeometry_true_spec ops b b' hinit
  have hnone : ∀ A B, ¬ isNeighbor b.rooms A B := by
    rintro A B ⟨s, hs, hB⟩
    rw [hempty s (mem_allSubRooms_of_getSubRoom b A s hs)] at hB
    simp at hB
  have hN' : ∀ A B, isNeighbor b'.rooms A B ↔
      ∃ c ∈ connectorPairs b, (c.1 = some A ∧ c.2 = some B) ∨ (c.2 = some A ∧ c.1 = some B) := by
    intro A B
    rw [hN]
    exact ⟨fun h => h.resolve_left (hnone A B), Or.inr⟩
  refine ⟨fun A B h => ?_, fun c hc x y hx hy => ?_, fun A B h => (hN' A B).1 h⟩
  · obtain ⟨c, hc, hPQ⟩ := (hN' A B).1 h
    exact (hN' B A).2 ⟨c, hc, hPQ.symm.imp And.symm And.symm⟩
  · exact ⟨(hN' x y).2 ⟨c, hc, Or.inl ⟨hx, hy⟩⟩, (hN' y x).2 ⟨c, hc, Or.inr ⟨hy, hx⟩⟩⟩


/-- Claim C6, witness: the room of two subrooms with a crossing between them
and an exit that leads outside. -/
theorem InitGeometry_neighbours_symmetric_witness :
    (∀ s ∈ allSubRooms twoSubRoomBuilding, s.neighbors = []) ∧
    InitGeometry sampleOps twoSubRoomBuilding = Outcome.ret (twoSubRoomInitialised, true) ∧
    (∀ A B, isNeighbor twoSubRoomInitialised.rooms A B →
      isNeighbor twoSubRoomInitialised.rooms B A) ∧
    (∀ c ∈ connectorPairs twoSubRoomBuilding, ∀ x y, c.1 = some x → c.2 = some y →
      isNeighbor twoSubRoomInitialised.rooms x y ∧
        isNeighbor twoSubRoomInitialised.rooms y x) ∧
    (∀ A B, isNeighbor twoSubRoomInitialised.rooms A B →
      ∃ c ∈ connectorPairs twoSubRoomBuilding,
        (c.1 = some A ∧ c.2 = some B) ∨ (c.2 = some A ∧ c.1 = some B)) :=
  ⟨by decide, by decide,
    InitGeometry_neighbours_symmetric sampleOps twoSubRoomBuilding twoSubRoomInitialised
      (by decide) (by decide)⟩

theorem converts_eq_true_iff (ops : SubRoomOps) (s : SubRoom) :
    s.converts ops = true ↔
      (ops.convertLineToPoly s (s.crossings ++ s.transitions)).isSome = true ∧
        ∀ o ∈ s.obstacles, (ops.obstacleConvertLineToPoly o).isSome = true := by
  simp [SubRoom.converts, List.all_eq_true]

theorem converts_eq_false_iff (ops : SubRoomOps) (s : SubRoom) :
    s.converts ops = false ↔
      ops.convertLineToPoly s (s.crossings ++ s.transitions) = none ∨
        ∃ o ∈ s.obstacles, ops.obstacleConvertLineToPoly o = none := by
  rw [← Bool.not_eq_true, converts_eq_true_iff]
  constructor
  · intro h
    by_cases hs : (ops.convertLineToPoly s (s.crossings ++ s.transitions)).isSome = true
    · right
      by_contra hno
      apply h
      refine ⟨hs, fun o ho => ?_⟩
      by_contra hnone
      exact hno ⟨o, ho, by simpa using hnone⟩
    · left
      simpa using hs
  · rintro (h | ⟨o, ho, h⟩) ⟨h1, h2⟩
    · simp [h] at h1
    · have := h2 o ho
      simp [h] at this

/-- Claim C7: with every non-null subroom pointer of a connector referring to a
subroom of the building, `InitGeometry` returns false exactly when
`ConvertLineToPoly` fails for some subroom, given its crossings and
transitions, or for some obstacle of a subroom; it returns true exactly when
every subroom and every obstacle converts; and when it returns false every
subroom has the neighbours it had before. -/
theorem InitGeometry_false_iff_conversion_fails (ops : SubRoomOps) (b : Building)
    (hres : connectorsResolve b) :
    ((∃ b', InitGeometry ops b = Outcome.ret (b', false)) ↔
      ∃ s ∈ allSubRooms b,
        ops.convertLineToPoly s (s.crossings ++ s.transitions) = none ∨
          ∃ o ∈ s.obstacles, ops.obstacleConvertLineToPoly o = none) ∧
    ((∃ b', InitGeometry ops b = Outcome.ret (b', true)) ↔
      ∀ s ∈ allSubRooms b,
        (ops.convertLineToPoly s (s.crossings ++ s.transitions)).isSome = true ∧
          ∀ o ∈ s.obstacles, (ops.obstacleConvertLineToPoly o).isSome = true) ∧
    (∀ b', InitGeometry ops b = Outcome.ret (b', false) →
      ∀ A, (getSubRoom b'.rooms A).map SubRoom.neighbors =
        (getSubRoom b.rooms A).map SubRoom.neighbors) := by
  have hall : (InitGeometry.initRooms ops b.rooms).2 = true ↔
      ∀ s ∈ allSubRooms b, s.converts ops = true := by
    rw [initRooms_ok]
    exact allConvert_iff ops b
  have hfalse : ∀ b', InitGeometry ops b = Outcome.ret (b', false) →
      (InitGeometry.initRooms ops b.rooms).2 = false ∧
        b' = { b with rooms := (InitGeometry.initRooms ops b.rooms).1 } := by
    intro b' h
    cases hok : (InitGeometry.initRooms ops b.rooms).2 with
    | false =>
      rw [InitGeometry_of_failure ops b hok] at h
      simp only [Outcome.ret.injEq, Prod.mk.injEq, and_true] at h
      exact ⟨rfl, h.symm⟩
    | true =>
      rw [InitGeometry_of_success ops b hok] at h
      obtain ⟨rooms2, _, h2⟩ := (Outcome.bind_eq_ret _ _ _).1 h
      simp at h2
  refine ⟨⟨?_, ?_⟩, ⟨?_, ?_⟩, ?_⟩
  · rintro ⟨b', h⟩
    have hno : ¬ ∀ s ∈ allSubRooms b, s.converts ops = true := by
      rw [← hall, (hfalse b' h).1]
      simp
    by_contra hnone
    apply hno
    intro s hs
    by_contra hs2
    exact hnone ⟨s, hs, (converts_eq_false_iff ops s).1 (by simpa using hs2)⟩
  · rintro ⟨s, hs, hfail⟩
    have hok : (InitGeometry.initRooms ops b.rooms).2 = false := by
      rw [← Bool.not_eq_true, hall]
      intro h
      have h1 := h s hs
      rw [(converts_eq_false_iff ops s).2 hfail] at h1
      simp at h1
    exact ⟨_, InitGeometry_of_failure ops b hok⟩
  · rintro ⟨b', h⟩ s hs
    exact (converts_eq_true_iff ops s).1
      (hall.1 (InitGeometry_true_spec ops b b' h).1 s hs)
  · intro h
    have hok : (InitGeometry.initRooms ops b.rooms).2 = true :=
      hall.2 fun s hs => (converts_eq_true_iff ops s).2 (h s hs)
    obtain ⟨rooms2, h2⟩ := linkAll_returns (connectorPairs b)
      (InitGeometry.initRooms ops b.rooms).1 fun c hc =>
        ⟨fun r hr => by
          rw [getSubRoom_initRooms_isSome]
          exact (refResolves_iff b.rooms c.1).1 (hres c hc).1 r hr,
         fun r hr => by
          rw [getSubRoom_initRooms_isSome]
          exact (refResolves_iff b.rooms c.2).1 (hres c hc).2 r hr⟩
    refine ⟨{ b with rooms := rooms2 }, ?_⟩
    rw [InitGeometry_of_success ops b hok, h2]
    rfl
  · intro b' h A
    rw [(hfalse b' h).2]
    exact getSubRoom_initRooms ops b.rooms A

/-- Claim C7, witness: in the room of two subrooms every connector refers to
subrooms of the building. -/
theorem InitGeometry_false_iff_conversion_fails_witness :
    connectorsResolve twoSubRoomBuilding ∧
    ((∃ b', InitGeometry sampleOps twoSubRoomBuilding = Outcome.ret (b', false)) ↔
      ∃ s ∈ allSubRooms twoSubRoomBuilding,
        sampleOps.convertLineToPoly s (s.crossings ++ s.transitions) = none ∨
          ∃ o ∈ s.obstacles, sampleOps.obstacleConvertLineToPoly o = none) ∧
    ((∃ b', InitGeometry sampleOps twoSubRoomBuilding = Outcome.ret (b', true)) ↔
      ∀ s ∈ allSubRooms twoSubRoomBuilding,
        (sampleOps.convertLineToPoly s (s.crossings ++ s.transitions)).isSome = true ∧
          ∀ o ∈ s.obstacles, (sampleOps.obstacleConvertLineToPoly o).isSome = true) ∧
    (∀ b', InitGeometry sampleOps twoSubRoomBuilding = Outcome.ret (b', false) →
      ∀ A, (getSubRoom b'.rooms A).map SubRoom.neighbors =
        (getSubRoom twoSubRoomBuilding.rooms A).map SubRoom.neighbors) :=
  ⟨by unfold connectorsResolve; decide,
    InitGeometry_false_iff_conversion_fails sampleOps twoSubRoomBuilding
      (by unfold connectorsResolve; decide)⟩

/-! ## Rooms -/

/-- Claim C11, the code at the failing input: the building holds the room
"hall" under id 0; `AddRoom` of a second room with id 0 returns, and the room
retrieved under id 0 afterwards is the second one, the first is gone. -/
theorem AddRoom_replaces_room_of_same_id :
    (GetRoom squareBuilding 0).map Room.caption = some "hall" ∧
    otherRoom.id = 0 ∧
    (GetRoom (AddRoom squareBuilding otherRoom) 0) = some otherRoom ∧
    (AddRoom squareBuilding otherRoom).rooms.length = 1 := by
  decide

/-! ## Checks on the geometry -/

/-- Claim C19: `Building::SanityCheck` returns true for every building,
whatever `SubRoom::SanityCheck` would answer: the result does not depend on
it, also when the check of some subroom fails. -/
theorem SanityCheck_always_true (subSanityCheck : SubRoom → Bool) (b : Building) :
    SanityCheck subSanityCheck b = true ∧
    SanityCheck subSanityCheck b = SanityCheck failingSanityCheck b ∧
    ((∃ s ∈ allSubRooms b, subSanityCheck s = false) →
      SanityCheck.checkRooms subSanityCheck b true = false ∧
        SanityCheck subSanityCheck b = true) := by
  refine ⟨rfl, rfl, ?_⟩
  rintro ⟨s, hs, hfail⟩
  refine ⟨?_, rfl⟩
  have hinner : ∀ (l : List (Int × SubRoom)) (st : Bool),
      (st = false ∨ ∃ e ∈ l, subSanityCheck e.2 = false) →
      l.foldl (fun st itr_subroom => if !subSanityCheck itr_subroom.2 then false else st) st
        = false := by
    intro l
    induction l with
    | nil =>
      intro st h
      rcases h with h | ⟨e, he, _⟩
      · exact h
      · simp at he
    | cons e rest ih =>
      intro st h
      simp only [List.foldl_cons]
      apply ih
      rcases h with h | ⟨e', he', hf⟩
      · left; simp [h]
      · rcases List.mem_cons.1 he' with rfl | hmem
        · left; simp [hf]
        · right; exact ⟨e', hmem, hf⟩
  have houter : ∀ (l : List (Int × Room)) (st : Bool),
      (st = false ∨ ∃ r ∈ l, ∃ e ∈ r.2.subRooms, subSanityCheck e.2 = false) →
      l.foldl (fun st itr_room =>
        itr_room.2.subRooms.foldl
          (fun st itr_subroom => if !subSanityCheck itr_subroom.2 then false else st) st) st
        = false := by
    intro l
    induction l with
    | nil =>
      intro st h
      rcases h with h | ⟨r, hr, _⟩
      · exact h
      · simp at hr
    | cons r rest ih =>
      intro st h
      simp only [List.foldl_cons]
      apply ih
      rcases h with h | ⟨r', hr', hf⟩
      · left; exact hinner _ _ (Or.inl h)
      · rcases List.mem_cons.1 hr' with rfl | hmem
        · left; exact hinner _ _ (Or.inr hf)
        · right; exact ⟨r', hmem, hf⟩
  unfold SanityCheck.checkRooms
  apply houter
  right
  simp only [allSubRooms, List.mem_flatMap, List.mem_map] at hs
  obtain ⟨r, hr, e, he, rfl⟩ := hs
  exact ⟨r, hr, e, he, hfail⟩

/-- Claim C20, the code at the failing input: for the triangle `(0, 0)`,
`(5, 0)`, `(10, 5)`, whose x coordinates rise from vertex to vertex, the x
minimum is never updated: `GetBoundaryVertices` returns `FLT_MAX` as the
smallest x, not 0. -/
theorem GetBoundaryVertices_rising_x_keeps_sentinel :
    polygonVertices triangleBuilding = [⟨0, 0⟩, ⟨5, 0⟩, ⟨10, 5⟩] ∧
    GetBoundaryVertices triangleBuilding =
      [⟨FLT_MAX, 0⟩, ⟨FLT_MAX, 5⟩, ⟨10, 5⟩, ⟨10, 0⟩] := by
  decide


theorem Triangulate.scanSubRooms_cons_false (tri : SubRoom → SubRoom × Bool)
    (e : Int × SubRoom) (rest : List (Int × SubRoom)) (h : (tri e.2).2 = false) :
    Triangulate.scanSubRooms tri (e :: rest) = ((e.1, (tri e.2).1) :: rest, false) := by
  simp [Triangulate.scanSubRooms, h]

theorem Triangulate.scanSubRooms_cons_true (tri : SubRoom → SubRoom × Bool)
    (e : Int × SubRoom) (rest : List (Int × SubRoom)) (h : (tri e.2).2 = true) :
    Triangulate.scanSubRooms tri (e :: rest) =
      ((e.1, (tri e.2).1) :: (Triangulate.scanSubRooms tri rest).1,
        (Triangulate.scanSubRooms tri rest).2) := by
  simp [Triangulate.scanSubRooms, h]

theorem Triangulate.scanRooms_cons_false (tri : SubRoom → SubRoom × Bool)
    (e : Int × Room) (rest : List (Int × Room))
    (h : (Triangulate.scanSubRooms tri e.2.subRooms).2 = false) :
    Triangulate.scanRooms tri (e :: rest) =
      ((e.1, { e.2 with subRooms := (Triangulate.scanSubRooms tri e.2.subRooms).1 }) :: rest,
        false) := by
  simp [Triangulate.scanRooms, h]

theorem Triangulate.scanRooms_cons_true (tri : SubRoom → SubRoom × Bool)
    (e : Int × Room) (rest : List (Int × Room))
    (h : (Triangulate.scanSubRooms tri e.2.subRooms).2 = true) :
    Triangulate.scanRooms tri (e :: rest) =
      ((e.1, { e.2 with subRooms := (Triangulate.scanSubRooms tri e.2.subRooms).1 }) ::
          (Triangulate.scanRooms tri rest).1,
        (Triangulate.scanRooms tri rest).2) := by
  simp [Triangulate.scanRooms, h]

theorem Triangulate.scanSubRooms_true (tri : SubRoom → SubRoom × Bool)
    (l : List (Int × SubRoom)) (h : (Triangulate.scanSubRooms tri l).2 = true) :
    (∀ e ∈ l, (tri e.2).2 = true) ∧
    (Triangulate.scanSubRooms tri l).1.map Prod.snd = l.map fun e => (tri e.2).1 := by
  induction l with
  | nil => simp [Triangulate.scanSubRooms]
  | cons e rest ih =>
    cases he : (tri e.2).2 with
    | false =>
      rw [Triangulate.scanSubRooms_cons_false tri e rest he] at h
      simp at h
    | true =>
      rw [Triangulate.scanSubRooms_cons_true tri e rest he] at h ⊢
      obtain ⟨h1, h2⟩ := ih h
      refine ⟨fun x hx => ?_, ?_⟩
      · rcases List.mem_cons.1 hx with rfl | hx
        · exact he
        · exact h1 x hx
      · simp [h2]

theorem Triangulate.scanSubRooms_false (tri : SubRoom → SubRoom × Bool)
    (l : List (Int × SubRoom)) (h : (Triangulate.scanSubRooms tri l).2 = false) :
    ∃ pre s post, l.map Prod.snd = pre ++ s :: post ∧
      (∀ x ∈ pre, (tri x).2 = true) ∧ (tri s).2 = false ∧
      (Triangulate.scanSubRooms tri l).1.map Prod.snd =
        pre.map (fun x => (tri x).1) ++ (tri s).1 :: post := by
  induction l with
  | nil => simp [Triangulate.scanSubRooms] at h
  | cons e rest ih =>
    cases he : (tri e.2).2 with
    | false =>
      rw [Triangulate.scanSubRooms_cons_false tri e rest he]
      exact ⟨[], e.2, rest.map Prod.snd, by simp, by simp, he, by simp⟩
    | true =>
      rw [Triangulate.scanSubRooms_cons_true tri e rest he] at h ⊢
      obtain ⟨pre, s, post, h1, h2, h3, h4⟩ := ih h
      refine ⟨e.2 :: pre, s, post, by simp [h1], ?_, h3, by simp [h4]⟩
      intro x hx
      rcases List.mem_cons.1 hx with rfl | hx
      · exact he
      · exact h2 x hx

theorem Triangulate.scanRooms_true (tri : SubRoom → SubRoom × Bool)
    (l : List (Int × Room)) (h : (Triangulate.scanRooms tri l).2 = true) :
    (∀ r ∈ l, ∀ e ∈ r.2.subRooms, (tri e.2).2 = true) ∧
    ((Triangulate.scanRooms tri l).1.flatMap fun r => r.2.subRooms.map Prod.snd) =
      (l.flatMap fun r => r.2.subRooms.map Prod.snd).map fun x => (tri x).1 := by
  induction l with
  | nil => simp [Triangulate.scanRooms]
  | cons r rest ih =>
    cases hr : (Triangulate.scanSubRooms tri r.2.subRooms).2 with
    | false =>
      rw [Triangulate.scanRooms_cons_false tri r rest hr] at h
      simp at h
    | true =>
      rw [Triangulate.scanRooms_cons_true tri r rest hr] at h ⊢
      obtain ⟨h1, h2⟩ := ih h
      obtain ⟨h3, h4⟩ := Triangulate.scanSubRooms_true tri _ hr
      refine ⟨fun x hx => ?_, ?_⟩
      · rcases List.mem_cons.1 hx with rfl | hx
        · exact h3
        · exact h1 x hx
      · simp only [List.flatMap_cons, List.map_append, h2, h4]
        simp

theorem Triangulate.scanRooms_false (tri : SubRoom → SubRoom × Bool)
    (l : List (Int × Room)) (h : (Triangulate.scanRooms tri l).2 = false) :
    ∃ pre s post, (l.flatMap fun r => r.2.subRooms.map Prod.snd) = pre ++ s :: post ∧
      (∀ x ∈ pre, (tri x).2 = true) ∧ (tri s).2 = false ∧
      ((Triangulate.scanRooms tri l).1.flatMap fun r => r.2.subRooms.map Prod.snd) =
        pre.map (fun x => (tri x).1) ++ (tri s).1 :: post := by
  induction l with
  | nil => simp [Triangulate.scanRooms] at h
  | cons r rest ih =>
    cases hr : (Triangulate.scanSubRooms tri r.2.subRooms).2 with
    | false =>
      rw [Triangulate.scanRooms_cons_false tri r rest hr]
      obtain ⟨pre, s, post, h1, h2, h3, h4⟩ := Triangulate.scanSubRooms_false tri _ hr
      refine ⟨pre, s, post ++ rest.flatMap fun r => r.2.subRooms.map Prod.snd, ?_, h2, h3, ?_⟩
      · simp [List.flatMap_cons, h1]
      · simp [List.flatMap_cons, h4]
    | true =>
      rw [Triangulate.scanRooms_cons_true tri r rest hr] at h ⊢
      obtain ⟨pre, s, post, h1, h2, h3, h4⟩ := ih h
      obtain ⟨h5, h6⟩ := Triangulate.scanSubRooms_true tri _ hr
      refine ⟨r.2.subRooms.map Prod.snd ++ pre, s, post, ?_, ?_, h3, ?_⟩
      · simp [List.flatMap_cons, h1]
      · intro x hx
        rcases List.mem_append.1 hx with hx | hx
        · obtain ⟨e, he, rfl⟩ := List.mem_map.1 hx
          exact h5 e he
        · exact h2 x hx
      · simp [List.flatMap_cons, h4, h6]

/-- Claim C17: `Building::Triangulate` returns true exactly when
`SubRoom::Triangulate` succeeds for every subroom of every room, and then
every subroom has been triangulated; when it returns false, the subrooms
before the first failing one and that one have gone through their call, and
every subroom after it is as it was. -/
theorem Triangulate_true_iff_all_succeed (triangulate : SubRoom → SubRoom × Bool)
    (b : Building) :
    ((Triangulate triangulate b).2 = true ↔
      ∀ s ∈ allSubRooms b, (triangulate s).2 = true) ∧
    ((Triangulate triangulate b).2 = true →
      allSubRooms (Triangulate triangulate b).1 =
        (allSubRooms b).map fun s => (triangulate s).1) ∧
    ((Triangulate triangulate b).2 = false →
      ∃ pre s post, allSubRooms b = pre ++ s :: post ∧
        (∀ x ∈ pre, (triangulate x).2 = true) ∧ (triangulate s).2 = false ∧
        allSubRooms (Triangulate triangulate b).1 =
          pre.map (fun x => (triangulate x).1) ++ (triangulate s).1 :: post) := by
  refine ⟨⟨fun h => ?_, fun h => ?_⟩, fun h => ?_, fun h => ?_⟩
  · intro s hs
    simp only [allSubRooms, List.mem_flatMap, List.mem_map] at hs
    obtain ⟨r, hr, e, he, rfl⟩ := hs
    exact (Triangulate.scanRooms_true triangulate b.rooms h).1 r hr e he
  · by_contra hne
    have hfalse : (Triangulate.scanRooms triangulate b.rooms).2 = false := by
      simpa [Triangulate] using hne
    obtain ⟨pre, s, post, h1, _, h3, _⟩ := Triangulate.scanRooms_false triangulate b.rooms hfalse
    have hs : s ∈ allSubRooms b := by
      unfold allSubRooms
      rw [h1]
      simp
    rw [h s hs] at h3
    simp at h3
  · exact (Triangulate.scanRooms_true triangulate b.rooms h).2
  · exact Triangulate.scanRooms_false triangulate b.rooms h


/-! ## The live list -/

theorem AddPedestrian.scan_false (h : PedStore) (ped : Ptr) (l : List Ptr)
    (hscan : AddPedestrian.scan h ped l = Outcome.ret false) :
    l = [] ∨ ∃ new, h ped = some new ∧ ∀ q ∈ l, ∃ pq, h q = some pq ∧ new.id ≠ pq.id := by
  induction l with
  | nil => exact Or.inl rfl
  | cons q rest ih =>
    right
    unfold AddPedestrian.scan at hscan
    cases hp : h ped with
    | none => simp [hp] at hscan
    | some new =>
      cases hq : h q with
      | none => simp [hp, hq] at hscan
      | some pq =>
        simp only [hp, hq] at hscan
        by_cases hid : new.id = pq.id
        · simp [hid] at hscan
        · simp only [hid, if_false] at hscan
          refine ⟨new, rfl, fun x hx => ?_⟩
          rcases List.mem_cons.1 hx with rfl | hx
          · exact ⟨pq, hq, hid⟩
          · rcases ih hscan with hnil | ⟨new', hnew', hall⟩
            · subst hnil; simp at hx
            · rw [hp] at hnew'
              cases hnew'
              exact hall x hx

theorem AddPedestrian_keeps_ids_distinct (h : PedStore) (b b1 : Building) (ped : Ptr)
    (hnodup : (b.allPedestians.map fun q => (h q).map Pedestrian.id).Nodup)
    (hadd : AddPedestrian h b ped = Outcome.ret b1) :
    (b1.allPedestians.map fun q => (h q).map Pedestrian.id).Nodup := by
  unfold AddPedestrian at hadd
  obtain ⟨found, hscan, hret⟩ := (Outcome.bind_eq_ret _ _ _).1 hadd
  cases found with
  | true =>
    simp only [if_true, Outcome.ret.injEq] at hret
    subst hret
    exact hnodup
  | false =>
    simp only [Bool.false_eq_true, if_false, Outcome.ret.injEq] at hret
    subst hret
    rcases AddPedestrian.scan_false h ped _ hscan with hnil | ⟨new, hnew, hall⟩
    · simp [hnil]
    · simp only [List.map_append, List.map_cons, List.map_nil]
      rw [List.nodup_append]
      refine ⟨hnodup, List.nodup_singleton _, ?_⟩
      intro x hx hx'
      rw [List.mem_singleton] at hx'
      obtain ⟨q, hq, rfl⟩ := List.mem_map.1 hx
      obtain ⟨pq, hpq, hne⟩ := hall q hq
      rw [hpq, hnew] at hx'
      simp only [Option.map_some', Option.some.injEq] at hx'
      exact hne hx'.symm

theorem DeletePedestrian_keeps_ids_distinct (h h1 : PedStore) (b b1 : Building) (ped : Ptr)
    (hnodup : (b.allPedestians.map fun q => (h q).map Pedestrian.id).Nodup)
    (hdel : DeletePedestrian h b ped = Outcome.ret (h1, b1)) :
    (b1.allPedestians.map fun q => (h1 q).map Pedestrian.id).Nodup := by
  unfold DeletePedestrian at hdel
  by_cases hin : ped ∈ b.allPedestians
  · rw [if_pos hin] at hdel
    obtain ⟨stream, _, hret⟩ := (Outcome.bind_eq_ret _ _ _).1 hdel
    cases hp : h ped with
    | none => simp [hp] at hret
    | some p =>
      simp only [hp, Outcome.ret.injEq, Prod.mk.injEq] at hret
      obtain ⟨rfl, rfl⟩ := hret
      have hl : b.allPedestians.Nodup := List.Nodup.of_map _ hnodup
      have hsame : (b.allPedestians.erase ped).map (fun q => (h.free ped q).map Pedestrian.id) =
          (b.allPedestians.erase ped).map fun q => (h q).map Pedestrian.id := by
        apply List.map_congr_left
        intro q hq
        have hne : q ≠ ped := ((List.Nodup.mem_erase_iff hl).1 hq).1
        simp [PedStore.free, hne]
      show ((b.allPedestians.erase ped).map fun q => (h.free ped q).map Pedestrian.id).Nodup
      rw [hsame]
      exact List.Nodup.sublist ((List.erase_sublist ped b.allPedestians).map _) hnodup
  · rw [if_neg hin] at hdel
    cases hp : h ped with
    | none => simp [hp] at hdel
    | some p =>
      simp only [hp, Outcome.ret.injEq, Prod.mk.injEq] at hdel
      obtain ⟨rfl, rfl⟩ := hdel
      exact hnodup

theorem runPedOps_keeps_ids_distinct (ops : List PedOp) (h h1 : PedStore) (b b1 : Building)
    (hnodup : (b.allPedestians.map fun q => (h q).map Pedestrian.id).Nodup)
    (hrun : runPedOps h b ops = Outcome.ret (h1, b1)) :
    (b1.allPedestians.map fun q => (h1 q).map Pedestrian.id).Nodup := by
  induction ops generalizing h b with
  | nil =>
    simp only [runPedOps, Outcome.ret.injEq, Prod.mk.injEq] at hrun
    obtain ⟨rfl, rfl⟩ := hrun
    exact hnodup
  | cons op rest ih =>
    simp only [runPedOps] at hrun
    obtain ⟨r, hstep, hrest⟩ := (Outcome.bind_eq_ret _ _ _).1 hrun
    apply ih r.1 r.2 _ hrest
    cases op with
    | add ped =>
      simp only [applyPedOp] at hstep
      obtain ⟨b2, hadd, hret⟩ := (Outcome.bind_eq_ret _ _ _).1 hstep
      simp only [Outcome.ret.injEq] at hret
      subst hret
      exact AddPedestrian_keeps_ids_distinct h b b2 ped hnodup hadd
    | delete ped =>
      simp only [applyPedOp] at hstep
      exact DeletePedestrian_keeps_ids_distinct h r.1 b r.2 ped hnodup hstep

/-- Claim C14: started from an empty live list, every sequence of
`AddPedestrian` and `DeletePedestrian` calls that runs through leaves the ids
of the live list pairwise distinct: no pointer occurs twice, and two entries
with the same id are the same entry. -/
theorem live_ids_stay_distinct (ops : List PedOp) (h h1 : PedStore) (b b1 : Building)
    (hempty : b.allPedestians = [])
    (hrun : runPedOps h b ops = Outcome.ret (h1, b1)) :
    (b1.allPedestians.map fun q => (h1 q).map Pedestrian.id).Nodup ∧
    b1.allPedestians.Nodup ∧
    (∀ p ∈ b1.allPedestians, ∀ q ∈ b1.allPedestians, ∀ pp pq,
      h1 p = some pp → h1 q = some pq → pp.id = pq.id → p = q) := by
  have hnodup : (b1.allPedestians.map fun q => (h1 q).map Pedestrian.id).Nodup :=
    runPedOps_keeps_ids_distinct ops h h1 b b1 (by simp [hempty]) hrun
  refine ⟨hnodup, List.Nodup.of_map _ hnodup, ?_⟩
  intro p hp q hq pp pq hpp hpq hid
  apply List.inj_on_of_nodup_map hnodup hp hq
  simp [hpp, hpq, hid]

/-- Claim C14, witness: pedestrians 1 and 2 are added, 1 is offered again, 1
is deleted and 3 is added; the live list ends as `[2, 3]`. -/
theorem live_ids_stay_distinct_witness :
    emptyBuilding.allPedestians = [] ∧
    runPedOps sampleStore emptyBuilding samplePedOps =
      Outcome.ret (sampleStore.free 1, { emptyBuilding with allPedestians := [2, 3] }) ∧
    ([2, 3].map fun q => ((sampleStore.free 1) q).map Pedestrian.id).Nodup ∧
    ([2, 3] : List Ptr).Nodup ∧
    (∀ p ∈ ([2, 3] : List Ptr), ∀ q ∈ ([2, 3] : List Ptr), ∀ pp pq,
      (sampleStore.free 1) p = some pp → (sampleStore.free 1) q = some pq →
        pp.id = pq.id → p = q) :=
  ⟨rfl, rfl,
    live_ids_stay_distinct samplePedOps sampleStore (sampleStore.free 1) emptyBuilding
      { emptyBuilding with allPedestians := [2, 3] } rfl rfl⟩


theorem GetPedestrians_eq_filter (h : PedStore) (room subroom : Int) (l peds : List Ptr)
    (hvalid : ∀ q ∈ l, (h q).isSome = true) :
    GetPedestrians h room subroom l peds =
      Outcome.ret (peds ++ l.filter (pedIsIn h room subroom)) := by
  induction l generalizing peds with
  | nil => simp [GetPedestrians]
  | cons q rest ih =>
    obtain ⟨pq, hpq⟩ := Option.isSome_iff_exists.1 (hvalid q (List.mem_cons_self _ _))
    have hrest := fun peds1 => ih peds1 fun x hx => hvalid x (List.mem_cons_of_mem _ hx)
    unfold GetPedestrians
    simp only [hpq]
    rw [hrest]
    by_cases hc : room = pq.roomID ∧ subroom = pq.subRoomID
    · simp [List.filter_cons, pedIsIn, hpq, hc]
    · simp [List.filter_cons, pedIsIn, hpq, hc]

theorem AddPedestrian.scan_of_fresh (h : PedStore) (ped : Ptr) (new : Pedestrian)
    (l : List Ptr) (hnew : h ped = some new)
    (hfresh : ∀ q ∈ l, ∃ pq, h q = some pq ∧ new.id ≠ pq.id) :
    AddPedestrian.scan h ped l = Outcome.ret false := by
  induction l with
  | nil => rfl
  | cons q rest ih =>
    obtain ⟨pq, hpq, hne⟩ := hfresh q (List.mem_cons_self _ _)
    unfold AddPedestrian.scan
    simp only [hnew, hpq, hne, if_false]
    exact ih fun x hx => hfresh x (List.mem_cons_of_mem _ hx)

/-- Claim C15, as the code has it: every pedestrian of the live list is
returned by `GetPedestrians(r, s)` for exactly one pair `(r, s)`, the pair of
its own room id and subroom id; and `AddPedestrian` admits every pedestrian
whose id no live pedestrian has, whatever its room id and subroom id and
whatever rooms the building has. -/
theorem live_pedestrian_found_under_own_ids (h : PedStore) (b : Building) (ped : Ptr)
    (p : Pedestrian) (hvalid : ∀ q ∈ b.allPedestians, (h q).isSome = true)
    (hin : ped ∈ b.allPedestians) (hped : h ped = some p) :
    (∀ r s, ∃ l, GetPedestrians h r s b.allPedestians [] = Outcome.ret l ∧
      (ped ∈ l ↔ r = p.roomID ∧ s = p.subRoomID)) ∧
    (∀ (rooms : StdMap Room) (new : Ptr) (pnew : Pedestrian), h new = some pnew →
      (∀ q ∈ b.allPedestians, ∀ pq, h q = some pq → pnew.id ≠ pq.id) →
      AddPedestrian h { b with rooms := rooms } new =
        Outcome.ret { b with rooms := rooms, allPedestians := b.allPedestians ++ [new] }) := by
  constructor
  · intro r s
    refine ⟨_, GetPedestrians_eq_filter h r s b.allPedestians [] hvalid, ?_⟩
    simp [List.mem_filter, hin, pedIsIn, hped]
  · intro rooms new pnew hnew hfresh
    have hscan : AddPedestrian.scan h new b.allPedestians = Outcome.ret false := by
      apply AddPedestrian.scan_of_fresh h new pnew _ hnew
      intro q hq
      obtain ⟨pq, hpq⟩ := Option.isSome_iff_exists.1 (hvalid q hq)
      exact ⟨pq, hpq, hfresh q hq pq hpq⟩
    simp [AddPedestrian, hscan, Outcome.bind]

/-- Claim C15, witness: the pedestrian at address 1 of the live list `[1, 2]`,
which is of room 0, subroom 0. -/
theorem live_pedestrian_found_under_own_ids_witness :
    (∀ q ∈ liveBuilding.allPedestians, (sampleStore q).isSome = true) ∧
    1 ∈ liveBuilding.allPedestians ∧
    (∀ r s, ∃ l, GetPedestrians sampleStore r s liveBuilding.allPedestians [] =
        Outcome.ret l ∧
      (1 ∈ l ↔ r = (samplePed 1 ['0', ':', '7', '>']).roomID ∧
        s = (samplePed 1 ['0', ':', '7', '>']).subRoomID)) ∧
    (∀ (rooms : StdMap Room) (new : Ptr) (pnew : Pedestrian), sampleStore new = some pnew →
      (∀ q ∈ liveBuilding.allPedestians, ∀ pq, sampleStore q = some pq → pnew.id ≠ pq.id) →
      AddPedestrian sampleStore { liveBuilding with rooms := rooms } new =
        Outcome.ret { liveBuilding with
          rooms := rooms, allPedestians := liveBuilding.allPedestians ++ [new] }) :=
  ⟨by decide, by decide,
    live_pedestrian_found_under_own_ids sampleStore liveBuilding 1
      (samplePed 1 ['0', ':', '7', '>']) (by decide) (by decide) rfl⟩

/-- Claim C15, counterexample: the building has no room at all;
`AddPedestrian` admits the pedestrian at address 1, whose room id is 0, and
no room of the building has that id. -/
theorem AddPedestrian_admits_unknown_room :
    AddPedestrian sampleStore emptyBuilding 1 =
      Outcome.ret { emptyBuilding with allPedestians := [1] } ∧
    (sampleStore 1).map Pedestrian.roomID = some 0 ∧
    GetRoom { emptyBuilding with allPedestians := [1] } 0 = none ∧
    GetPedestrians sampleStore 0 0 [1] [] = Outcome.ret [1] := by
  decide


/-! ## Construction -/

/-- Claim C16: once the geometry is loaded and `InitGeometry` has returned,
the construction completes exactly when `InitGeometry`, `Distribute`, the
routing engine's `Init` and `SanityCheck` all returned true, having run the
six steps in the order loading, `InitGeometry`, `Distribute`, `InitGrid`,
routing `Init`, `SanityCheck`; the first of the checks to return false ends
the process, and the steps started are those up to it. -/
theorem construct_completes_iff_all_true (ops : SubRoomOps) (env : Collaborators)
    (h : PedStore) (configuration : Configuration) (routingEngine : Nat)
    (b1 b2 : Building) (ok : Bool)
    (hload : env.loadBuilding (newBuilding configuration routingEngine) = Outcome.ret b1)
    (hgeo : InitGeometry ops b1 = Outcome.ret (b2, ok)) :
    ((∃ r, (construct ops env h configuration routingEngine).2 = Outcome.ret r) ↔
      ok = true ∧ (env.distribute h b2).2.2 = true ∧
        (env.routingInit (InitGrid env.agentsCreated (env.distribute h b2).2.1)).2 = true ∧
        SanityCheck env.subSanityCheck
          (env.routingInit (InitGrid env.agentsCreated (env.distribute h b2).2.1)).1 = true) ∧
    ((∃ r, (construct ops env h configuration routingEngine).2 = Outcome.ret r) →
      construct ops env h configuration routingEngine =
        ([ConstructionStep.loadBuilding, ConstructionStep.initGeometry,
          ConstructionStep.distribute, ConstructionStep.initGrid,
          ConstructionStep.routingInit, ConstructionStep.sanityCheck],
          Outcome.ret ((env.distribute h b2).1,
            (env.routingInit (InitGrid env.agentsCreated (env.distribute h b2).2.1)).1))) ∧
    (ok = false →
      construct ops env h configuration routingEngine =
        ([ConstructionStep.loadBuilding, ConstructionStep.initGeometry], Outcome.aborted)) ∧
    (ok = true → (env.distribute h b2).2.2 = false →
      construct ops env h configuration routingEngine =
        ([ConstructionStep.loadBuilding, ConstructionStep.initGeometry,
          ConstructionStep.distribute], Outcome.aborted)) ∧
    (ok = true → (env.distribute h b2).2.2 = true →
      (env.routingInit (InitGrid env.agentsCreated (env.distribute h b2).2.1)).2 = false →
      construct ops env h configuration routingEngine =
        ([ConstructionStep.loadBuilding, ConstructionStep.initGeometry,
          ConstructionStep.distribute, ConstructionStep.initGrid,
          ConstructionStep.routingInit], Outcome.aborted)) := by
  have hsane : ∀ b, SanityCheck env.subSanityCheck b = true := fun _ => rfl
  cases ok with
  | false => simp [construct, hload, hgeo]
  | true =>
    cases hd : (env.distribute h b2).2.2 with
    | false => simp [construct, hload, hgeo, hd]
    | true =>
      cases hr : (env.routingInit (InitGrid env.agentsCreated (env.distribute h b2).2.1)).2 with
      | false => simp [construct, hload, hgeo, hd, hr]
      | true => simp [construct, hload, hgeo, hd, hr, hsane]

/-- Claim C16, witness: the loader yields the room of two subrooms, whose
geometry initialises, and every later check returns true. -/
theorem construct_completes_iff_all_true_witness :
    sampleCollaborators.loadBuilding (newBuilding { linkedCellSize := 1 } 0) =
      Outcome.ret twoSubRoomBuilding ∧
    InitGeometry sampleOps twoSubRoomBuilding = Outcome.ret (twoSubRoomInitialised, true) ∧
    (∃ r, (construct sampleOps sampleCollaborators sampleStore { linkedCellSize := 1 } 0).2 =
      Outcome.ret r) :=
  ⟨rfl, by decide,
    ((construct_completes_iff_all_true sampleOps sampleCollaborators sampleStore
      { linkedCellSize := 1 } 0 twoSubRoomBuilding twoSubRoomInitialised true rfl
      (by decide)).1).2 ⟨rfl, rfl, rfl, rfl⟩⟩


/-! ## Elevation extremes -/

theorem elevationStep_spec (ops : SubRoomOps) (s : SubRoom) (acc : ℚ × ℚ) (w : Wall) :
    (InitGeometry.elevationStep ops s acc w).1 ≤ acc.1 ∧
    (InitGeometry.elevationStep ops s acc w).1 ≤ ops.getElevation s w.point1 ∧
    (InitGeometry.elevationStep ops s acc w).1 ≤ ops.getElevation s w.point2 ∧
    ((InitGeometry.elevationStep ops s acc w).1 = acc.1 ∨
      (InitGeometry.elevationStep ops s acc w).1 = ops.getElevation s w.point1 ∨
      (InitGeometry.elevationStep ops s acc w).1 = ops.getElevation s w.point2) ∧
    acc.2 ≤ (InitGeometry.elevationStep ops s acc w).2 ∧
    ops.getElevation s w.point1 ≤ (InitGeometry.elevationStep ops s acc w).2 ∧
    ops.getElevation s w.point2 ≤ (InitGeometry.elevationStep ops s acc w).2 ∧
    ((InitGeometry.elevationStep ops s acc w).2 = acc.2 ∨
      (InitGeometry.elevationStep ops s acc w).2 = ops.getElevation s w.point1 ∨
      (InitGeometry.elevationStep ops s acc w).2 = ops.getElevation s w.point2) := by
  simp only [InitGeometry.elevationStep]
  refine ⟨?_, ?_, ?_, ?_, ?_, ?_, ?_, ?_⟩ <;> split_ifs <;>
    first
      | linarith
      | exact Or.inl rfl
      | exact Or.inr (Or.inl rfl)
      | exact Or.inr (Or.inr rfl)

theorem elevation_fold_spec (ops : SubRoomOps) (s : SubRoom) (walls : List Wall)
    (acc : ℚ × ℚ) :
    (walls.foldl (InitGeometry.elevationStep ops s) acc).1 ≤ acc.1 ∧
    acc.2 ≤ (walls.foldl (InitGeometry.elevationStep ops s) acc).2 ∧
    (∀ p ∈ walls.flatMap (fun w => [w.point1, w.point2]),
      (walls.foldl (InitGeometry.elevationStep ops s) acc).1 ≤ ops.getElevation s p ∧
      ops.getElevation s p ≤ (walls.foldl (InitGeometry.elevationStep ops s) acc).2) ∧
    ((walls.foldl (InitGeometry.elevationStep ops s) acc).1 = acc.1 ∨
      ∃ p ∈ walls.flatMap (fun w => [w.point1, w.point2]),
        (walls.foldl (InitGeometry.elevationStep ops s) acc).1 = ops.getElevation s p) ∧
    ((walls.foldl (InitGeometry.elevationStep ops s) acc).2 = acc.2 ∨
      ∃ p ∈ walls.flatMap (fun w => [w.point1, w.point2]),
        (walls.foldl (InitGeometry.elevationStep ops s) acc).2 = ops.getElevation s p) := by
  induction walls generalizing acc with
  | nil => simp
  | cons w rest ih =>
    obtain ⟨h1, h2, h3, h4, h5, h6, h7, h8⟩ := elevationStep_spec ops s acc w
    obtain ⟨i1, i2, i3, i4, i5⟩ := ih (InitGeometry.elevationStep ops s acc w)
    simp only [List.foldl_cons, List.flatMap_cons, List.mem_append, List.mem_cons,
      List.mem_singleton, List.not_mem_nil, or_false]
    refine ⟨le_trans i1 h1, le_trans h5 i2, ?_, ?_, ?_⟩
    · rintro p ((rfl | rfl) | hp)
      · exact ⟨le_trans i1 h2, le_trans h6 i2⟩
      · exact ⟨le_trans i1 h3, le_trans h7 i2⟩
      · exact i3 p hp
    · rcases i4 with i4 | ⟨p, hp, i4⟩
      · rcases h4 with h4 | h4 | h4
        · exact Or.inl (i4.trans h4)
        · exact Or.inr ⟨w.point1, Or.inl (Or.inl rfl), i4.trans h4⟩
        · exact Or.inr ⟨w.point2, Or.inl (Or.inr rfl), i4.trans h4⟩
      · exact Or.inr ⟨p, Or.inr hp, i4⟩
    · rcases i5 with i5 | ⟨p, hp, i5⟩
      · rcases h8 with h8 | h8 | h8
        · exact Or.inl (i5.trans h8)
        · exact Or.inr ⟨w.point1, Or.inl (Or.inl rfl), i5.trans h8⟩
        · exact Or.inr ⟨w.point2, Or.inl (Or.inr rfl), i5.trans h8⟩
      · exact Or.inr ⟨p, Or.inr hp, i5⟩


theorem initSubRoom_elevation (ops : SubRoomOps) (s0 : SubRoom)
    (h : (InitGeometry.initSubRoom ops s0).2 = true) :
    (InitGeometry.initSubRoom ops s0).1.walls = s0.walls ∧
    (InitGeometry.initSubRoom ops s0).1.minElevation =
      (s0.walls.foldl
        (InitGeometry.elevationStep ops
          (InitGeometry.elevationState s0 (InitGeometry.initSubRoom ops s0).1))
        (FLT_MAX, -FLT_MAX)).1 ∧
    (InitGeometry.initSubRoom ops s0).1.maxElevation =
      (s0.walls.foldl
        (InitGeometry.elevationStep ops
          (InitGeometry.elevationState s0 (InitGeometry.initSubRoom ops s0).1))
        (FLT_MAX, -FLT_MAX)).2 := by
  simp only [InitGeometry.initSubRoom] at h ⊢
  split
  · next hnone => simp [hnone] at h
  · next poly hpoly =>
    simp only [hpoly] at h
    split
    · next hfail => simp [hfail] at h
    · exact ⟨rfl, rfl, rfl⟩

theorem initSubRooms_of_success (ops : SubRoomOps) (l : List (Int × SubRoom))
    (h : (InitGeometry.initSubRooms ops l).2 = true) :
    (InitGeometry.initSubRooms ops l).1 =
      l.map (fun e => (e.1, (InitGeometry.initSubRoom ops e.2).1)) ∧
    ∀ e ∈ l, (InitGeometry.initSubRoom ops e.2).2 = true := by
  induction l with
  | nil => simp [InitGeometry.initSubRooms]
  | cons e rest ih =>
    cases he : (InitGeometry.initSubRoom ops e.2).2 with
    | false =>
      rw [initSubRooms_cons_false ops e rest he] at h
      simp at h
    | true =>
      rw [initSubRooms_cons_true ops e rest he] at h ⊢
      obtain ⟨h1, h2⟩ := ih h
      refine ⟨by simp [h1], fun x hx => ?_⟩
      rcases List.mem_cons.1 hx with rfl | hx
      · exact he
      · exact h2 x hx

theorem initRooms_of_success (ops : SubRoomOps) (l : List (Int × Room))
    (h : (InitGeometry.initRooms ops l).2 = true) :
    (InitGeometry.initRooms ops l).1 =
      l.map (fun r => (r.1, { r.2 with
        subRooms := r.2.subRooms.map fun e => (e.1, (InitGeometry.initSubRoom ops e.2).1) })) ∧
    ∀ r ∈ l, ∀ e ∈ r.2.subRooms, (InitGeometry.initSubRoom ops e.2).2 = true := by
  induction l with
  | nil => simp [InitGeometry.initRooms]
  | cons r rest ih =>
    cases hr : (InitGeometry.initSubRooms ops r.2.subRooms).2 with
    | false =>
      rw [initRooms_cons_false ops r rest hr] at h
      simp at h
    | true =>
      rw [initRooms_cons_true ops r rest hr] at h ⊢
      obtain ⟨h1, h2⟩ := ih h
      obtain ⟨h3, h4⟩ := initSubRooms_of_success ops _ hr
      refine ⟨by simp [h1, h3], fun x hx => ?_⟩
      rcases List.mem_cons.1 hx with rfl | hx
      · exact h4
      · exact h2 x hx

theorem StdMap.find?_map_values {α β : Type} (f : α → β) (l : StdMap α) (k : Int) :
    StdMap.find? (l.map fun e => (e.1, f e.2)) k = (StdMap.find? l k).map f := by
  induction l with
  | nil => rfl
  | cons e rest ih =>
    by_cases hk : e.1 = k <;> simp [StdMap.find?, hk, ih]

theorem getSubRoom_map_subRooms (f : SubRoom → SubRoom) (l : StdMap Room) (A : SubRoomRef) :
    getSubRoom
        (l.map fun r => (r.1, { r.2 with subRooms := r.2.subRooms.map fun e => (e.1, f e.2) }))
        A =
      (getSubRoom l A).map f := by
  induction l with
  | nil => rfl
  | cons r rest ih =>
    obtain ⟨k, room⟩ := r
    simp only [List.map_cons, getSubRoom_cons]
    by_cases hk : k = A.room
    · simp [hk, StdMap.find?_map_values]
    · simp [hk, ih]

theorem addNeighbor_keeps_rest (rooms rooms1 : StdMap Room) (a : SubRoomRef)
    (s2 : Option SubRoomRef) (h : InitGeometry.addNeighbor rooms a s2 = Outcome.ret rooms1)
    (A : SubRoomRef) :
    (getSubRoom rooms1 A).map SubRoom.withoutNeighbors =
      (getSubRoom rooms A).map SubRoom.withoutNeighbors := by
  unfold InitGeometry.addNeighbor at h
  cases hsa : getSubRoom rooms a with
  | none => simp [hsa] at h
  | some sa =>
    simp only [hsa, Outcome.ret.injEq] at h
    subst h
    rw [getSubRoom_modifySubRoom]
    by_cases hA : A = a
    · subst hA
      simp only [if_true, hsa, Option.map_some', Option.some.injEq]
      cases s2 with
      | none => rfl
      | some r =>
        by_cases hr : r ∈ sa.neighbors <;>
          simp [SubRoom.AddNeighbor, hr, SubRoom.withoutNeighbors]
    · simp [hA]

theorem link_keeps_rest (rooms rooms2 : StdMap Room) (s1 s2 : Option SubRoomRef)
    (h : InitGeometry.link rooms s1 s2 = Outcome.ret rooms2) (A : SubRoomRef) :
    (getSubRoom rooms2 A).map SubRoom.withoutNeighbors =
      (getSubRoom rooms A).map SubRoom.withoutNeighbors := by
  unfold InitGeometry.link at h
  obtain ⟨rooms1, h1, h2⟩ := (Outcome.bind_eq_ret _ _ _).1 h
  have e1 : (getSubRoom rooms1 A).map SubRoom.withoutNeighbors =
      (getSubRoom rooms A).map SubRoom.withoutNeighbors := by
    cases s1 with
    | none =>
      simp only [Outcome.ret.injEq] at h1
      subst h1
      rfl
    | some a => exact addNeighbor_keeps_rest _ _ _ _ h1 A
  have e2 : (getSubRoom rooms2 A).map SubRoom.withoutNeighbors =
      (getSubRoom rooms1 A).map SubRoom.withoutNeighbors := by
    cases s2 with
    | none =>
      simp only [Outcome.ret.injEq] at h2
      subst h2
      rfl
    | some c => exact addNeighbor_keeps_rest _ _ _ _ h2 A
  exact e2.trans e1

theorem linkAll_keeps_rest (l : List (Option SubRoomRef × Option SubRoomRef))
    (rooms rooms2 : StdMap Room) (h : InitGeometry.linkAll l rooms = Outcome.ret rooms2)
    (A : SubRoomRef) :
    (getSubRoom rooms2 A).map SubRoom.withoutNeighbors =
      (getSubRoom rooms A).map SubRoom.withoutNeighbors := by
  induction l generalizing rooms with
  | nil =>
    simp only [InitGeometry.linkAll, Outcome.ret.injEq] at h
    subst h
    rfl
  | cons c rest ih =>
    simp only [InitGeometry.linkAll] at h
    obtain ⟨rooms1, h1, h2⟩ := (Outcome.bind_eq_ret _ _ _).1 h
    exact (ih rooms1 h2).trans (link_keeps_rest _ _ _ _ h1 A)

theorem InitGeometry_subroom_after (ops : SubRoomOps) (b b' : Building)
    (hinit : InitGeometry ops b = Outcome.ret (b', true)) (A : SubRoomRef) (s0 s' : SubRoom)
    (h0 : getSubRoom b.rooms A = some s0) (h' : getSubRoom b'.rooms A = some s') :
    (InitGeometry.initSubRoom ops s0).2 = true ∧
    s'.withoutNeighbors = (InitGeometry.initSubRoom ops s0).1.withoutNeighbors := by
  have hok := (InitGeometry_true_spec ops b b' hinit).1
  rw [InitGeometry_of_success ops b hok] at hinit
  obtain ⟨rooms2, h1, h2⟩ := (Outcome.bind_eq_ret _ _ _).1 hinit
  simp only [Outcome.ret.injEq, Prod.mk.injEq, and_true] at h2
  subst h2
  obtain ⟨hmap, hall⟩ := initRooms_of_success ops b.rooms hok
  have hsucc : (InitGeometry.initSubRoom ops s0).2 = true := by
    unfold getSubRoom at h0
    cases hroom : StdMap.find? b.rooms A.room with
    | none => simp [hroom] at h0
    | some room =>
      simp only [hroom] at h0
      exact hall (A.room, room) (StdMap.mem_of_find? _ _ _ hroom) (A.sub, s0)
        (StdMap.mem_of_find? _ _ _ h0)
  have hkeep := linkAll_keeps_rest _ _ _ h1 A
  rw [hmap, getSubRoom_map_subRooms (fun s => (InitGeometry.initSubRoom ops s).1), h0] at hkeep
  have h'' : getSubRoom rooms2 A = some s' := h'
  rw [h''] at hkeep
  simp only [Option.map_some', Option.some.injEq] at hkeep
  exact ⟨hsucc, hkeep⟩


/-- Claim C18, as the code has it: after an `InitGeometry` that returned
true, the cached minimum of a subroom is at most, and the cached maximum at
least, the elevation of every end point of its walls; the minimum is the
smallest of these elevations when one of them is at most `FLT_MAX`, and the
maximum the largest when one of them is at least `-FLT_MAX`. The elevation is
taken on the subroom as the loop reads it. -/
theorem InitGeometry_elevation_extremes (ops : SubRoomOps) (b b' : Building)
    (A : SubRoomRef) (s0 s' : SubRoom)
    (hinit : InitGeometry ops b = Outcome.ret (b', true))
    (h0 : getSubRoom b.rooms A = some s0) (h' : getSubRoom b'.rooms A = some s') :
    (∀ p ∈ s'.wallEndpoints,
      s'.minElevation ≤ ops.getElevation (InitGeometry.elevationState s0 s') p ∧
      ops.getElevation (InitGeometry.elevationState s0 s') p ≤ s'.maxElevation) ∧
    ((∃ p ∈ s'.wallEndpoints,
        ops.getElevation (InitGeometry.elevationState s0 s') p ≤ FLT_MAX) →
      ∃ p ∈ s'.wallEndpoints,
        s'.minElevation = ops.getElevation (InitGeometry.elevationState s0 s') p) ∧
    ((∃ p ∈ s'.wallEndpoints,
        -FLT_MAX ≤ ops.getElevation (InitGeometry.elevationState s0 s') p) →
      ∃ p ∈ s'.wallEndpoints,
        s'.maxElevation = ops.getElevation (InitGeometry.elevationState s0 s') p) := by
  obtain ⟨hsucc, hstrip⟩ := InitGeometry_subroom_after ops b b' hinit A s0 s' h0 h'
  obtain ⟨hwalls, hmin, hmax⟩ := initSubRoom_elevation ops s0 hsucc
  have hw : s'.walls = s0.walls := by
    have h1 := congrArg SubRoom.walls hstrip
    exact h1.trans hwalls
  have hstate : InitGeometry.elevationState s0 s' =
      InitGeometry.elevationState s0 (InitGeometry.initSubRoom ops s0).1 := by
    have h1 := congrArg (fun s => InitGeometry.elevationState s0 s) hstrip
    exact h1
  have hmin2 : s'.minElevation =
      (s0.walls.foldl (InitGeometry.elevationStep ops (InitGeometry.elevationState s0 s'))
        (FLT_MAX, -FLT_MAX)).1 := by
    have h1 := congrArg SubRoom.minElevation hstrip
    rw [hstate]
    exact h1.trans hmin
  have hmax2 : s'.maxElevation =
      (s0.walls.foldl (InitGeometry.elevationStep ops (InitGeometry.elevationState s0 s'))
        (FLT_MAX, -FLT_MAX)).2 := by
    have h1 := congrArg SubRoom.maxElevation hstrip
    rw [hstate]
    exact h1.trans hmax
  obtain ⟨_, _, i3, i4, i5⟩ := elevation_fold_spec ops
    (InitGeometry.elevationState s0 s') s0.walls (FLT_MAX, -FLT_MAX)
  rw [← hmin2, ← hmax2] at i3
  rw [← hmin2] at i4
  rw [← hmax2] at i5
  simp only [SubRoom.wallEndpoints, hw]
  refine ⟨i3, ?_, ?_⟩
  · rintro ⟨p0, hp0, hle⟩
    rcases i4 with heq | hex
    · refine ⟨p0, hp0, le_antisymm (i3 p0 hp0).1 ?_⟩
      rw [heq]
      exact hle
    · exact hex
  · rintro ⟨p0, hp0, hle⟩
    rcases i5 with heq | hex
    · refine ⟨p0, hp0, le_antisymm ?_ (i3 p0 hp0).2⟩
      rw [heq]
      exact hle
    · exact hex

/-- Claim C18, witness: the first subroom of the room of two subrooms, with
elevation zero everywhere. -/
theorem InitGeometry_elevation_extremes_witness :
    InitGeometry sampleOps twoSubRoomBuilding = Outcome.ret (twoSubRoomInitialised, true) ∧
    getSubRoom twoSubRoomBuilding.rooms { room := 0, sub := 0 } = some squareSubRoom ∧
    (∃ p ∈ squareSubRoom.wallEndpoints, sampleOps.getElevation squareSubRoom p ≤ FLT_MAX) ∧
    ∃ s', getSubRoom twoSubRoomInitialised.rooms { room := 0, sub := 0 } = some s' ∧
      (∀ p ∈ s'.wallEndpoints,
        s'.minElevation ≤ sampleOps.getElevation (InitGeometry.elevationState squareSubRoom s') p ∧
        sampleOps.getElevation (InitGeometry.elevationState squareSubRoom s') p ≤
          s'.maxElevation) ∧
      ((∃ p ∈ s'.wallEndpoints,
          sampleOps.getElevation (InitGeometry.elevationState squareSubRoom s') p ≤ FLT_MAX) →
        ∃ p ∈ s'.wallEndpoints,
          s'.minElevation =
            sampleOps.getElevation (InitGeometry.elevationState squareSubRoom s') p) ∧
      ((∃ p ∈ s'.wallEndpoints,
          -FLT_MAX ≤ sampleOps.getElevation (InitGeometry.elevationState squareSubRoom s') p) →
        ∃ p ∈ s'.wallEndpoints,
          s'.maxElevation =
            sampleOps.getElevation (InitGeometry.elevationState squareSubRoom s') p) :=
  ⟨by decide, by decide, ⟨⟨0, 0⟩, by decide, by decide⟩, _, rfl,
    InitGeometry_elevation_extremes sampleOps twoSubRoomBuilding twoSubRoomInitialised
      { room := 0, sub := 0 } squareSubRoom _ (by decide) (by decide) rfl⟩

/-- Claim C18, counterexample: with the elevation `10^39` at every point, above
`FLT_MAX`, `InitGeometry` returns true and the first subroom, which has four
walls, ends with the cached minimum `FLT_MAX`, which is not the elevation of
any of its wall end points. -/
theorem InitGeometry_minimum_stays_at_sentinel :
    InitGeometry highOps twoSubRoomBuilding = Outcome.ret (twoSubRoomHigh, true) ∧
    getSubRoom twoSubRoomHigh.rooms { room := 0, sub := 0 } = some highSubRoom ∧
    highSubRoom.walls.length = 4 ∧
    highSubRoom.minElevation = FLT_MAX ∧
    ∀ p ∈ highSubRoom.wallEndpoints,
      highOps.getElevation highSubRoom p ≠ highSubRoom.minElevation := by
  decide


/-! ## The linked-cell grid: buckets -/

theorem LCGrid.bucket_spec (h : PedStore) (g : LCGrid) (l : List Ptr)
    (hvalid : ∀ q ∈ l, (h q).isSome = true) :
    ∃ cells, LCGrid.bucket h g l = Outcome.ret cells ∧
      ∀ e, e ∈ cells ↔ ∃ q ∈ l, ∃ ped, h q = some ped ∧ e = (q, g.cellOf ped.pos) := by
  induction l with
  | nil => exact ⟨[], rfl, by simp⟩
  | cons q rest ih =>
    obtain ⟨ped, hped⟩ := Option.isSome_iff_exists.1 (hvalid q (List.mem_cons_self _ _))
    obtain ⟨cells, hcells, hmem⟩ := ih fun x hx => hvalid x (List.mem_cons_of_mem _ hx)
    refine ⟨(q, g.cellOf ped.pos) :: cells, by simp [LCGrid.bucket, hped, hcells, Outcome.bind],
      fun e => ?_⟩
    rw [List.mem_cons, hmem]
    constructor
    · rintro (rfl | ⟨x, hx, px, hpx, rfl⟩)
      · exact ⟨q, List.mem_cons_self _ _, ped, hped, rfl⟩
      · exact ⟨x, List.mem_cons_of_mem _ hx, px, hpx, rfl⟩
    · rintro ⟨x, hx, px, hpx, rfl⟩
      rcases List.mem_cons.1 hx with rfl | hx
      · left
        rw [hped] at hpx
        cases hpx
        rfl
      · exact Or.inr ⟨x, hx, px, hpx, rfl⟩

theorem LCGrid.cellContains_cellOf (g : LCGrid) (hcs : 0 < g.cellSize) (p : Point)
    (c : Int × Int) : g.cellOf p = c → g.cellContains c p := by
  rintro rfl
  have hx1 := Int.floor_le ((p.x - g.xMin) / g.cellSize)
  have hx2 := Int.lt_floor_add_one ((p.x - g.xMin) / g.cellSize)
  have hy1 := Int.floor_le ((p.y - g.yMin) / g.cellSize)
  have hy2 := Int.lt_floor_add_one ((p.y - g.yMin) / g.cellSize)
  rw [le_div_iff₀ hcs] at hx1 hy1
  rw [div_lt_iff₀ hcs] at hx2 hy2
  simp only [LCGrid.cellContains, LCGrid.cellOf]
  refine ⟨⟨?_, ?_⟩, ⟨?_, ?_⟩⟩ <;> linarith

/-- Claim C12: with a grid of positive cell size in place and every live
pedestrian a live object, `UpdateGrid` returns, and afterwards every live
pedestrian is among the answers of the neighbour query at its own position
and in the bucket of the cell of its position, while every pedestrian found
in the bucket of a cell is a live pedestrian whose position lies within the
bounds of that cell. -/
theorem UpdateGrid_buckets_by_position (h : PedStore) (b : Building) (g : LCGrid)
    (hg : b.linkedCellGrid = some g) (hcs : 0 < g.cellSize)
    (hvalid : ∀ q ∈ b.allPedestians, (h q).isSome = true) :
    ∃ g1, UpdateGrid h b = Outcome.ret { b with linkedCellGrid := some g1 } ∧
      (∀ q ∈ b.allPedestians, ∀ ped, h q = some ped →
        q ∈ g1.neighbourQuery ped.pos ∧ q ∈ g1.cellAgents (g1.cellOf ped.pos)) ∧
      (∀ q c, q ∈ g1.cellAgents c →
        q ∈ b.allPedestians ∧ ∃ ped, h q = some ped ∧ g1.cellContains c ped.pos) := by
  obtain ⟨cells, hcells, hmem⟩ := LCGrid.bucket_spec h g b.allPedestians hvalid
  refine ⟨{ g with cells := cells }, ?_, ?_, ?_⟩
  · simp [UpdateGrid, hg, LCGrid.Update, hcells, Outcome.bind]
  · intro q hq ped hped
    have hin : (q, g.cellOf ped.pos) ∈ cells := (hmem _).2 ⟨q, hq, ped, hped, rfl⟩
    constructor
    · simp only [LCGrid.neighbourQuery, List.mem_map, List.mem_filter]
      refine ⟨(q, g.cellOf ped.pos), ⟨hin, ?_⟩, rfl⟩
      simp [LCGrid.cellOf]
    · simp only [LCGrid.cellAgents, List.mem_map, List.mem_filter]
      exact ⟨(q, g.cellOf ped.pos), ⟨hin, by simp [LCGrid.cellOf]⟩, rfl⟩
  · intro q c hq
    simp only [LCGrid.cellAgents, List.mem_map, List.mem_filter] at hq
    obtain ⟨e, ⟨he, hc⟩, rfl⟩ := hq
    obtain ⟨x, hx, px, hpx, rfl⟩ := (hmem e).1 he
    refine ⟨hx, px, hpx, ?_⟩
    have hc' : g.cellOf px.pos = c := by simpa using hc
    exact LCGrid.cellContains_cellOf { g with cells := cells } hcs px.pos c hc'

/-- Claim C12, witness: the live list `[1, 2]` and a grid of cell size 2. -/
theorem UpdateGrid_buckets_by_position_witness :
    (0 : ℚ) < 2 ∧ (∀ q ∈ gridBuilding.allPedestians, (sampleStore q).isSome = true) ∧
    ∃ g1, UpdateGrid sampleStore gridBuilding =
        Outcome.ret { gridBuilding with linkedCellGrid := some g1 } ∧
      (∀ q ∈ gridBuilding.allPedestians, ∀ ped, sampleStore q = some ped →
        q ∈ g1.neighbourQuery ped.pos ∧ q ∈ g1.cellAgents (g1.cellOf ped.pos)) ∧
      (∀ q c, q ∈ g1.cellAgents c →
        q ∈ gridBuilding.allPedestians ∧
          ∃ ped, sampleStore q = some ped ∧ g1.cellContains c ped.pos) :=
  ⟨by decide, by decide,
    UpdateGrid_buckets_by_position sampleStore gridBuilding
      { xMin := -1, xMax := 11, yMin := -1, yMax := 11, cellSize := 2, nPeds := 2,
        peds := [1, 2], cells := [] } rfl (by decide) (by decide)⟩

/-! ## Agent sources -/

theorem AgentsSource.granted_le (src : AgentsSource) (count : Int)
    (hle : src.agentsGenerated ≤ src.maxAgents) :
    src.agentsGenerated + (src.granted count : Int) ≤ src.maxAgents := by
  unfold AgentsSource.granted
  omega

theorem AgentsSource.serve_spec (newAgent : Nat → Ptr) (reqs : List SourceRequest)
    (src : AgentsSource) (hle : src.agentsGenerated ≤ src.maxAgents) :
    (AgentsSource.serve newAgent src reqs).1.maxAgents = src.maxAgents ∧
    (AgentsSource.serve newAgent src reqs).1.agentsGenerated ≤ src.maxAgents ∧
    (AgentsSource.serve newAgent src reqs).1.agentsGenerated =
      src.agentsGenerated + ((AgentsSource.serve newAgent src reqs).2.length : Int) := by
  induction reqs generalizing src with
  | nil => simp [AgentsSource.serve, hle]
  | cons r rest ih =>
    have hstep := AgentsSource.granted_le src
    cases r with
    | toPool count =>
      obtain ⟨h1, h2, h3⟩ := ih (src.GenerateAgentsAndAddToPool newAgent count) (hstep count hle)
      simp only [AgentsSource.serve]
      refine ⟨h1, h2, ?_⟩
      rw [h3]
      simp [AgentsSource.GenerateAgentsAndAddToPool, AgentsSource.GenerateAgents]
      omega
    | toVector count =>
      obtain ⟨h1, h2, h3⟩ := ih (src.GenerateAgents newAgent [] count).1 (hstep count hle)
      simp only [AgentsSource.serve]
      refine ⟨h1, h2, ?_⟩
      rw [h3]
      simp [AgentsSource.GenerateAgents]
      omega

/-- Claim C13: for a source whose counter of agents generated starts at zero
and whose maximum `K` is not negative, after every sequence of generation
requests the counter equals the number of agents generated and is at most
`K`; and a source whose counter has reached `K` generates no agent, whatever
number is requested. -/
theorem source_never_exceeds_maximum (newAgent : Nat → Ptr) (src : AgentsSource)
    (reqs : List SourceRequest) (hzero : src.agentsGenerated = 0)
    (hK : 0 ≤ src.maxAgents) :
    ((AgentsSource.serve newAgent src reqs).2.length : Int) ≤ src.maxAgents ∧
    (AgentsSource.serve newAgent src reqs).1.agentsGenerated =
      ((AgentsSource.serve newAgent src reqs).2.length : Int) ∧
    (∀ (full : AgentsSource) (peds : List Ptr) (count : Int),
      full.agentsGenerated = full.maxAgents →
        full.GenerateAgents newAgent peds count = (full, peds) ∧
        full.GenerateAgentsAndAddToPool newAgent count = full) := by
  obtain ⟨_, h2, h3⟩ := AgentsSource.serve_spec newAgent reqs src (by omega)
  refine ⟨by omega, by omega, ?_⟩
  intro full peds count hfull
  have hzero' : full.granted count = 0 := by
    unfold AgentsSource.granted
    omega
  simp [AgentsSource.GenerateAgents, AgentsSource.GenerateAgentsAndAddToPool, hzero']

/-- Claim C13, witness: a source of at most 5 agents is asked for 3 agents
four times. -/
theorem source_never_exceeds_maximum_witness :
    sampleSource.agentsGenerated = 0 ∧ 0 ≤ sampleSource.maxAgents ∧
    (((AgentsSource.serve (fun n => n + 1) sampleSource
        [SourceRequest.toPool 3, SourceRequest.toVector 3, SourceRequest.toPool 3,
          SourceRequest.toVector 3]).2.length : Int) ≤ sampleSource.maxAgents ∧
      (AgentsSource.serve (fun n => n + 1) sampleSource
        [SourceRequest.toPool 3, SourceRequest.toVector 3, SourceRequest.toPool 3,
          SourceRequest.toVector 3]).1.agentsGenerated =
        ((AgentsSource.serve (fun n => n + 1) sampleSource
          [SourceRequest.toPool 3, SourceRequest.toVector 3, SourceRequest.toPool 3,
            SourceRequest.toVector 3]).2.length : Int) ∧
      (∀ (full : AgentsSource) (peds : List Ptr) (count : Int),
        full.agentsGenerated = full.maxAgents →
          full.GenerateAgents (fun n => n + 1) peds count = (full, peds) ∧
          full.GenerateAgentsAndAddToPool (fun n => n + 1) count = full)) :=
  ⟨rfl, by decide,
    source_never_exceeds_maximum (fun n => n + 1) sampleSource
      [SourceRequest.toPool 3, SourceRequest.toVector 3, SourceRequest.toPool 3,
        SourceRequest.toVector 3] rfl (by decide)⟩


/-! ## Frame of the connector collections -/

theorem StdMap.find?_set_self {α : Type} (m : StdMap α) (k : Int) (v : α) :
    StdMap.find? (StdMap.set m k v) k = some v := by
  induction m with
  | nil => simp [StdMap.set, StdMap.find?]
  | cons e rest ih =>
    obtain ⟨k', v'⟩ := e
    unfold StdMap.set
    by_cases h1 : k < k'
    · simp [h1, StdMap.find?]
    · by_cases h2 : k = k'
      · simp [h2, StdMap.find?]
      · have h3 : ¬ k' = k := fun h => h2 h.symm
        simp [h1, h2, h3, StdMap.find?, ih]

theorem StdMap.find?_set_other {α : Type} (m : StdMap α) (k j : Int) (v : α)
    (hne : j ≠ k) : StdMap.find? (StdMap.set m k v) j = StdMap.find? m j := by
  have hne2 : ¬ k = j := fun h => hne h.symm
  induction m with
  | nil => simp [StdMap.set, StdMap.find?, hne2]
  | cons e rest ih =>
    obtain ⟨k', v'⟩ := e
    unfold StdMap.set
    by_cases h1 : k < k'
    · simp [h1, StdMap.find?, hne2]
    · by_cases h2 : k = k'
      · subst h2
        simp [StdMap.find?, hne2]
      · by_cases h3 : k' = j
        · subst h3
          simp [h1, h2, StdMap.find?]
        · simp [h1, h2, h3, StdMap.find?, ih]

theorem StdMap.size_set_of_absent {α : Type} (m : StdMap α) (k : Int) (v : α)
    (habs : StdMap.count m k = 0) :
    StdMap.size (StdMap.set m k v) = StdMap.size m + 1 := by
  induction m with
  | nil => simp [StdMap.set, StdMap.size]
  | cons e rest ih =>
    obtain ⟨k', v'⟩ := e
    have hne : ¬ k' = k := by
      intro h
      simp [StdMap.count, List.filter_cons, h] at habs
    have hne2 : ¬ k = k' := fun h => hne h.symm
    have hrest : StdMap.count rest k = 0 := by
      simpa [StdMap.count, List.filter_cons, hne] using habs
    unfold StdMap.set
    by_cases h1 : k < k'
    · simp [h1, StdMap.size]
    · simp only [h1, hne2, if_false]
      simp only [StdMap.size, List.length_cons] at ih ⊢
      rw [ih hrest]

theorem StdMap.mem_set_of_absent {α : Type} (m : StdMap α) (k : Int) (v : α)
    (habs : StdMap.count m k = 0) (e : Int × α) :
    e ∈ StdMap.set m k v ↔ e = (k, v) ∨ e ∈ m := by
  induction m with
  | nil => simp [StdMap.set]
  | cons e' rest ih =>
    obtain ⟨k', v'⟩ := e'
    have hne : ¬ k' = k := by
      intro h
      simp [StdMap.count, List.filter_cons, h] at habs
    have hne2 : ¬ k = k' := fun h => hne h.symm
    have hrest : StdMap.count rest k = 0 := by
      simpa [StdMap.count, List.filter_cons, hne] using habs
    unfold StdMap.set
    by_cases h1 : k < k'
    · simp [h1]
    · simp only [h1, hne2, if_false, List.mem_cons, ih hrest]
      tauto

/-- Claim C21: a call of `AddCrossing`, `AddTransition`, `AddHline` or `AddGoal`
that returns `true` leaves the collection of the element with the element
stored under its id, one entry more than before, every entry under another
id as it was, and the other three collections as they were; a call of
`AddHline` that returns `false` leaves all four collections as they were. -/
theorem add_connector_frame (hlineEq : Hline → Hline → Bool) (b b1 : Building) :
    (∀ line : Crossing, AddCrossing b line = Outcome.ret (b1, true) →
      StdMap.find? b1.crossings line.id = some line ∧
      StdMap.size b1.crossings = StdMap.size b.crossings + 1 ∧
      (∀ j, j ≠ line.id → StdMap.find? b1.crossings j = StdMap.find? b.crossings j) ∧
      (∀ e, e ∈ b1.crossings ↔ e = (line.id, line) ∨ e ∈ b.crossings) ∧
      b1.transitions = b.transitions ∧ b1.hLines = b.hLines ∧ b1.goals = b.goals) ∧
    (∀ line : Transition, AddTransition b line = Outcome.ret (b1, true) →
      StdMap.find? b1.transitions line.id = some line ∧
      StdMap.size b1.transitions = StdMap.size b.transitions + 1 ∧
      (∀ j, j ≠ line.id → StdMap.find? b1.transitions j = StdMap.find? b.transitions j) ∧
      (∀ e, e ∈ b1.transitions ↔ e = (line.id, line) ∨ e ∈ b.transitions) ∧
      b1.crossings = b.crossings ∧ b1.hLines = b.hLines ∧ b1.goals = b.goals) ∧
    (∀ line : Hline, AddHline hlineEq b line = Outcome.ret (b1, true) →
      StdMap.find? b1.hLines line.id = some line ∧
      StdMap.size b1.hLines = StdMap.size b.hLines + 1 ∧
      (∀ j, j ≠ line.id → StdMap.find? b1.hLines j = StdMap.find? b.hLines j) ∧
      (∀ e, e ∈ b1.hLines ↔ e = (line.id, line) ∨ e ∈ b.hLines) ∧
      b1.crossings = b.crossings ∧ b1.transitions = b.transitions ∧ b1.goals = b.goals) ∧
    (∀ goal : Goal, AddGoal b goal = Outcome.ret (b1, true) →
      StdMap.find? b1.goals goal.id = some goal ∧
      StdMap.size b1.goals = StdMap.size b.goals + 1 ∧
      (∀ j, j ≠ goal.id → StdMap.find? b1.goals j = StdMap.find? b.goals j) ∧
      (∀ e, e ∈ b1.goals ↔ e = (goal.id, goal) ∨ e ∈ b.goals) ∧
      b1.crossings = b.crossings ∧ b1.transitions = b.transitions ∧ b1.hLines = b.hLines) ∧
    (∀ line : Hline, AddHline hlineEq b line = Outcome.ret (b1, false) →
      b1.crossings = b.crossings ∧ b1.transitions = b.transitions ∧
      b1.hLines = b.hLines ∧ b1.goals = b.goals) := by
  refine ⟨?_, ?_, ?_, ?_, ?_⟩
  · intro line hadd
    unfold AddCrossing at hadd
    by_cases hc : StdMap.count b.crossings line.id = 0
    · simp only [hc, ne_eq, not_true_eq_false, if_false, Outcome.ret.injEq, Prod.mk.injEq,
        and_true] at hadd
      subst hadd
      exact ⟨StdMap.find?_set_self _ _ _, StdMap.size_set_of_absent _ _ _ hc,
        fun j hj => StdMap.find?_set_other _ _ _ _ hj,
        StdMap.mem_set_of_absent _ _ _ hc, rfl, rfl, rfl⟩
    · simp [hc] at hadd
  · intro line hadd
    unfold AddTransition at hadd
    by_cases hc : StdMap.count b.transitions line.id = 0
    · simp only [hc, ne_eq, not_true_eq_false, if_false, Outcome.ret.injEq, Prod.mk.injEq,
        and_true] at hadd
      subst hadd
      exact ⟨StdMap.find?_set_self _ _ _, StdMap.size_set_of_absent _ _ _ hc,
        fun j hj => StdMap.find?_set_other _ _ _ _ hj,
        StdMap.mem_set_of_absent _ _ _ hc, rfl, rfl, rfl⟩
    · simp [hc] at hadd
  · intro line hadd
    unfold AddHline at hadd
    by_cases hc : StdMap.count b.hLines line.id = 0
    · simp only [hc, ne_eq, not_true_eq_false, if_false, Outcome.ret.injEq, Prod.mk.injEq,
        and_true] at hadd
      subst hadd
      exact ⟨StdMap.find?_set_self _ _ _, StdMap.size_set_of_absent _ _ _ hc,
        fun j hj => StdMap.find?_set_other _ _ _ _ hj,
        StdMap.mem_set_of_absent _ _ _ hc, rfl, rfl, rfl⟩
    · simp only [ne_eq, hc, not_false_eq_true, if_true] at hadd
      cases hf : StdMap.find? b.hLines line.id with
      | none => simp [hf] at hadd
      | some ori =>
        cases he : hlineEq ori line <;> simp [hf, he] at hadd
  · intro goal hadd
    unfold AddGoal at hadd
    by_cases hc : StdMap.count b.goals goal.id = 0
    · simp only [hc, ne_eq, not_true_eq_false, if_false, Outcome.ret.injEq, Prod.mk.injEq,
        and_true] at hadd
      subst hadd
      exact ⟨StdMap.find?_set_self _ _ _, StdMap.size_set_of_absent _ _ _ hc,
        fun j hj => StdMap.find?_set_other _ _ _ _ hj,
        StdMap.mem_set_of_absent _ _ _ hc, rfl, rfl, rfl⟩
    · simp [hc] at hadd
  · intro line hadd
    unfold AddHline at hadd
    by_cases hc : StdMap.count b.hLines line.id = 0
    · simp [hc] at hadd
    · simp only [ne_eq, hc, not_false_eq_true, if_true] at hadd
      cases hf : StdMap.find? b.hLines line.id with
      | none => simp [hf] at hadd
      | some ori =>
        cases he : hlineEq ori line with
        | false => simp [hf, he] at hadd
        | true =>
          simp only [hf, he, if_true, Outcome.ret.injEq, Prod.mk.injEq, and_true] at hadd
          subst hadd
          exact ⟨rfl, rfl, rfl, rfl⟩

/-- Claim C21, witness: a second crossing, transition, hline and goal are added
to the sample building, and the hline it already holds is added once more. -/
theorem add_connector_frame_witness :
    (AddCrossing connectorBuilding secondDoor =
        Outcome.ret ({ connectorBuilding with
          crossings := [(5, sampleDoor), (6, secondDoor)] }, true) ∧
      StdMap.find? [(5, sampleDoor), (6, secondDoor)] secondDoor.id = some secondDoor ∧
      StdMap.size [(5, sampleDoor), (6, secondDoor)] =
        StdMap.size connectorBuilding.crossings + 1) ∧
    (AddTransition connectorBuilding secondExit =
        Outcome.ret ({ connectorBuilding with
          transitions := [(7, sampleExit), (8, secondExit)] }, true) ∧
      StdMap.find? [(7, sampleExit), (8, secondExit)] secondExit.id = some secondExit ∧
      StdMap.size [(7, sampleExit), (8, secondExit)] =
        StdMap.size connectorBuilding.transitions + 1) ∧
    (AddHline hlineIdentical connectorBuilding secondHline =
        Outcome.ret ({ connectorBuilding with
          hLines := [(1, sampleHline), (2, secondHline)] }, true) ∧
      StdMap.find? [(1, sampleHline), (2, secondHline)] secondHline.id = some secondHline ∧
      StdMap.size [(1, sampleHline), (2, secondHline)] =
        StdMap.size connectorBuilding.hLines + 1) ∧
    (AddGoal connectorBuilding secondGoal =
        Outcome.ret ({ connectorBuilding with
          goals := [(3, secondGoal), (4, sampleGoal)] }, true) ∧
      StdMap.find? [(3, secondGoal), (4, sampleGoal)] secondGoal.id = some secondGoal ∧
      StdMap.size [(3, secondGoal), (4, sampleGoal)] =
        StdMap.size connectorBuilding.goals + 1) ∧
    (AddHline hlineIdentical connectorBuilding sampleHline =
        Outcome.ret (connectorBuilding, false) ∧
      connectorBuilding.hLines = [(1, sampleHline)]) :=
  ⟨⟨by decide,
      ((add_connector_frame hlineIdentical connectorBuilding
        { connectorBuilding with crossings := [(5, sampleDoor), (6, secondDoor)] }).1
        secondDoor
        (by decide)).1,
      ((add_connector_frame hlineIdentical connectorBuilding
        { connectorBuilding with crossings := [(5, sampleDoor), (6, secondDoor)] }).1
        secondDoor
        (by decide)).2.1⟩,
    ⟨by decide,
      ((add_connector_frame hlineIdentical connectorBuilding
        { connectorBuilding with transitions := [(7, sampleExit), (8, secondExit)] }).2.1
        secondExit
        (by decide)).1,
      ((add_connector_frame hlineIdentical connectorBuilding
        { connectorBuilding with transitions := [(7, sampleExit), (8, secondExit)] }).2.1
        secondExit
        (by decide)).2.1⟩,
    ⟨by decide,
      ((add_connector_frame hlineIdentical connectorBuilding
        { connectorBuilding with hLines := [(1, sampleHline), (2, secondHline)] }).2.2.1
        secondHline
        (by decide)).1,
      ((add_connector_frame hlineIdentical connectorBuilding
        { connectorBuilding with hLines := [(1, sampleHline), (2, secondHline)] }).2.2.1
        secondHline
        (by decide)).2.1⟩,
    ⟨by decide,
      ((add_connector_frame hlineIdentical connectorBuilding
        { connectorBuilding with goals := [(3, secondGoal), (4, sampleGoal)] }).2.2.2.1
        secondGoal
        (by decide)).1,
      ((add_connector_frame hlineIdentical connectorBuilding
        { connectorBuilding with goals := [(3, secondGoal), (4, sampleGoal)] }).2.2.2.1
        secondGoal
        (by decide)).2.1⟩,
    ⟨by decide,
      ((add_connector_frame hlineIdentical connectorBuilding connectorBuilding).2.2.2.2
        sampleHline (by decide)).2.2.1⟩⟩

/-- Claim C29: `GetNumberOfGoals` is the number of transitions plus the number
of hlines plus the number of crossings, whatever the final goals are: a
call of `AddGoal` that returns `true` leaves it as it was, and a call of
`AddCrossing`, `AddTransition` or `AddHline` that returns `true` raises it
by one. -/
theorem GetNumberOfGoals_counts_connectors (hlineEq : Hline → Hline → Bool)
    (b b1 : Building) :
    GetNumberOfGoals b =
      (b.transitions.length : Int) + (b.hLines.length : Int) + (b.crossings.length : Int) ∧
    (∀ goals : StdMap Goal, GetNumberOfGoals { b with goals := goals } = GetNumberOfGoals b) ∧
    (∀ goal : Goal, AddGoal b goal = Outcome.ret (b1, true) →
      GetNumberOfGoals b1 = GetNumberOfGoals b) ∧
    (∀ line : Crossing, AddCrossing b line = Outcome.ret (b1, true) →
      GetNumberOfGoals b1 = GetNumberOfGoals b + 1) ∧
    (∀ line : Transition, AddTransition b line = Outcome.ret (b1, true) →
      GetNumberOfGoals b1 = GetNumberOfGoals b + 1) ∧
    (∀ line : Hline, AddHline hlineEq b line = Outcome.ret (b1, true) →
      GetNumberOfGoals b1 = GetNumberOfGoals b + 1) := by
  refine ⟨?_, ?_, ?_, ?_, ?_, ?_⟩
  · simp [GetNumberOfGoals, StdMap.size]
  · intro goals
    rfl
  · intro goal hadd
    unfold AddGoal at hadd
    by_cases hc : StdMap.count b.goals goal.id = 0
    · simp only [hc, ne_eq, not_true_eq_false, if_false, Outcome.ret.injEq, Prod.mk.injEq,
        and_true] at hadd
      subst hadd
      rfl
    · simp [hc] at hadd
  · intro line hadd
    unfold AddCrossing at hadd
    by_cases hc : StdMap.count b.crossings line.id = 0
    · simp only [hc, ne_eq, not_true_eq_false, if_false, Outcome.ret.injEq, Prod.mk.injEq,
        and_true] at hadd
      subst hadd
      simp only [GetNumberOfGoals, StdMap.size_set_of_absent _ _ _ hc]
      push_cast
      ring
    · simp [hc] at hadd
  · intro line hadd
    unfold AddTransition at hadd
    by_cases hc : StdMap.count b.transitions line.id = 0
    · simp only [hc, ne_eq, not_true_eq_false, if_false, Outcome.ret.injEq, Prod.mk.injEq,
        and_true] at hadd
      subst hadd
      simp only [GetNumberOfGoals, StdMap.size_set_of_absent _ _ _ hc]
      push_cast
      ring
    · simp [hc] at hadd
  · intro line hadd
    unfold AddHline at hadd
    by_cases hc : StdMap.count b.hLines line.id = 0
    · simp only [hc, ne_eq, not_true_eq_false, if_false, Outcome.ret.injEq, Prod.mk.injEq,
        and_true] at hadd
      subst hadd
      simp only [GetNumberOfGoals, StdMap.size_set_of_absent _ _ _ hc]
      push_cast
      ring
    · simp only [ne_eq, hc, not_false_eq_true, if_true] at hadd
      cases hf : StdMap.find? b.hLines line.id with
      | none => simp [hf] at hadd
      | some ori =>
        cases he : hlineEq ori line <;> simp [hf, he] at hadd

/-- Claim C29, witness: the sample building counts three connectors beside its
goal; a second goal leaves the count at three, a second crossing, transition
or hline makes it four. -/
theorem GetNumberOfGoals_counts_connectors_witness :
    GetNumberOfGoals connectorBuilding = 3 ∧
    (AddGoal connectorBuilding secondGoal =
        Outcome.ret ({ connectorBuilding with
          goals := [(3, secondGoal), (4, sampleGoal)] }, true) ∧
      GetNumberOfGoals { connectorBuilding with goals := [(3, secondGoal), (4, sampleGoal)] } =
        GetNumberOfGoals connectorBuilding) ∧
    (AddCrossing connectorBuilding secondDoor =
        Outcome.ret ({ connectorBuilding with
          crossings := [(5, sampleDoor), (6, secondDoor)] }, true) ∧
      GetNumberOfGoals { connectorBuilding with
          crossings := [(5, sampleDoor), (6, secondDoor)] } =
        GetNumberOfGoals connectorBuilding + 1) ∧
    (AddTransition connectorBuilding secondExit =
        Outcome.ret ({ connectorBuilding with
          transitions := [(7, sampleExit), (8, secondExit)] }, true) ∧
      GetNumberOfGoals { connectorBuilding with
          transitions := [(7, sampleExit), (8, secondExit)] } =
        GetNumberOfGoals connectorBuilding + 1) ∧
    (AddHline hlineIdentical connectorBuilding secondHline =
        Outcome.ret ({ connectorBuilding with
          hLines := [(1, sampleHline), (2, secondHline)] }, true) ∧
      GetNumberOfGoals { connectorBuilding with
          hLines := [(1, sampleHline), (2, secondHline)] } =
        GetNumberOfGoals connectorBuilding + 1) :=
  ⟨by decide,
    ⟨by decide,
      (GetNumberOfGoals_counts_connectors hlineIdentical connectorBuilding
        { connectorBuilding with goals := [(3, secondGoal), (4, sampleGoal)] }).2.2.1
        secondGoal (by decide)⟩,
    ⟨by decide,
      (GetNumberOfGoals_counts_connectors hlineIdentical connectorBuilding
        { connectorBuilding with crossings := [(5, sampleDoor), (6, secondDoor)] }).2.2.2.1
        secondDoor (by decide)⟩,
    ⟨by decide,
      (GetNumberOfGoals_counts_connectors hlineIdentical connectorBuilding
        { connectorBuilding with transitions := [(7, sampleExit), (8, secondExit)] }).2.2.2.2.1
        secondExit (by decide)⟩,
    ⟨by decide,
      (GetNumberOfGoals_counts_connectors hlineIdentical connectorBuilding
        { connectorBuilding with hLines := [(1, sampleHline), (2, secondHline)] }).2.2.2.2.2
        secondHline (by decide)⟩⟩

/-! ## Looking up connectors by id -/

theorem StdMap.count_eq_one_of_mem {α : Type} (m : StdMap α) (k : Int)
    (hwf : StdMap.WF m) (hk : k ∈ StdMap.keys m) : StdMap.count m k = 1 := by
  induction m with
  | nil => simp [StdMap.keys] at hk
  | cons e rest ih =>
    obtain ⟨k', v'⟩ := e
    have hwf2 : (∀ j ∈ StdMap.keys rest, k' < j) ∧ StdMap.WF rest := by
      simpa [StdMap.WF, StdMap.keys, List.pairwise_cons] using hwf
    by_cases h : k' = k
    · subst h
      have hrest : StdMap.count rest k' = 0 := by
        by_contra hne
        have hmem := (StdMap.count_ne_zero_iff rest k').1 hne
        exact lt_irrefl _ (hwf2.1 k' hmem)
      simp only [StdMap.count] at hrest ⊢
      simp [List.filter_cons, hrest]
    · have hk2 : k ∈ StdMap.keys rest := by
        have : k = k' ∨ k ∈ StdMap.keys rest := by
          simpa [StdMap.keys] using hk
        rcases this with h2 | h2
        · exact absurd h2.symm h
        · exact h2
      have := ih hwf2.2 hk2
      simp only [StdMap.count] at this ⊢
      simp [List.filter_cons, h, this]

theorem StdMap.exists_find?_of_mem_keys {α : Type} (m : StdMap α) (k : Int)
    (hk : k ∈ StdMap.keys m) : ∃ v, StdMap.find? m k = some v ∧ (k, v) ∈ m := by
  obtain ⟨v, hv⟩ := Option.isSome_iff_exists.1 ((StdMap.find?_isSome_iff m k).2 hk)
  exact ⟨v, hv, StdMap.mem_of_find? m k v hv⟩

theorem StdMap.count_eq_zero_of_not_mem {α : Type} (m : StdMap α) (k : Int)
    (hk : k ∉ StdMap.keys m) : StdMap.count m k = 0 := by
  by_contra hne
  exact hk ((StdMap.count_ne_zero_iff m k).1 hne)

/-- Claim C26: in a building whose collections are `std::map`s, each of
`GetTransition(int)`, `GetCrossing(int)` and `GetFinalGoal(int)` returns the
element stored under the id when the id is a key, returns null when the id is
no key and is -1, and ends the process when the id is no key and is not -1;
`GetCrossing`, the one of the three that is not `const`, leaves the building
as it was. -/
theorem lookup_by_id (b : Building) (ID : Int) (hT : StdMap.WF b.transitions)
    (hC : StdMap.WF b.crossings) (hG : StdMap.WF b.goals) :
    ((ID ∈ StdMap.keys b.transitions →
        ∃ t, (ID, t) ∈ b.transitions ∧ GetTransition b ID = Outcome.ret (some t)) ∧
      (ID ∉ StdMap.keys b.transitions → ID = -1 → GetTransition b ID = Outcome.ret none) ∧
      (ID ∉ StdMap.keys b.transitions → ID ≠ -1 → GetTransition b ID = Outcome.aborted)) ∧
    ((ID ∈ StdMap.keys b.crossings →
        ∃ c, (ID, c) ∈ b.crossings ∧ GetCrossing b ID = Outcome.ret (b, some c)) ∧
      (ID ∉ StdMap.keys b.crossings → ID = -1 → GetCrossing b ID = Outcome.ret (b, none)) ∧
      (ID ∉ StdMap.keys b.crossings → ID ≠ -1 → GetCrossing b ID = Outcome.aborted)) ∧
    ((ID ∈ StdMap.keys b.goals →
        ∃ g, (ID, g) ∈ b.goals ∧ GetFinalGoal b ID = Outcome.ret (some g)) ∧
      (ID ∉ StdMap.keys b.goals → ID = -1 → GetFinalGoal b ID = Outcome.ret none) ∧
      (ID ∉ StdMap.keys b.goals → ID ≠ -1 → GetFinalGoal b ID = Outcome.aborted)) := by
  refine ⟨⟨?_, ?_, ?_⟩, ⟨?_, ?_, ?_⟩, ⟨?_, ?_, ?_⟩⟩
  · intro hk
    obtain ⟨t, hf, hm⟩ := StdMap.exists_find?_of_mem_keys _ _ hk
    exact ⟨t, hm, by simp [GetTransition, StdMap.count_eq_one_of_mem _ _ hT hk, hf]⟩
  · intro hk h1
    have h0 := StdMap.count_eq_zero_of_not_mem _ _ hk
    subst h1
    simp [GetTransition, h0]
  · intro hk h1
    simp [GetTransition, StdMap.count_eq_zero_of_not_mem _ _ hk, h1]
  · intro hk
    obtain ⟨c, hf, hm⟩ := StdMap.exists_find?_of_mem_keys _ _ hk
    exact ⟨c, hm, by simp [GetCrossing, StdMap.count_eq_one_of_mem _ _ hC hk, hf]⟩
  · intro hk h1
    have h0 := StdMap.count_eq_zero_of_not_mem _ _ hk
    subst h1
    simp [GetCrossing, h0]
  · intro hk h1
    simp [GetCrossing, StdMap.count_eq_zero_of_not_mem _ _ hk, h1]
  · intro hk
    obtain ⟨g, hf, hm⟩ := StdMap.exists_find?_of_mem_keys _ _ hk
    exact ⟨g, hm, by simp [GetFinalGoal, StdMap.count_eq_one_of_mem _ _ hG hk, hf]⟩
  · intro hk h1
    have h0 := StdMap.count_eq_zero_of_not_mem _ _ hk
    subst h1
    simp [GetFinalGoal, h0]
  · intro hk h1
    simp [GetFinalGoal, StdMap.count_eq_zero_of_not_mem _ _ hk, h1]

/-- Claim C26, witness: the sample building holds transition 7, crossing 5 and
goal 4. -/
theorem lookup_by_id_witness :
    (StdMap.WF connectorBuilding.transitions ∧ StdMap.WF connectorBuilding.crossings ∧
      StdMap.WF connectorBuilding.goals) ∧
    (7 ∈ StdMap.keys connectorBuilding.transitions ∧
      ∃ t, (7, t) ∈ connectorBuilding.transitions ∧
        GetTransition connectorBuilding 7 = Outcome.ret (some t)) ∧
    ((-1 : Int) ∉ StdMap.keys connectorBuilding.crossings ∧
      GetCrossing connectorBuilding (-1) = Outcome.ret (connectorBuilding, none)) ∧
    ((9 : Int) ∉ StdMap.keys connectorBuilding.goals ∧ (9 : Int) ≠ -1 ∧
      GetFinalGoal connectorBuilding 9 = Outcome.aborted) :=
  ⟨⟨by simp [StdMap.WF, StdMap.keys, connectorBuilding],
      by simp [StdMap.WF, StdMap.keys, connectorBuilding],
      by simp [StdMap.WF, StdMap.keys, connectorBuilding]⟩,
    ⟨by decide,
      (lookup_by_id connectorBuilding 7 (by simp [StdMap.WF, StdMap.keys, connectorBuilding])
        (by simp [StdMap.WF, StdMap.keys, connectorBuilding])
        (by simp [StdMap.WF, StdMap.keys, connectorBuilding])).1.1 (by decide)⟩,
    ⟨by decide,
      (lookup_by_id connectorBuilding (-1)
        (by simp [StdMap.WF, StdMap.keys, connectorBuilding])
        (by simp [StdMap.WF, StdMap.keys, connectorBuilding])
        (by simp [StdMap.WF, StdMap.keys, connectorBuilding])).2.1.2.1 (by decide) rfl⟩,
    ⟨by decide, by decide,
      (lookup_by_id connectorBuilding 9 (by simp [StdMap.WF, StdMap.keys, connectorBuilding])
        (by simp [StdMap.WF, StdMap.keys, connectorBuilding])
        (by simp [StdMap.WF, StdMap.keys, connectorBuilding])).2.2.2.2 (by decide)
        (by decide)⟩⟩

/-! ## Admission to the live list -/

theorem AddPedestrian.scan_of_duplicate (h : PedStore) (ped : Ptr) (new : Pedestrian)
    (l : List Ptr) (hnew : h ped = some new) (hvalid : ∀ q ∈ l, (h q).isSome = true)
    (hdup : ∃ q ∈ l, ∃ pq, h q = some pq ∧ pq.id = new.id) :
    AddPedestrian.scan h ped l = Outcome.ret true := by
  induction l with
  | nil =>
    obtain ⟨q, hq, _⟩ := hdup
    simp at hq
  | cons q rest ih =>
    obtain ⟨pq, hpq⟩ := Option.isSome_iff_exists.1 (hvalid q (List.mem_cons_self _ _))
    unfold AddPedestrian.scan
    simp only [hnew, hpq]
    by_cases hid : new.id = pq.id
    · simp [hid]
    · simp only [hid, if_false]
      apply ih (fun x hx => hvalid x (List.mem_cons_of_mem _ hx))
      obtain ⟨x, hx, px, hpx, hxid⟩ := hdup
      rcases List.mem_cons.1 hx with rfl | hx
      · rw [hpq] at hpx
        cases hpx
        exact absurd hxid.symm hid
      · exact ⟨x, hx, px, hpx, hxid⟩

/-- Claim C23: for a live list `L` of live pedestrians and a live pedestrian
`p`, `AddPedestrian(p)` returns with the live list `L ++ [p]` when no pedestrian
of `L` has the id of `p`, and with `L` as it was when some pedestrian of `L` has
that id; nothing else of the building changes. -/
theorem AddPedestrian_appends_or_keeps (h : PedStore) (b : Building) (ped : Ptr)
    (p : Pedestrian) (hvalid : ∀ q ∈ b.allPedestians, (h q).isSome = true)
    (hped : h ped = some p) :
    ((∀ q ∈ b.allPedestians, ∀ pq, h q = some pq → pq.id ≠ p.id) →
      AddPedestrian h b ped =
        Outcome.ret { b with allPedestians := b.allPedestians ++ [ped] }) ∧
    ((∃ q ∈ b.allPedestians, ∃ pq, h q = some pq ∧ pq.id = p.id) →
      AddPedestrian h b ped = Outcome.ret b) := by
  constructor
  · intro hfresh
    have hscan : AddPedestrian.scan h ped b.allPedestians = Outcome.ret false := by
      apply AddPedestrian.scan_of_fresh h ped p _ hped
      intro q hq
      obtain ⟨pq, hpq⟩ := Option.isSome_iff_exists.1 (hvalid q hq)
      exact ⟨pq, hpq, fun heq => hfresh q hq pq hpq heq.symm⟩
    simp [AddPedestrian, hscan, Outcome.bind]
  · intro hdup
    have hscan : AddPedestrian.scan h ped b.allPedestians = Outcome.ret true :=
      AddPedestrian.scan_of_duplicate h ped p _ hped hvalid hdup
    simp [AddPedestrian, hscan, Outcome.bind]

/-- Claim C23, witness: the live list holds the pedestrians with the ids 1 and
2; the pedestrian with id 3 is appended, the one with id 2 is not added a
second time. -/
theorem AddPedestrian_appends_or_keeps_witness :
    (∀ q ∈ liveBuilding.allPedestians, (sampleStore q).isSome = true) ∧
    ((∀ q ∈ liveBuilding.allPedestians, ∀ pq, sampleStore q = some pq →
        pq.id ≠ (samplePed 3 []).id) ∧
      AddPedestrian sampleStore liveBuilding 3 =
        Outcome.ret { liveBuilding with allPedestians := liveBuilding.allPedestians ++ [3] }) ∧
    ((∃ q ∈ liveBuilding.allPedestians, ∃ pq, sampleStore q = some pq ∧
        pq.id = (samplePed 2 []).id) ∧
      AddPedestrian sampleStore liveBuilding 2 = Outcome.ret liveBuilding) :=
  ⟨by decide,
    ⟨by decide,
      (AddPedestrian_appends_or_keeps sampleStore liveBuilding 3 (samplePed 3 [])
        (by decide) rfl).1 (by decide)⟩,
    ⟨⟨2, by decide, samplePed 2 [], rfl, rfl⟩,
      (AddPedestrian_appends_or_keeps sampleStore liveBuilding 2 (samplePed 2 [])
        (by decide) rfl).2 ⟨2, by decide, samplePed 2 [], rfl, rfl⟩⟩⟩

/-! ## Tokens of a string -/

theorem find_first_of_none (str sep : List Char) (h : find_first_of str sep = none) :
    ∀ c ∈ str, c ∉ sep := by
  induction str with
  | nil => simp
  | cons a rest ih =>
    unfold find_first_of at h
    by_cases ha : a ∈ sep
    · simp [ha] at h
    · simp only [List.elem_eq_mem, decide_eq_true_eq, ha, if_false, Option.map_eq_none'] at h
      intro c hc
      rcases List.mem_cons.1 hc with rfl | hc
      · exact ha
      · exact ih h c hc

theorem find_first_of_some (str sep : List Char) (n : Nat)
    (h : find_first_of str sep = some n) :
    n < str.length ∧ (∀ x ∈ str.take n, x ∉ sep) ∧
      ∃ c, c ∈ sep ∧ str = str.take n ++ c :: str.drop (n + 1) := by
  induction str generalizing n with
  | nil => simp [find_first_of] at h
  | cons a rest ih =>
    unfold find_first_of at h
    by_cases ha : a ∈ sep
    · simp only [List.elem_eq_mem, decide_eq_true_eq, ha, if_true, Option.some.injEq] at h
      subst h
      exact ⟨by simp, by simp, a, ha, by simp⟩
    · simp only [List.elem_eq_mem, decide_eq_true_eq, ha, if_false, Option.map_eq_some'] at h
      obtain ⟨m, hm, rfl⟩ := h
      obtain ⟨hlt, hpre, c, hc, hsplit⟩ := ih m hm
      refine ⟨by simpa using hlt, ?_, c, hc, ?_⟩
      · intro x hx
        simp only [List.take_succ_cons, List.mem_cons] at hx
        rcases hx with rfl | hx
        · exact ha
        · exact hpre x hx
      · simp only [List.take_succ_cons, List.drop_succ_cons, List.cons_append, List.cons.injEq,
          true_and]
        exact hsplit

theorem maximalRuns_of_none (sep s : List Char) (h : ∀ c ∈ s, c ∉ sep) :
    maximalRuns sep s = if s.length > 0 then [s] else [] := by
  have h1 : s.splitOnP (fun c => sep.contains c) = [s] :=
    List.splitOnP_eq_single _ _ (fun x hx => by simpa using h x hx)
  unfold maximalRuns
  rw [h1]
  cases s with
  | nil => simp
  | cons a rest => simp

theorem maximalRuns_first (sep xs ys : List Char) (c : Char)
    (h : ∀ x ∈ xs, x ∉ sep) (hc : c ∈ sep) :
    maximalRuns sep (xs ++ c :: ys) =
      (if xs.length > 0 then [xs] else []) ++ maximalRuns sep ys := by
  have h1 : (xs ++ c :: ys).splitOnP (fun c => sep.contains c) =
      xs :: ys.splitOnP (fun c => sep.contains c) :=
    List.splitOnP_first _ _ (fun x hx => by simpa using h x hx) c (by simpa using hc) ys
  unfold maximalRuns
  rw [h1]
  cases xs with
  | nil => simp [List.filter_cons]
  | cons a rest => simp [List.filter_cons]

theorem StringExplode.loop_spec (sep : List Char) (fuel : Nat) :
    ∀ (str : List Char) (results : List (List Char)), str.length < fuel →
      StringExplode.loop sep fuel str results = results ++ maximalRuns sep str := by
  induction fuel with
  | zero => intro str results h; simp at h
  | succ fuel ih =>
    intro str results hlen
    unfold StringExplode.loop
    cases hf : find_first_of str sep with
    | none =>
      simp only []
      rw [maximalRuns_of_none sep str (find_first_of_none str sep hf)]
      by_cases h0 : str.length > 0
      · simp [h0]
      · simp [h0]
    | some found =>
      simp only []
      obtain ⟨hlt, hpre, c, hc, hsplit⟩ := find_first_of_some str sep found hf
      have hdrop : (str.drop (found + 1)).length < fuel := by
        simp only [List.length_drop]
        omega
      rw [ih _ _ hdrop]
      have hruns : maximalRuns sep str =
          (if (str.take found).length > 0 then [str.take found] else []) ++
            maximalRuns sep (str.drop (found + 1)) := by
        conv_lhs => rw [hsplit]
        exact maximalRuns_first sep _ _ c hpre hc
      have htake : (str.take found).length = found := by
        simp only [List.length_take]
        omega
      rw [hruns, htake]
      by_cases h0 : found > 0
      · simp [h0]
      · simp [h0]

theorem maximalRuns_cases (sep s : List Char) :
    ((∀ c ∈ s, c ∉ sep) ∧
      maximalRuns sep s = if s.length > 0 then [s] else []) ∨
    ∃ xs c ys, s = xs ++ c :: ys ∧ (∀ x ∈ xs, x ∉ sep) ∧ c ∈ sep ∧
      maximalRuns sep s = (if xs.length > 0 then [xs] else []) ++ maximalRuns sep ys := by
  cases hf : find_first_of s sep with
  | none =>
    exact Or.inl ⟨find_first_of_none s sep hf, maximalRuns_of_none sep s
      (find_first_of_none s sep hf)⟩
  | some found =>
    obtain ⟨_, hpre, c, hc, hsplit⟩ := find_first_of_some s sep found hf
    refine Or.inr ⟨s.take found, c, s.drop (found + 1), hsplit, hpre, hc, ?_⟩
    conv_lhs => rw [hsplit]
    exact maximalRuns_first sep _ _ c hpre hc

theorem maximalRuns_spec (sep : List Char) (n : Nat) :
    ∀ s : List Char, s.length ≤ n →
      (∀ t ∈ maximalRuns sep s, ∀ c ∈ t, c ∉ sep) ∧
      (maximalRuns sep s).flatten = s.filter (fun c => decide (c ∉ sep)) := by
  induction n with
  | zero =>
    intro s hs
    have : s = [] := List.length_eq_zero.1 (Nat.le_zero.1 hs)
    subst this
    simp [maximalRuns]
  | succ n ih =>
    intro s hs
    rcases maximalRuns_cases sep s with ⟨hall, hruns⟩ | ⟨xs, c, ys, rfl, hpre, hc, hruns⟩
    · rw [hruns]
      have hfilter : s.filter (fun c => decide (c ∉ sep)) = s :=
        List.filter_eq_self.2 (fun a ha => by simpa using hall a ha)
      by_cases h0 : s.length > 0
      · simp only [h0, if_true, List.mem_singleton, List.flatten_cons, List.flatten_nil,
          List.append_nil, hfilter, and_true]
        rintro t rfl c hc
        exact hall c hc
      · have : s = [] := List.length_eq_zero.1 (by omega)
        subst this
        simp
    · have hlen : ys.length ≤ n := by
        simp only [List.length_append, List.length_cons] at hs
        omega
      obtain ⟨ih1, ih2⟩ := ih ys hlen
      have hfilter : xs.filter (fun c => decide (c ∉ sep)) = xs :=
        List.filter_eq_self.2 (fun a ha => by simpa using hpre a ha)
      rw [hruns]
      constructor
      · intro t ht
        rcases List.mem_append.1 ht with ht | ht
        · by_cases h0 : xs.length > 0
          · simp only [h0, if_true, List.mem_singleton] at ht
            subst ht
            exact hpre
          · simp [h0] at ht
        · exact ih1 t ht
      · rw [List.flatten_append, ih2, List.filter_append, List.filter_cons, hfilter]
        by_cases h0 : xs.length > 0
        · simp [h0, hc]
        · have : xs = [] := List.length_eq_zero.1 (by omega)
          subst this
          simp [hc]

/-- Claim C27: `StringExplode` returns, and leaves `results` as the initial list
followed by the maximal runs of non-separator characters of the string, from
left to right; fuel beyond the length of the string changes nothing. No
appended token is empty, none holds a character of the separator string,
their concatenation is the string without its separator characters, and for
an empty separator string the string itself is the only token, unless it is
empty. -/
theorem StringExplode_appends_maximal_runs (s sep : List Char) (r : List (List Char)) :
    StringExplode s sep r = r ++ maximalRuns sep s ∧
    (∀ fuel, s.length < fuel → StringExplode.loop sep fuel s r = r ++ maximalRuns sep s) ∧
    (∀ t ∈ maximalRuns sep s, t ≠ []) ∧
    (∀ t ∈ maximalRuns sep s, ∀ c ∈ t, c ∉ sep) ∧
    (maximalRuns sep s).flatten = s.filter (fun c => decide (c ∉ sep)) ∧
    (sep = [] → maximalRuns sep s = if s = [] then [] else [s]) := by
  refine ⟨StringExplode.loop_spec sep _ s r (Nat.lt_succ_self _),
    fun fuel h => StringExplode.loop_spec sep fuel s r h, ?_,
    (maximalRuns_spec sep s.length s le_rfl).1, (maximalRuns_spec sep s.length s le_rfl).2, ?_⟩
  · intro t ht
    simp only [maximalRuns, List.mem_filter] at ht
    intro h
    simp [h] at ht
  · intro hsep
    subst hsep
    rw [maximalRuns_of_none [] s (by simp)]
    cases s with
    | nil => simp
    | cons a rest => simp

/-- Claim C27, witness: the path `0:7>1:8` is cut at `>` and its first segment
at `:`; the empty separator string leaves `0:7` in one piece. -/
theorem StringExplode_appends_maximal_runs_witness :
    StringExplode ['0', ':', '7', '>', '1', ':', '8'] ['>'] [['x']] =
      [['x'], ['0', ':', '7'], ['1', ':', '8']] ∧
    StringExplode.loop [':'] 9 ['0', ':', '7'] [] = [['0'], ['7']] ∧
    maximalRuns [] ['0', ':', '7'] = [['0', ':', '7']] := by
  have h1 := StringExplode_appends_maximal_runs ['0', ':', '7', '>', '1', ':', '8'] ['>']
    [['x']]
  have h2 := StringExplode_appends_maximal_runs ['0', ':', '7'] [':'] []
  have h3 := StringExplode_appends_maximal_runs ['0', ':', '7'] [] []
  refine ⟨by decide, ?_, ?_⟩
  · rw [h2.2.1 9 (by decide), ← h2.1]
    decide
  · rw [h3.2.2.2.2.2 rfl]
    decide

/-! ## The path history of a deleted pedestrian -/

theorem StringExplode_eq (s sep : List Char) (r : List (List Char)) :
    StringExplode s sep r = r ++ maximalRuns sep s :=
  StringExplode.loop_spec sep _ s r (Nat.lt_succ_self _)

theorem pathwayLine_of_fields (b : Building) (segment field0 field1 : List Char)
    (more : List (List Char)) (hT : StdMap.WF b.transitions)
    (hfields : maximalRuns [':'] segment = field0 :: field1 :: more)
    (hroom : atoi field0 ∈ StdMap.keys b.rooms)
    (htrans : atoi field1 ∈ StdMap.keys b.transitions) :
    DeletePedestrian.pathwayLine b segment = Outcome.ret (pathwayLineOf b segment) := by
  obtain ⟨room, hr, _⟩ := StdMap.exists_find?_of_mem_keys _ _ hroom
  obtain ⟨t, ht, _⟩ := StdMap.exists_find?_of_mem_keys _ _ htrans
  have htags : StringExplode segment [':'] [] = field0 :: field1 :: more := by
    rw [StringExplode_eq, hfields]
    rfl
  have hget : GetTransition b (atoi field1) = Outcome.ret (some t) := by
    simp [GetTransition, StdMap.count_eq_one_of_mem _ _ hT htrans, ht]
  unfold DeletePedestrian.pathwayLine pathwayLineOf
  simp only [htags, hfields, List.getElem?_cons_zero, List.getElem?_cons_succ, hr, ht, hget,
    Outcome.bind]
  split <;> rfl

theorem savePathway_of_fields (b : Building) (hT : StdMap.WF b.transitions)
    (segments : List (List Char)) :
    ∀ stream : List String,
      (∀ segment ∈ segments, ∃ field0 field1 more,
        maximalRuns [':'] segment = field0 :: field1 :: more ∧
        atoi field0 ∈ StdMap.keys b.rooms ∧ atoi field1 ∈ StdMap.keys b.transitions) →
      DeletePedestrian.savePathway b segments stream =
        Outcome.ret (stream ++ segments.filterMap (pathwayLineOf b)) := by
  induction segments with
  | nil => intro stream _; simp [DeletePedestrian.savePathway]
  | cons segment rest ih =>
    intro stream hall
    obtain ⟨f0, f1, more, hf, hr, ht⟩ := hall segment (List.mem_cons_self _ _)
    unfold DeletePedestrian.savePathway
    rw [pathwayLine_of_fields b segment f0 f1 more hT hf hr ht]
    simp only [Outcome.bind]
    rw [ih _ (fun s hs => hall s (List.mem_cons_of_mem _ hs))]
    cases hline : pathwayLineOf b segment with
    | none => simp [List.filterMap_cons, hline]
    | some l => simp [List.filterMap_cons, hline]

/-- Claim C28: with path saving switched on and the transitions held in a
`std::map`, `DeletePedestrian` of a pedestrian of the live list returns - no
token access is out of range, no null pointer is dereferenced - when every
`>`-separated segment of the path of the pedestrian has at least two
non-empty `:`-separated fields, the first naming the id of a room and the
second the id of a transition of the building. The pedestrian is erased from
the live list and freed, and the lines appended to the pathway stream are
the lines the segments stand for, in the order of the path: room caption
and transition caption, for the segments whose transition has a caption. -/
theorem DeletePedestrian_saves_pathway (h : PedStore) (b : Building) (ped : Ptr)
    (p : Pedestrian) (hsave : b.savePathway = true) (hin : ped ∈ b.allPedestians)
    (hped : h ped = some p) (hT : StdMap.WF b.transitions)
    (hpath : ∀ segment ∈ maximalRuns ['>'] p.path, ∃ field0 field1 more,
      maximalRuns [':'] segment = field0 :: field1 :: more ∧
      atoi field0 ∈ StdMap.keys b.rooms ∧ atoi field1 ∈ StdMap.keys b.transitions) :
    DeletePedestrian h b ped =
      Outcome.ret (h.free ped,
        { b with
          allPedestians := b.allPedestians.erase ped
          pathWayStream := b.pathWayStream ++
            (maximalRuns ['>'] p.path).filterMap (pathwayLineOf b) }) := by
  apply DeletePedestrian_found h b ped p _ hin hped
  have hsegs : StringExplode p.path ['>'] [] = maximalRuns ['>'] p.path := by
    rw [StringExplode_eq]
    rfl
  simp only [DeletePedestrian.pathHistory, hsave, if_true, hped, hsegs]
  exact savePathway_of_fields b hT _ _ hpath

/-- Claim C28, witness: the pedestrian at address 1 has the path `0:7>`, room 0
is the hall and transition 7 the exit; the line written is `hall exit`. -/
theorem DeletePedestrian_saves_pathway_witness :
    liveBuilding.savePathway = true ∧ 1 ∈ liveBuilding.allPedestians ∧
    StdMap.WF liveBuilding.transitions ∧
    maximalRuns ['>'] ['0', ':', '7', '>'] = [['0', ':', '7']] ∧
    maximalRuns [':'] ['0', ':', '7'] = [['0'], ['7']] ∧
    DeletePedestrian sampleStore liveBuilding 1 =
      Outcome.ret (sampleStore.free 1,
        { liveBuilding with
          allPedestians := liveBuilding.allPedestians.erase 1
          pathWayStream := liveBuilding.pathWayStream ++
            (maximalRuns ['>'] (samplePed 1 ['0', ':', '7', '>']).path).filterMap
              (pathwayLineOf liveBuilding) }) ∧
    (maximalRuns ['>'] (samplePed 1 ['0', ':', '7', '>']).path).filterMap
      (pathwayLineOf liveBuilding) = ["hall exit"] := by
  have hruns : maximalRuns ['>'] ['0', ':', '7', '>'] = [['0', ':', '7']] := by decide
  refine ⟨rfl, by decide, by simp [StdMap.WF, StdMap.keys, liveBuilding], hruns, by decide,
    DeletePedestrian_saves_pathway sampleStore liveBuilding 1
      (samplePed 1 ['0', ':', '7', '>']) rfl (by decide) rfl
      (by simp [StdMap.WF, StdMap.keys, liveBuilding]) ?_, by decide⟩
  intro segment hseg
  have hseg2 : segment = ['0', ':', '7'] := by
    have hp : (samplePed 1 ['0', ':', '7', '>']).path = ['0', ':', '7', '>'] := rfl
    rw [hp, hruns] at hseg
    simpa using hseg
  subst hseg2
  exact ⟨['0'], ['7'], [], by decide, by decide, by decide⟩

/-! ## The surrounding room -/

/-- Claim C25, the input it fails on: the single wall of the building runs from
`(-3, -2)` to `(-1, -1)` and there is no goal. The scan of `InitGrid` leaves
`x_max` and `y_max` at their start value `FLT_MIN`, which is positive; the
scan of `AddSurroundingRoom`, started from `-FLT_MAX`, finds -1 for both. The
minima agree. -/
theorem InitGrid_extremes_miss_negative_maximum :
    wallEndpoints negativeBuilding = [⟨-3, -2⟩, ⟨-1, -1⟩] ∧
    negativeBuilding.goals = [] ∧
    InitGrid.extremes negativeBuilding =
      { x_min := -3, x_max := FLT_MIN, y_min := -2, y_max := FLT_MIN } ∧
    AddSurroundingRoom.extremes negativeBuilding =
      { x_min := -3, x_max := -1, y_min := -2, y_max := -1 } ∧
    (InitGrid.extremes negativeBuilding).x_max ≠
      (AddSurroundingRoom.extremes negativeBuilding).x_max := by
  have h1 : InitGrid.extremes negativeBuilding =
      { x_min := -3, x_max := FLT_MIN, y_min := -2, y_max := FLT_MIN } := by
    simp only [InitGrid.extremes, negativeBuilding, emptyBuilding, sampleWall, List.foldl,
      InitGrid.wallStep, FLT_MAX, FLT_MIN]
    norm_num
  have h2 : AddSurroundingRoom.extremes negativeBuilding =
      { x_min := -3, x_max := -1, y_min := -2, y_max := -1 } := by
    simp only [AddSurroundingRoom.extremes, negativeBuilding, emptyBuilding, sampleWall,
      List.foldl, InitGrid.wallStep, FLT_MAX]
    norm_num
  refine ⟨?_, rfl, h1, h2, ?_⟩
  · simp [wallEndpoints, negativeBuilding, emptyBuilding, sampleWall]
  · rw [h1, h2]
    simp only [FLT_MIN]
    norm_num

/-- Claim C24, as the code has it: in a building none of whose rooms has the
number of rooms as its id - as when the ids are 0, 1, 2, ... in order -
`AddSurroundingRoom` adds exactly one room, given that `new Room()` yields a
room without subrooms. The number of rooms is one more than before, every
room present before is retrieved unchanged under its id, and the new room,
stored under the former number of rooms, has the caption `outside` and a
single subroom, with id 0. -/
theorem AddSurroundingRoom_adds_one_room (newNormalSubRoom : SubRoom) (newRoom : Room)
    (b : Building) (hfree : StdMap.count b.rooms (StdMap.size b.rooms : Int) = 0)
    (hnew : newRoom.subRooms = []) :
    StdMap.size (AddSurroundingRoom newNormalSubRoom newRoom b).rooms =
      StdMap.size b.rooms + 1 ∧
    (∀ id room, StdMap.find? b.rooms id = some room →
      GetRoom (AddSurroundingRoom newNormalSubRoom newRoom b) id = some room) ∧
    GetRoom (AddSurroundingRoom newNormalSubRoom newRoom b) (StdMap.size b.rooms : Int) =
      some (AddSurroundingRoom.bigRoom newNormalSubRoom newRoom b) ∧
    (AddSurroundingRoom.bigRoom newNormalSubRoom newRoom b).caption = "outside" ∧
    (AddSurroundingRoom.bigRoom newNormalSubRoom newRoom b).id = (StdMap.size b.rooms : Int) ∧
    (AddSurroundingRoom.bigRoom newNormalSubRoom newRoom b).subRooms =
      [(0, AddSurroundingRoom.bigSubroom newNormalSubRoom b)] ∧
    (AddSurroundingRoom.bigSubroom newNormalSubRoom b).subRoomID = 0 := by
  refine ⟨?_, ?_, ?_, rfl, rfl, ?_, rfl⟩
  · simp only [AddSurroundingRoom, AddRoom]
    exact StdMap.size_set_of_absent _ _ _ hfree
  · intro id room hfind
    have hkey : id ∈ StdMap.keys b.rooms :=
      (StdMap.find?_isSome_iff b.rooms id).1 (by simp [hfind])
    have hne : id ≠ (StdMap.size b.rooms : Int) := by
      intro heq
      rw [heq] at hkey
      exact (StdMap.count_ne_zero_iff _ _).2 hkey hfree
    have hfind2 : StdMap.find? (AddSurroundingRoom newNormalSubRoom newRoom b).rooms id =
        some room := by
      simp only [AddSurroundingRoom, AddRoom]
      exact (StdMap.find?_set_other b.rooms (StdMap.size b.rooms : Int) id _ hne).trans hfind
    have hcount : StdMap.count (AddSurroundingRoom newNormalSubRoom newRoom b).rooms id ≠ 0 :=
      (StdMap.count_ne_zero_iff _ _).2
        ((StdMap.find?_isSome_iff _ _).1 (by simp [hfind2]))
    simp [GetRoom, hcount, hfind2]
  · have hf : StdMap.find? (AddSurroundingRoom newNormalSubRoom newRoom b).rooms
        (StdMap.size b.rooms : Int) =
        some (AddSurroundingRoom.bigRoom newNormalSubRoom newRoom b) := by
      simp only [AddSurroundingRoom, AddRoom]
      exact StdMap.find?_set_self _ _ _
    have hcount : StdMap.count (AddSurroundingRoom newNormalSubRoom newRoom b).rooms
        (StdMap.size b.rooms : Int) ≠ 0 :=
      (StdMap.count_ne_zero_iff _ _).2
        ((StdMap.find?_isSome_iff _ _).1 (by simp [hf]))
    simp [GetRoom, hcount, hf]
  · simp only [AddSurroundingRoom.bigRoom, hnew, StdMap.set]
    rfl

/-- Claim C24, witness: the sample building has one room, with id 0; the
surrounding room gets the id 1. -/
theorem AddSurroundingRoom_adds_one_room_witness :
    StdMap.count squareBuilding.rooms (StdMap.size squareBuilding.rooms : Int) = 0 ∧
    freshRoom.subRooms = [] ∧
    StdMap.size (AddSurroundingRoom freshSubRoom freshRoom squareBuilding).rooms =
      StdMap.size squareBuilding.rooms + 1 ∧
    (∀ id room, StdMap.find? squareBuilding.rooms id = some room →
      GetRoom (AddSurroundingRoom freshSubRoom freshRoom squareBuilding) id = some room) :=
  ⟨by decide, rfl,
    (AddSurroundingRoom_adds_one_room freshSubRoom freshRoom squareBuilding (by decide)
      rfl).1,
    (AddSurroundingRoom_adds_one_room freshSubRoom freshRoom squareBuilding (by decide)
      rfl).2.1⟩

/-- Claim C24, counterexample: the single room of the building has the id 1,
which is also the number of rooms. After `AddSurroundingRoom` the building
still has one room: the room `outside` has taken the place of the hall under
the id 1. -/
theorem AddSurroundingRoom_replaces_room_of_id_one :
    StdMap.size shiftedBuilding.rooms = 1 ∧
    (GetRoom shiftedBuilding 1).map Room.caption = some "hall" ∧
    StdMap.size (AddSurroundingRoom freshSubRoom freshRoom shiftedBuilding).rooms = 1 ∧
    (GetRoom (AddSurroundingRoom freshSubRoom freshRoom shiftedBuilding) 1).map Room.caption =
      some "outside" := by
  refine ⟨rfl, by decide, ?_, ?_⟩
  · simp [AddSurroundingRoom, AddSurroundingRoom.bigRoom, AddRoom, shiftedBuilding,
      emptyBuilding, StdMap.set, StdMap.size]
  · simp [AddSurroundingRoom, AddSurroundingRoom.bigRoom, AddRoom, shiftedBuilding,
      emptyBuilding, StdMap.set, StdMap.size, GetRoom, StdMap.count, StdMap.find?]

/-! ## The ini file of jpsreport -/

theorem ParseIniFile.andThen_eq_ret (o : Outcome (ArgumentParser × Bool))
    (next : ArgumentParser → Outcome (ArgumentParser × Bool)) (r : ArgumentParser × Bool)
    (h : ParseIniFile.andThen o next = Outcome.ret r) :
    (o = Outcome.ret r ∧ r.2 = false) ∨ ∃ p, o = Outcome.ret (p, true) ∧ next p = Outcome.ret r := by
  unfold ParseIniFile.andThen at h
  obtain ⟨a, ha, hnext⟩ := (Outcome.bind_eq_ret _ _ _).1 h
  obtain ⟨p, ok⟩ := a
  cases ok with
  | false =>
    simp only [Bool.false_eq_true, if_false, Outcome.ret.injEq] at hnext
    subst hnext
    exact Or.inl ⟨ha, rfl⟩
  | true =>
    simp only [if_true] at hnext
    exact Or.inr ⟨p, ha, hnext⟩

theorem ParseIniFile.projectRootDir_lists (inifile : String) (p : ArgumentParser) :
    (ParseIniFile.projectRootDir inifile p).optionLists = p.optionLists := by
  unfold ParseIniFile.projectRootDir
  split <;> rfl

theorem ParseIniFile.geometry_lists (xMainNode : TiXmlNode) (p p1 : ArgumentParser)
    (ok : Bool) (h : ParseIniFile.geometry xMainNode p = Outcome.ret (p1, ok)) :
    p1.optionLists = p.optionLists := by
  unfold ParseIniFile.geometry at h
  repeat' split at h
  all_goals first
    | (simp at h; done)
    | (simp only [Outcome.ret.injEq, Prod.mk.injEq] at h
       obtain ⟨rfl, _⟩ := h
       rfl)

theorem ParseIniFile.files_lists (fmt : String) (l : List TiXmlNode) :
    ∀ (p p1 : ArgumentParser) (ok : Bool),
      ParseIniFile.files fmt l p = Outcome.ret (p1, ok) → p1.optionLists = p.optionLists := by
  induction l with
  | nil =>
    intro p p1 ok h
    simp only [ParseIniFile.files, Outcome.ret.injEq, Prod.mk.injEq] at h
    obtain ⟨rfl, _⟩ := h
    rfl
  | cons xFile rest ih =>
    intro p p1 ok h
    unfold ParseIniFile.files at h
    repeat' split at h
    all_goals first
      | (simp at h; done)
      | (rw [ih _ _ _ h]; rfl)
      | (simp only [Outcome.ret.injEq, Prod.mk.injEq] at h
         obtain ⟨rfl, _⟩ := h
         rfl)

theorem ParseIniFile.location_lists (xTrajectories : TiXmlNode) (p : ArgumentParser) :
    (ParseIniFile.location xTrajectories p).optionLists = p.optionLists := by
  unfold ParseIniFile.location
  repeat' split
  all_goals rfl

theorem ParseIniFile.collect_lists (fs : FileSystem) (fmt : String) (p p1 : ArgumentParser)
    (ok : Bool) (h : ParseIniFile.collect fs fmt p = Outcome.ret (p1, ok)) :
    p1.optionLists = p.optionLists := by
  unfold ParseIniFile.collect at h
  repeat' split at h
  all_goals
    simp only [Outcome.ret.injEq, Prod.mk.injEq] at h
    obtain ⟨rfl, _⟩ := h
    rfl

theorem ParseIniFile.trajectories_lists (x : Externals) (fs : FileSystem)
    (xMainNode : TiXmlNode) (p p1 : ArgumentParser) (ok : Bool)
    (h : ParseIniFile.trajectories x fs xMainNode p = Outcome.ret (p1, ok)) :
    p1.optionLists = p.optionLists := by
  have hstep : ∀ (fmt : String) (l : List TiXmlNode) (n : TiXmlNode) (q : ArgumentParser),
      q.optionLists = p.optionLists →
      ParseIniFile.andThen (ParseIniFile.files fmt l q)
        (fun p1 => ParseIniFile.collect fs fmt (ParseIniFile.location n p1)) =
        Outcome.ret (p1, ok) → p1.optionLists = p.optionLists := by
    intro fmt l n q hq hrun
    rcases ParseIniFile.andThen_eq_ret _ _ _ hrun with ⟨hf, _⟩ | ⟨p2, hf, hc⟩
    · rw [ParseIniFile.files_lists fmt l q p1 ok hf, hq]
    · rw [ParseIniFile.collect_lists fs fmt _ p1 ok hc, ParseIniFile.location_lists,
        ParseIniFile.files_lists fmt l q p2 true hf, hq]
  unfold ParseIniFile.trajectories at h
  repeat' split at h
  all_goals first
    | (simp at h; done)
    | exact hstep _ _ _ _ (by rfl) h
    | (simp only [Outcome.ret.injEq, Prod.mk.injEq] at h
       obtain ⟨rfl, _⟩ := h
       rfl)

theorem ParseIniFile.scripts_lists (fs : FileSystem) (xMainNode : TiXmlNode)
    (p p1 : ArgumentParser) (ok : Bool)
    (h : ParseIniFile.scripts fs xMainNode p = Outcome.ret (p1, ok)) :
    p1.optionLists = p.optionLists := by
  unfold ParseIniFile.scripts at h
  repeat' split at h
  all_goals first
    | (simp at h; done)
    | (simp only [Outcome.ret.injEq, Prod.mk.injEq] at h
       obtain ⟨rfl, _⟩ := h
       rfl)

theorem ParseIniFile.areasB_lists (x : Externals) (l : List TiXmlNode) :
    ∀ p p1 : ArgumentParser,
      ParseIniFile.areasB x l p = Outcome.ret p1 → p1.optionLists = p.optionLists := by
  induction l with
  | nil =>
    intro p p1 h
    simp only [ParseIniFile.areasB, Outcome.ret.injEq] at h
    subst h
    rfl
  | cons a rest ih =>
    intro p p1 h
    unfold ParseIniFile.areasB at h
    repeat' split at h
    all_goals first
      | (rw [ih _ _ h]; rfl)
      | simp at h

theorem ParseIniFile.areasL_lists (x : Externals) (l : List TiXmlNode) :
    ∀ p p1 : ArgumentParser,
      ParseIniFile.areasL x l p = Outcome.ret p1 → p1.optionLists = p.optionLists := by
  induction l with
  | nil =>
    intro p p1 h
    simp only [ParseIniFile.areasL, Outcome.ret.injEq] at h
    subst h
    rfl
  | cons a rest ih =>
    intro p p1 h
    unfold ParseIniFile.areasL at h
    repeat' split at h
    all_goals first
      | (rw [ih _ _ h]; rfl)
      | simp at h

theorem ParseIniFile.measurement_areas_lists (x : Externals) (xMainNode : TiXmlNode)
    (p p1 : ArgumentParser) (ok : Bool)
    (h : ParseIniFile.measurement_areas x xMainNode p = Outcome.ret (p1, ok)) :
    p1.optionLists = p.optionLists := by
  unfold ParseIniFile.measurement_areas at h
  repeat' split at h
  all_goals first
    | (simp at h; done)
    | (simp only [Outcome.ret.injEq, Prod.mk.injEq] at h
       obtain ⟨rfl, _⟩ := h
       rfl)
    | (obtain ⟨q1, h1, h2⟩ := (Outcome.bind_eq_ret _ _ _).1 h
       obtain ⟨q2, h3, h4⟩ := (Outcome.bind_eq_ret _ _ _).1 h2
       simp only [Outcome.ret.injEq, Prod.mk.injEq] at h4
       obtain ⟨rfl, _⟩ := h4
       rw [ParseIniFile.areasL_lists x _ _ _ h3, ParseIniFile.areasB_lists x _ _ _ h1])

theorem ParseIniFile.velocity_lists (x : Externals) (xMainNode : TiXmlNode)
    (p p1 : ArgumentParser) (ok : Bool)
    (h : ParseIniFile.velocity x xMainNode p = Outcome.ret (p1, ok)) :
    p1.optionLists = p.optionLists := by
  have h1 : ∀ v q, (ParseIniFile.frame_step x v q).optionLists = q.optionLists := by
    intro v q
    unfold ParseIniFile.frame_step
    split <;> rfl
  have h2 : ∀ v q, (ParseIniFile.ignore_backward_movement v q).optionLists = q.optionLists := by
    intro v q
    unfold ParseIniFile.ignore_backward_movement
    split <;> rfl
  have h3 : ∀ m q, (ParseIniFile.component m q).optionLists = q.optionLists := by
    intro m q
    unfold ParseIniFile.component
    repeat' split
    all_goals rfl
  unfold ParseIniFile.velocity at h
  repeat' split at h
  all_goals first
    | (simp at h; done)
    | (simp only [Outcome.ret.injEq, Prod.mk.injEq] at h
       obtain ⟨rfl, _⟩ := h
       simp only [h1, h2, h3])

theorem ParseIniFile.areasA_lists (x : Externals) (l : List TiXmlNode) :
    ∀ (p : ArgumentParser) (A C D : List TiXmlNode),
      p.optionLists = ParseIniFile.listsOf x A C D →
      (ParseIniFile.areasA x l p).optionLists = ParseIniFile.listsOf x (A ++ l) C D := by
  induction l with
  | nil =>
    intro p A C D h
    simpa [ParseIniFile.areasA] using h
  | cons a rest ih =>
    intro p A C D h
    unfold ParseIniFile.areasA
    have := ih
      { p with
        areaIDforMethodA := p.areaIDforMethodA ++ [x.xmltoi (a.Attribute "id")]
        timeIntervalA := p.timeIntervalA ++ [ParseIniFile.frame_interval x a]
        isPlotTimeSeriesA := p.isPlotTimeSeriesA ++ [ParseIniFile.flag a "plot_time_series"] }
      (A ++ [a]) C D (by
        simp only [ArgumentParser.optionLists, ParseIniFile.listsOf, Prod.mk.injEq] at h ⊢
        simp [h.1.1, h.1.2.1, h.1.2.2, h.2])
    simpa using this

theorem ParseIniFile.areasOfB_lists (x : Externals) (l : List TiXmlNode) :
    ∀ p : ArgumentParser, (ParseIniFile.areasOfB x l p).optionLists = p.optionLists := by
  induction l with
  | nil => intro p; rfl
  | cons a rest ih =>
    intro p
    unfold ParseIniFile.areasOfB
    rw [ih]
    rfl

theorem ParseIniFile.areasC_lists (x : Externals) (l : List TiXmlNode) :
    ∀ (p : ArgumentParser) (A C D : List TiXmlNode),
      p.optionLists = ParseIniFile.listsOf x A C D →
      (ParseIniFile.areasC x l p).optionLists = ParseIniFile.listsOf x A (C ++ l) D := by
  induction l with
  | nil =>
    intro p A C D h
    simpa [ParseIniFile.areasC] using h
  | cons a rest ih =>
    intro p A C D h
    unfold ParseIniFile.areasC
    have := ih
      { p with
        areaIDforMethodC := p.areaIDforMethodC ++ [x.xmltoi (a.Attribute "id")]
        isPlotTimeSeriesC := p.isPlotTimeSeriesC ++ [ParseIniFile.flag a "plot_time_series"] }
      A (C ++ [a]) D (by
        simp only [ArgumentParser.optionLists, ParseIniFile.listsOf, Prod.mk.injEq] at h ⊢
        simp [h.1, h.2.1.1, h.2.1.2, h.2.2])
    simpa using this

theorem ParseIniFile.areasD_lists (x : Externals) (l : List TiXmlNode) :
    ∀ (p : ArgumentParser) (A C D : List TiXmlNode),
      p.optionLists = ParseIniFile.listsOf x A C D →
      (ParseIniFile.areasD x l p).optionLists = ParseIniFile.listsOf x A C (D ++ l) := by
  induction l with
  | nil =>
    intro p A C D h
    simpa [ParseIniFile.areasD] using h
  | cons a rest ih =>
    intro p A C D h
    unfold ParseIniFile.areasD
    have := ih
      { p with
        areaIDforMethodD := p.areaIDforMethodD ++ [x.xmltoi (a.Attribute "id")]
        start_frames_MethodD := p.start_frames_MethodD ++
          [ParseIniFile.frame x a "start_frame"]
        stop_frames_MethodD := p.stop_frames_MethodD ++
          [ParseIniFile.frame x a "stop_frame"]
        individual_FD_flags := p.individual_FD_flags ++
          [ParseIniFile.flag a "get_individual_FD"]
        isPlotTimeSeriesD := p.isPlotTimeSeriesD ++
          [ParseIniFile.flag a "plot_time_series"] }
      A C (D ++ [a]) (by
        simp only [ArgumentParser.optionLists, ParseIniFile.listsOf, Prod.mk.injEq] at h ⊢
        simp [h.1, h.2.1, h.2.2.1, h.2.2.2.1, h.2.2.2.2.1, h.2.2.2.2.2.1, h.2.2.2.2.2.2])
    simpa using this

theorem ParseIniFile.method_A_lists (x : Externals) (xMainNode : TiXmlNode)
    (p p1 : ArgumentParser) (A C D : List TiXmlNode)
    (hp : p.optionLists = ParseIniFile.listsOf x A C D)
    (h : ParseIniFile.method_A x xMainNode p = Outcome.ret p1) :
    ∃ A1, p1.optionLists = ParseIniFile.listsOf x A1 C D := by
  unfold ParseIniFile.method_A at h
  repeat' split at h
  all_goals first
    | (simp at h; done)
    | (simp only [Outcome.ret.injEq] at h
       subst h
       first
         | exact ⟨_, ParseIniFile.areasA_lists x _ _ A C D (by exact hp)⟩
         | exact ⟨A, hp⟩)

theorem ParseIniFile.method_B_lists (x : Externals) (xMainNode : TiXmlNode)
    (p p1 : ArgumentParser) (h : ParseIniFile.method_B x xMainNode p = Outcome.ret p1) :
    p1.optionLists = p.optionLists := by
  unfold ParseIniFile.method_B at h
  repeat' split at h
  all_goals first
    | (simp at h; done)
    | (simp only [Outcome.ret.injEq] at h
       subst h
       first
         | rfl
         | (rw [ParseIniFile.areasOfB_lists]; rfl))

theorem ParseIniFile.method_C_lists (x : Externals) (xMainNode : TiXmlNode)
    (p p1 : ArgumentParser) (A C D : List TiXmlNode)
    (hp : p.optionLists = ParseIniFile.listsOf x A C D)
    (h : ParseIniFile.method_C x xMainNode p = Outcome.ret p1) :
    ∃ C1, p1.optionLists = ParseIniFile.listsOf x A C1 D := by
  unfold ParseIniFile.method_C at h
  repeat' split at h
  all_goals first
    | (simp at h; done)
    | (simp only [Outcome.ret.injEq] at h
       subst h
       first
         | exact ⟨_, ParseIniFile.areasC_lists x _ _ A C D (by exact hp)⟩
         | exact ⟨C, hp⟩)

theorem ParseIniFile.method_D_extras_lists (x : Externals) (xMethod_D : TiXmlNode) :
    (∀ p p1, ParseIniFile.one_dimensional xMethod_D p = Outcome.ret p1 →
      p1.optionLists = p.optionLists) ∧
    (∀ p p1, ParseIniFile.cut_by_circle x xMethod_D p = Outcome.ret p1 →
      p1.optionLists = p.optionLists) ∧
    (∀ p p1, ParseIniFile.output_voronoi_cells xMethod_D p = Outcome.ret p1 →
      p1.optionLists = p.optionLists) ∧
    (∀ p, (ParseIniFile.steadyState x xMethod_D p).optionLists = p.optionLists) ∧
    (∀ p p1, ParseIniFile.profiles x xMethod_D p = Outcome.ret p1 →
      p1.optionLists = p.optionLists) := by
  refine ⟨?_, ?_, ?_, ?_, ?_⟩
  · intro p p1 h
    unfold ParseIniFile.one_dimensional at h
    repeat' split at h
    all_goals first
      | (simp at h; done)
      | (simp only [Outcome.ret.injEq] at h; subst h; rfl)
  · intro p p1 h
    unfold ParseIniFile.cut_by_circle at h
    repeat' split at h
    all_goals first
      | (simp at h; done)
      | (simp only [Outcome.ret.injEq] at h; subst h; rfl)
  · intro p p1 h
    unfold ParseIniFile.output_voronoi_cells at h
    repeat' split at h
    all_goals first
      | (simp at h; done)
      | (simp only [Outcome.ret.injEq] at h; subst h; rfl)
  · intro p
    unfold ParseIniFile.steadyState
    split <;> rfl
  · intro p p1 h
    unfold ParseIniFile.profiles at h
    repeat' split at h
    all_goals first
      | (simp at h; done)
      | (simp only [Outcome.ret.injEq] at h; subst h; rfl)

theorem ParseIniFile.method_D_lists (x : Externals) (xMainNode : TiXmlNode)
    (p p1 : ArgumentParser) (A C D : List TiXmlNode)
    (hp : p.optionLists = ParseIniFile.listsOf x A C D)
    (h : ParseIniFile.method_D x xMainNode p = Outcome.ret p1) :
    ∃ D1, p1.optionLists = ParseIniFile.listsOf x A C D1 := by
  unfold ParseIniFile.method_D at h
  repeat' split at h
  all_goals first
    | (simp at h; done)
    | (simp only [Outcome.ret.injEq] at h
       subst h
       exact ⟨D, hp⟩)
    | (have E := ParseIniFile.method_D_extras_lists x
       obtain ⟨q1, e1, h⟩ := (Outcome.bind_eq_ret _ _ _).1 h
       obtain ⟨q2, e2, h⟩ := (Outcome.bind_eq_ret _ _ _).1 h
       obtain ⟨q3, e3, h⟩ := (Outcome.bind_eq_ret _ _ _).1 h
       have e := ((E _).2.2.2.2 _ _ h).trans (((E _).2.2.2.1 _).trans
         (((E _).2.2.1 _ _ e3).trans (((E _).2.1 _ _ e2).trans ((E _).1 _ _ e1))))
       exact ⟨_, e.trans (ParseIniFile.areasD_lists x _ _ A C D (by exact hp))⟩)

theorem ParseIniFile.methods_lists (x : Externals) (xMainNode : TiXmlNode)
    (p p1 : ArgumentParser) (ok : Bool) (A C D : List TiXmlNode)
    (hp : p.optionLists = ParseIniFile.listsOf x A C D)
    (h : ParseIniFile.methods x xMainNode p = Outcome.ret (p1, ok)) :
    ∃ A1 C1 D1, p1.optionLists = ParseIniFile.listsOf x A1 C1 D1 := by
  unfold ParseIniFile.methods at h
  obtain ⟨q1, e1, h⟩ := (Outcome.bind_eq_ret _ _ _).1 h
  obtain ⟨q2, e2, h⟩ := (Outcome.bind_eq_ret _ _ _).1 h
  obtain ⟨q3, e3, h⟩ := (Outcome.bind_eq_ret _ _ _).1 h
  obtain ⟨q4, e4, h⟩ := (Outcome.bind_eq_ret _ _ _).1 h
  simp only [Outcome.ret.injEq, Prod.mk.injEq] at h
  obtain ⟨rfl, _⟩ := h
  obtain ⟨A1, h1⟩ := ParseIniFile.method_A_lists x xMainNode p q1 A C D hp e1
  have h2 : q2.optionLists = ParseIniFile.listsOf x A1 C D :=
    (ParseIniFile.method_B_lists x xMainNode q1 q2 e2).trans h1
  obtain ⟨C1, h3⟩ := ParseIniFile.method_C_lists x xMainNode q2 q3 A1 C D h2 e3
  obtain ⟨D1, h4⟩ := ParseIniFile.method_D_lists x xMainNode q3 q4 A1 C1 D h3 e4
  exact ⟨A1, C1, D1, h4⟩

theorem ParseIniFile.lists_invariant (x : Externals) (fs : FileSystem) (inifile : String)
    (p p1 : ArgumentParser) (ok : Bool) (A C D : List TiXmlNode)
    (hp : p.optionLists = ParseIniFile.listsOf x A C D)
    (h : ParseIniFile x fs inifile p = Outcome.ret (p1, ok)) :
    ∃ A1 C1 D1, p1.optionLists = ParseIniFile.listsOf x A1 C1 D1 := by
  have h0 : (ParseIniFile.projectRootDir inifile p).optionLists =
      ParseIniFile.listsOf x A C D :=
    (ParseIniFile.projectRootDir_lists inifile p).trans hp
  have hchain : ∀ xMainNode : TiXmlNode,
      ParseIniFile.andThen
        (ParseIniFile.geometry xMainNode (ParseIniFile.projectRootDir inifile p))
        (fun p1 =>
          ParseIniFile.andThen (ParseIniFile.trajectories x fs xMainNode p1) fun p2 =>
            ParseIniFile.andThen (ParseIniFile.scripts fs xMainNode p2) fun p3 =>
              ParseIniFile.andThen (ParseIniFile.measurement_areas x xMainNode p3) fun p4 =>
                ParseIniFile.andThen (ParseIniFile.velocity x xMainNode p4) fun p5 =>
                  ParseIniFile.methods x xMainNode p5) = Outcome.ret (p1, ok) →
      ∃ A1 C1 D1, p1.optionLists = ParseIniFile.listsOf x A1 C1 D1 := by
    intro n hrun
    rcases ParseIniFile.andThen_eq_ret _ _ _ hrun with ⟨e, _⟩ | ⟨q1, e1, hrun⟩
    · exact ⟨A, C, D, (ParseIniFile.geometry_lists n _ p1 ok e).trans h0⟩
    have g1 := (ParseIniFile.geometry_lists n _ q1 true e1).trans h0
    rcases ParseIniFile.andThen_eq_ret _ _ _ hrun with ⟨e, _⟩ | ⟨q2, e2, hrun⟩
    · exact ⟨A, C, D, (ParseIniFile.trajectories_lists x fs n _ p1 ok e).trans g1⟩
    have g2 := (ParseIniFile.trajectories_lists x fs n _ q2 true e2).trans g1
    rcases ParseIniFile.andThen_eq_ret _ _ _ hrun with ⟨e, _⟩ | ⟨q3, e3, hrun⟩
    · exact ⟨A, C, D, (ParseIniFile.scripts_lists fs n _ p1 ok e).trans g2⟩
    have g3 := (ParseIniFile.scripts_lists fs n _ q3 true e3).trans g2
    rcases ParseIniFile.andThen_eq_ret _ _ _ hrun with ⟨e, _⟩ | ⟨q4, e4, hrun⟩
    · exact ⟨A, C, D, (ParseIniFile.measurement_areas_lists x n _ p1 ok e).trans g3⟩
    have g4 := (ParseIniFile.measurement_areas_lists x n _ q4 true e4).trans g3
    rcases ParseIniFile.andThen_eq_ret _ _ _ hrun with ⟨e, _⟩ | ⟨q5, e5, hrun⟩
    · exact ⟨A, C, D, (ParseIniFile.velocity_lists x n _ p1 ok e).trans g4⟩
    have g5 := (ParseIniFile.velocity_lists x n _ q5 true e5).trans g4
    exact ParseIniFile.methods_lists x n q5 p1 ok A C D g5 hrun
  unfold ParseIniFile at h
  repeat' split at h
  all_goals first
    | exact hchain _ h
    | (simp only [Outcome.ret.injEq, Prod.mk.injEq] at h
       obtain ⟨rfl, _⟩ := h
       exact ⟨A, C, D, h0⟩)

/-- Claim C30: when `ParseIniFile` returns on a freshly constructed parser,
whatever the document and whatever value it returns, there are lists of
measurement areas for the methods A, C and D such that every list of the
method holds, at each index, the value read from the area at that index: the
id, the frame interval and the plot flag for A; the id and the plot flag for
C; the id, the start frame, the stop frame, the individual-FD flag and the
plot flag for D. So the option lists of a method are as long as its area-id
list. A missing attribute or the value `None` gives the frame interval 100,
the frame -1 and the flag `false`. -/
theorem ParseIniFile_option_lists_aligned (x : Externals) (fs : FileSystem)
    (inifile : String) (p1 : ArgumentParser) (ok : Bool)
    (h : ParseIniFile x fs inifile newArgumentParser = Outcome.ret (p1, ok)) :
    (∃ areasA areasC areasD : List TiXmlNode,
      p1.areaIDforMethodA = areasA.map (fun area => x.xmltoi (area.Attribute "id")) ∧
      p1.timeIntervalA = areasA.map (ParseIniFile.frame_interval x) ∧
      p1.isPlotTimeSeriesA =
        areasA.map (fun area => ParseIniFile.flag area "plot_time_series") ∧
      p1.areaIDforMethodC = areasC.map (fun area => x.xmltoi (area.Attribute "id")) ∧
      p1.isPlotTimeSeriesC =
        areasC.map (fun area => ParseIniFile.flag area "plot_time_series") ∧
      p1.areaIDforMethodD = areasD.map (fun area => x.xmltoi (area.Attribute "id")) ∧
      p1.start_frames_MethodD =
        areasD.map (fun area => ParseIniFile.frame x area "start_frame") ∧
      p1.stop_frames_MethodD =
        areasD.map (fun area => ParseIniFile.frame x area "stop_frame") ∧
      p1.individual_FD_flags =
        areasD.map (fun area => ParseIniFile.flag area "get_individual_FD") ∧
      p1.isPlotTimeSeriesD =
        areasD.map (fun area => ParseIniFile.flag area "plot_time_series")) ∧
    (p1.timeIntervalA.length = p1.areaIDforMethodA.length ∧
      p1.isPlotTimeSeriesA.length = p1.areaIDforMethodA.length ∧
      p1.isPlotTimeSeriesC.length = p1.areaIDforMethodC.length ∧
      p1.start_frames_MethodD.length = p1.areaIDforMethodD.length ∧
      p1.stop_frames_MethodD.length = p1.areaIDforMethodD.length ∧
      p1.individual_FD_flags.length = p1.areaIDforMethodD.length ∧
      p1.isPlotTimeSeriesD.length = p1.areaIDforMethodD.length) ∧
    (∀ (area : TiXmlNode) (name : String),
      area.Attribute name = none ∨ area.Attribute name = some "None" →
      (name = "frame_interval" → ParseIniFile.frame_interval x area = 100) ∧
      ParseIniFile.frame x area name = -1 ∧ ParseIniFile.flag area name = false) := by
  obtain ⟨A, C, D, hl⟩ :=
    ParseIniFile.lists_invariant x fs inifile newArgumentParser p1 ok [] [] [] rfl h
  simp only [ArgumentParser.optionLists, ParseIniFile.listsOf, Prod.mk.injEq] at hl
  obtain ⟨⟨a1, a2, a3⟩, ⟨c1, c2⟩, d1, d2, d3, d4, d5⟩ := hl
  refine ⟨⟨A, C, D, a1, a2, a3, c1, c2, d1, d2, d3, d4, d5⟩, ?_, ?_⟩
  · simp [a1, a2, a3, c1, c2, d1, d2, d3, d4, d5]
  · intro area name hattr
    rcases hattr with hn | hn
    · refine ⟨fun hname => ?_, ?_, ?_⟩
      · subst hname
        simp [ParseIniFile.frame_interval, hn]
      · simp [ParseIniFile.frame, hn]
      · simp [ParseIniFile.flag, hn]
    · refine ⟨fun hname => ?_, ?_, ?_⟩
      · subst hname
        simp [ParseIniFile.frame_interval, hn]
      · simp [ParseIniFile.frame, hn]
      · simp [ParseIniFile.flag, hn]

/-- Claim C30, witness: the document enables the methods A and D, with two
areas for A and one for D, and leaves method C switched off. -/
theorem ParseIniFile_option_lists_aligned_witness :
    ParseIniFile sampleExternals methodsFiles "ini.xml" newArgumentParser =
      Outcome.ret
        ({ newArgumentParser with
          isMethodA := true
          isMethodD := true
          areaIDforMethodA := [1, 2]
          timeIntervalA := [100, 50]
          isPlotTimeSeriesA := [false, true]
          areaIDforMethodD := [3]
          start_frames_MethodD := [-1]
          stop_frames_MethodD := [-1]
          individual_FD_flags := [true]
          isPlotTimeSeriesD := [false] }, true) ∧
    ([100, 50] : List Int).length = ([1, 2] : List Int).length ∧
    ([false, true] : List Bool).length = ([1, 2] : List Int).length :=
  ⟨by decide,
    (ParseIniFile_option_lists_aligned sampleExternals methodsFiles "ini.xml" _ true
      (by decide :
        ParseIniFile sampleExternals methodsFiles "ini.xml" newArgumentParser =
          Outcome.ret
            ({ newArgumentParser with
              isMethodA := true
              isMethodD := true
              areaIDforMethodA := [1, 2]
              timeIntervalA := [100, 50]
              isPlotTimeSeriesA := [false, true]
              areaIDforMethodD := [3]
              start_frames_MethodD := [-1]
              stop_frames_MethodD := [-1]
              individual_FD_flags := [true]
              isPlotTimeSeriesD := [false] }, true))).2.1.1,
    (ParseIniFile_option_lists_aligned sampleExternals methodsFiles "ini.xml" _ true
      (by decide :
        ParseIniFile sampleExternals methodsFiles "ini.xml" newArgumentParser =
          Outcome.ret
            ({ newArgumentParser with
              isMethodA := true
              isMethodD := true
              areaIDforMethodA := [1, 2]
              timeIntervalA := [100, 50]
              isPlotTimeSeriesA := [false, true]
              areaIDforMethodD := [3]
              start_frames_MethodD := [-1]
              stop_frames_MethodD := [-1]
              individual_FD_flags := [true]
              isPlotTimeSeriesD := [false] }, true))).2.1.2.1⟩

theorem ParseIniFile.velocity_never_rejects (x : Externals) (xMainNode : TiXmlNode)
    (p p1 : ArgumentParser) :
    ParseIniFile.velocity x xMainNode p ≠ Outcome.ret (p1, false) := by
  intro h
  unfold ParseIniFile.velocity at h
  repeat' split at h
  all_goals first
    | (simp at h; done)
    | (rename_i hcond
       linarith [hcond.1, hcond.2.1])

/-- Claim C22, the input it fails on: the element `velocity` of the document has
the attribute `set_movement_direction` with the value `400`, which is neither
`None` nor `SeeTraj`. Whatever number `atof` makes of it, `ParseIniFile`
returns `true`, and the velocity component of the parser is `400`. -/
theorem ParseIniFile_accepts_direction_400 (x : Externals) :
    directionVelocity.Attribute "set_movement_direction" = some "400" ∧
    ParseIniFile x directionFiles "ini.xml" newArgumentParser =
      Outcome.ret ({ newArgumentParser with vComponent := "400" }, true) := by
  have hcond : ¬ (x.atof "400" < 0 ∧ x.atof "400" > 360 ∧ "400" ≠ "None" ∧
      "400" ≠ "SeeTraj") := fun h => by linarith [h.1, h.2.1]
  have hvel : ParseIniFile.velocity x directionRoot newArgumentParser =
      Outcome.ret ({ newArgumentParser with vComponent := "400" }, true) := by
    have h1 : directionRoot.FirstChild "velocity" = some directionVelocity := rfl
    have h2 : directionRoot.FirstChildElement "velocity" = some directionVelocity := rfl
    have h3 : directionVelocity.Attribute "set_movement_direction" = some "400" := rfl
    unfold ParseIniFile.velocity
    simp only [h1, h2, h3, if_neg hcond]
    rfl
  have hload : directionFiles.LoadFile "ini.xml" = some directionDocument := rfl
  have hroot : directionDocument.find? TiXmlNode.isElement = some directionRoot := rfl
  have hvalue : directionRoot.Value = "JPSreport" := rfl
  have hdir : ParseIniFile.projectRootDir "ini.xml" newArgumentParser = newArgumentParser :=
    rfl
  have hgeo : ParseIniFile.geometry directionRoot newArgumentParser =
      Outcome.ret (newArgumentParser, true) := rfl
  have htraj : ParseIniFile.trajectories x directionFiles directionRoot newArgumentParser =
      Outcome.ret (newArgumentParser, true) := rfl
  have hscripts : ParseIniFile.scripts directionFiles directionRoot newArgumentParser =
      Outcome.ret (newArgumentParser, true) := rfl
  have hareas : ParseIniFile.measurement_areas x directionRoot newArgumentParser =
      Outcome.ret (newArgumentParser, true) := rfl
  have hmethods : ParseIniFile.methods x directionRoot
      { newArgumentParser with vComponent := "400" } =
      Outcome.ret ({ newArgumentParser with vComponent := "400" }, true) := rfl
  refine ⟨rfl, ?_⟩
  unfold ParseIniFile
  simp only [hload, hroot, hvalue, hdir, hgeo, htraj, hscripts, hareas, hvel, hmethods,
    ParseIniFile.andThen, Outcome.bind, ne_eq, not_true_eq_false, if_false, if_true]

end JuPedSim
